import Mathlib

/-!
# Paint and RenderState of package gi (paint.go)

A shallow embedding of the painting core: the render state with its transform,
bounds and clip stacks, the stroke-width rule and the elliptical-arc routines.

Conventions of the embedding.

* The scalar type of the source is float32.  Definitions that only move values
  around are generic in the scalar type; numerical definitions are stated over
  an ordered field, and the routines that call package math32 over the reals.
* A Go slice is a list, the last element being the top of a stack.  A nil slice
  and an empty slice are both the empty list: the source only ever applies len
  and append to them, which do not tell the two apart.
* A Go pointer that may be nil is an Option; dereferencing nil makes the
  operation return none.
* A method with a pointer receiver returns the updated receiver.
* The reals have neither infinities nor NaN.  DrawEllipticalArcPath divides by
  its radii: there a quotient by zero is the float32 value (Float32Quotient), so
  that the definition follows the source for a zero radius as well.
-/

namespace Gi

/-! ## Types declared outside paint.go -/

/-- Point of the standard package image: integer pixel coordinates. -/
structure Point where
  X : Int
  Y : Int
deriving DecidableEq, Inhabited

/-- Rectangle of the standard package image, from Min (inclusive) to Max (exclusive). -/
structure Rectangle where
  Min : Point
  Max : Point
deriving DecidableEq, Inhabited

/-- Method Empty of image.Rectangle: the rectangle contains no points. -/
def Rectangle.Empty (r : Rectangle) : Bool :=
  decide (r.Min.X ≥ r.Max.X) || decide (r.Min.Y ≥ r.Max.Y)

/-- Alpha image of the standard package image: pixel bytes, stride and bounds. -/
structure Alpha where
  Pix : List Nat
  Stride : Int
  Rect : Rectangle
deriving DecidableEq, Inhabited

/-- RGBA image of the standard package image: pixel bytes, stride and bounds. -/
structure RGBA where
  Pix : List Nat
  Stride : Int
  Rect : Rectangle
deriving DecidableEq, Inhabited

/-- Method Bounds of image.Alpha. -/
def Alpha.Bounds (m : Alpha) : Rectangle := m.Rect

/-- Method Bounds of image.RGBA. -/
def RGBA.Bounds (m : RGBA) : Rectangle := m.Rect

/-- Point26_6 of package fixed: a point in 26.6 fixed-point coordinates. -/
structure Point26_6 where
  X : Int
  Y : Int
deriving DecidableEq, Inhabited

/-- Modelled from the spec: the two-component vector Vec2D, whose declaration is
not in paint.go; the fields X and Y are the ones paint.go reads. -/
structure Vec2D (α : Type) where
  X : α
  Y : α
deriving DecidableEq, Inhabited

/-- Modelled from the spec: the affine transform of section 3 (type XFormMatrix2D,
declared outside paint.go), six scalars standing for the map p ↦ M·p + t.  The
field names are the ones DrawImageAnchored reads. -/
structure XFormMatrix2D (α : Type) where
  XX : α
  YX : α
  XY : α
  YY : α
  X0 : α
  Y0 : α
deriving DecidableEq, Inhabited

/-- Modelled from the spec: Identity2D, the neutral transform (section 4.1). -/
def Identity2D {α : Type} [Zero α] [One α] : XFormMatrix2D α :=
  { XX := 1, YX := 0, XY := 0, YY := 1, X0 := 0, Y0 := 0 }

/-- Modelled from the spec: transformPoint of section 4.1, the image of the
point (x, y) under p ↦ M·p + t, rows (XX XY X0) and (YX YY Y0) as in the Aff3
that DrawImageAnchored builds. -/
def XFormMatrix2D.TransformPoint {α : Type} [Add α] [Mul α]
    (a : XFormMatrix2D α) (x y : α) : α × α :=
  (a.XX * x + a.XY * y + a.X0, a.YX * x + a.YY * y + a.Y0)

/-- Modelled from the spec: multiply of section 4.1, the matrix product a·b of
two affine maps, so that a·b sends p to a(b(p)): the right factor applies
within the left one (section 3). -/
def XFormMatrix2D.Multiply {α : Type} [Add α] [Mul α]
    (a b : XFormMatrix2D α) : XFormMatrix2D α :=
  { XX := a.XX * b.XX + a.XY * b.YX
    YX := a.YX * b.XX + a.YY * b.YX
    XY := a.XX * b.XY + a.XY * b.YY
    YY := a.YX * b.XY + a.YY * b.YY
    X0 := a.XX * b.X0 + a.XY * b.Y0 + a.X0
    Y0 := a.YX * b.X0 + a.YY * b.Y0 + a.Y0 }

/-- Modelled from the spec: Max32, the larger of two scalars (the max of the
stroke-width rule, section 4.6); its declaration is not in paint.go. -/
def Max32 {α : Type} [LinearOrder α] (a b : α) : α := max a b

/-- Modelled from the spec: a length of package units, of which paint.go reads
only Dots, the value converted to device pixels. -/
structure Value (α : Type) where
  Val : α
  Un : Nat
  Dots : α
deriving DecidableEq, Inhabited

/-- Modelled from the spec: the unit context of section 3 (DPI, viewport size
and element size), declared in package units. -/
structure Context (α : Type) where
  DPI : α
  VpW : α
  VpH : α
  ElW : α
  ElH : α
deriving DecidableEq, Inhabited

/-- Modelled from the spec: the cap styles of section 3. -/
inductive LineCap where
  | LineCapButt | LineCapRound | LineCapSquare | LineCapCubic | LineCapQuadratic
deriving DecidableEq, Inhabited

/-- Modelled from the spec: the join styles of section 3. -/
inductive LineJoin where
  | LineJoinMiter | LineJoinMiterClip | LineJoinRound | LineJoinBevel
  | LineJoinArcs | LineJoinArcsClip
deriving DecidableEq, Inhabited

/-- Modelled from the spec: the stroke style bundle of section 3, with the
fields paint.go reads. -/
structure StrokeStyle (α : Type) where
  On : Bool
  Opacity : α
  Width : Value α
  MinWidth : Value α
  Dashes : List α
  Cap : LineCap
  Join : LineJoin
  MiterLimit : α
deriving DecidableEq, Inhabited

/-- Modelled from the spec: the winding rules of section 3. -/
inductive FillRule where
  | FillRuleNonZero | FillRuleEvenOdd
deriving DecidableEq, Inhabited

/-- Modelled from the spec: the fill style bundle of section 3, with the fields
paint.go reads. -/
structure FillStyle (α : Type) where
  On : Bool
  Opacity : α
  Rule : FillRule
deriving DecidableEq, Inhabited

/-- Modelled from the spec: the font style bundle of section 3; the face is a
handle that may be nil. -/
structure FontStyle (α : Type) where
  Face : Option Nat
  Height : α
deriving DecidableEq, Inhabited

/-! ## Paint -/

/-- VectorEffect of paint.go. -/
inductive VectorEffect where
  | VecEffNone
  | VecEffNonScalingStroke
  | VecEffN
deriving DecidableEq, Inhabited

/-- Paint of paint.go. -/
structure Paint (α : Type) where
  Off : Bool
  StyleSet : Bool
  PropsNil : Bool
  UnContext : Context α
  StrokeStyle : StrokeStyle α
  FillStyle : FillStyle α
  FontStyle : FontStyle α
  Opacity : α
  VecEff : VectorEffect
  XForm : XFormMatrix2D α
  dotsSet : Bool
  lastUnCtxt : Context α
deriving DecidableEq, Inhabited

/-! ## RenderState -/

/-- A call on the rasterx path of the render state: the source builds the path
with the methods Start, Line, QuadBezier, CubeBezier and Stop of rasterx.Path,
and the path is the record of these calls since the last Clear. -/
inductive PathCmd where
  | Start (a : Point26_6)
  | Line (b : Point26_6)
  | QuadBezier (b c : Point26_6)
  | CubeBezier (b c d : Point26_6)
  | Stop (closeLoop : Bool)
deriving DecidableEq, Inhabited

/-- RenderState of paint.go.  Raster and Scanner are handles to the external
rasterizer and scanner. -/
structure RenderState (α : Type) where
  Paint : Gi.Paint α
  XForm : XFormMatrix2D α
  Path : List PathCmd
  Raster : Option Nat
  Scanner : Option Nat
  Start : Vec2D α
  Current : Vec2D α
  HasCurrent : Bool
  Image : Option RGBA
  Mask : Option Alpha
  Bounds : Rectangle
  ObjBounds : Rectangle
  XFormStack : List (XFormMatrix2D α)
  BoundsStack : List Rectangle
  ClipStack : List (Option Alpha)
deriving DecidableEq, Inhabited

section Stacks

variable {α : Type}

/-- PushXForm of paint.go: push current xform onto stack and apply new xform on
top of it. -/
def RenderState.PushXForm [Add α] [Mul α] (rs : RenderState α) (xf : XFormMatrix2D α) :
    RenderState α :=
  { rs with
    XFormStack := rs.XFormStack ++ [rs.XForm]
    XForm := rs.XForm.Multiply xf }

/-- PopXForm of paint.go: pop xform off the stack and set to current xform. -/
def RenderState.PopXForm [Zero α] [One α] (rs : RenderState α) : RenderState α :=
  if h : rs.XFormStack.length = 0 then
    { rs with XForm := Identity2D }
  else
    let sz := rs.XFormStack.length
    { rs with
      XForm := rs.XFormStack.get ⟨sz - 1, Nat.sub_lt (Nat.pos_of_ne_zero h) Nat.one_pos⟩
      XFormStack := rs.XFormStack.take (sz - 1) }

/-- The result of rs.Image.Bounds(): none when the image pointer is nil. -/
def RenderState.ImageBounds (rs : RenderState α) : Option Rectangle :=
  rs.Image.map RGBA.Bounds

/-- PushBounds of paint.go: push current bounds onto stack and set new bounds. -/
def RenderState.PushBounds (rs : RenderState α) (b objb : Rectangle) :
    Option (RenderState α) := do
  let rs1 ← if rs.Bounds.Empty then
      rs.ImageBounds.map (fun ib => { rs with Bounds := ib })
    else
      some rs
  some { rs1 with
    BoundsStack := rs1.BoundsStack ++ [rs1.Bounds]
    Bounds := b
    ObjBounds := objb }

/-- PopBounds of paint.go: pop bounds off the stack and set to current bounds. -/
def RenderState.PopBounds (rs : RenderState α) : Option (RenderState α) :=
  if h : rs.BoundsStack.length = 0 then
    rs.ImageBounds.map (fun ib => { rs with Bounds := ib })
  else
    let sz := rs.BoundsStack.length
    some { rs with
      Bounds := rs.BoundsStack.get ⟨sz - 1, Nat.sub_lt (Nat.pos_of_ne_zero h) Nat.one_pos⟩
      BoundsStack := rs.BoundsStack.take (sz - 1) }

/-- PushClip of paint.go: push current Mask onto the clip stack. -/
def RenderState.PushClip (rs : RenderState α) : RenderState α :=
  match rs.Mask with
  | none => rs
  | some m => { rs with ClipStack := rs.ClipStack ++ [some m] }

/-- PopClip of paint.go: pop Mask off the clip stack and set to current mask. -/
def RenderState.PopClip (rs : RenderState α) : RenderState α :=
  if h : rs.ClipStack.length = 0 then
    { rs with Mask := none }
  else
    let sz := rs.ClipStack.length
    { rs with
      Mask := rs.ClipStack.get ⟨sz - 1, Nat.sub_lt (Nat.pos_of_ne_zero h) Nat.one_pos⟩
      ClipStack := rs.ClipStack.take (sz - 1) }

/-- One call on the transform stack. -/
inductive XFormOp (α : Type) where
  | push (xf : XFormMatrix2D α)
  | pop

/-- Perform one call on the transform stack. -/
def XFormOp.apply [Zero α] [One α] [Add α] [Mul α] (rs : RenderState α) :
    XFormOp α → RenderState α
  | .push xf => rs.PushXForm xf
  | .pop => rs.PopXForm

/-- Perform a sequence of calls on the transform stack, first to last. -/
def runXFormOps [Zero α] [One α] [Add α] [Mul α] (rs : RenderState α)
    (ops : List (XFormOp α)) : RenderState α :=
  ops.foldl XFormOp.apply rs

/-- The number of pushes of the sequence still open at its end, counted from d
open pushes; none as soon as a pop finds no open push. -/
def nestDepth : Nat → List (XFormOp α) → Option Nat
  | d, [] => some d
  | d, .push _ :: ops => nestDepth (d + 1) ops
  | 0, .pop :: _ => none
  | d + 1, .pop :: ops => nestDepth d ops

/-- A sequence of calls is well nested: every pop closes an earlier push of the
sequence and no push stays open. -/
def wellNested (ops : List (XFormOp α)) : Bool :=
  nestDepth 0 ops == some 0

end Stacks

/-! ## Path manipulation and stroke width -/

section PaintOps

variable {α : Type}

/-- TransformPoint of paint.go: multiplies the specified point by the current
transform matrix, returning a transformed position. -/
def Paint.TransformPoint [Add α] [Mul α] (_pc : Paint α) (rs : RenderState α) (x y : α) :
    Vec2D α :=
  let t := rs.XForm.TransformPoint x y
  { X := t.1, Y := t.2 }

/-- StrokeWidth of paint.go: the current stroke width subject to transform (or
not, depending on VecEffNonScalingStroke). -/
def Paint.StrokeWidth [LinearOrderedField α] (pc : Paint α) (rs : RenderState α) : α :=
  let dw := pc.StrokeStyle.Width.Dots
  if dw = 0 then
    dw
  else if pc.VecEff = VectorEffect.VecEffNonScalingStroke then
    dw
  else
    let scf := 0.5 * (rs.XForm.XX + rs.XForm.YY)
    let lw := Max32 (scf * dw) pc.StrokeStyle.MinWidth.Dots
    lw

/-- MoveTo of paint.go: starts a new subpath within the current path starting at
the specified point.  Fixed is the conversion of a device point to fixed point
(method Fixed of Vec2D, declared outside paint.go). -/
def Paint.MoveTo [Add α] [Mul α] (Fixed : Vec2D α → Point26_6) (pc : Paint α)
    (rs : RenderState α) (x y : α) : RenderState α :=
  let rs1 := if rs.HasCurrent then { rs with Path := rs.Path ++ [PathCmd.Stop false] } else rs
  let p := pc.TransformPoint rs1 x y
  { rs1 with
    Path := rs1.Path ++ [PathCmd.Start (Fixed p)]
    Start := p
    Current := p
    HasCurrent := true }

/-- LineTo of paint.go: adds a line segment to the current path starting at the
current point; with no current point it is MoveTo. -/
def Paint.LineTo [Add α] [Mul α] (Fixed : Vec2D α → Point26_6) (pc : Paint α)
    (rs : RenderState α) (x y : α) : RenderState α :=
  if !rs.HasCurrent then
    pc.MoveTo Fixed rs x y
  else
    let p := pc.TransformPoint rs x y
    { rs with
      Path := rs.Path ++ [PathCmd.Line (Fixed p)]
      Current := p }

/-- QuadraticTo of paint.go: adds a quadratic bezier curve to the current path
starting at the current point; with no current point it first performs
MoveTo(x1, y1). -/
def Paint.QuadraticTo [Add α] [Mul α] (Fixed : Vec2D α → Point26_6) (pc : Paint α)
    (rs : RenderState α) (x1 y1 x2 y2 : α) : RenderState α :=
  let rs1 := if !rs.HasCurrent then pc.MoveTo Fixed rs x1 y1 else rs
  let p1 := pc.TransformPoint rs1 x1 y1
  let p2 := pc.TransformPoint rs1 x2 y2
  { rs1 with
    Path := rs1.Path ++ [PathCmd.QuadBezier (Fixed p1) (Fixed p2)]
    Current := p2 }

/-- CubicTo of paint.go: adds a cubic bezier curve to the current path starting
at the current point; with no current point it first performs MoveTo(x1, y1). -/
def Paint.CubicTo [Add α] [Mul α] (Fixed : Vec2D α → Point26_6) (pc : Paint α)
    (rs : RenderState α) (x1 y1 x2 y2 x3 y3 : α) : RenderState α :=
  let rs1 := if !rs.HasCurrent then pc.MoveTo Fixed rs x1 y1 else rs
  let b := pc.TransformPoint rs1 x1 y1
  let c := pc.TransformPoint rs1 x2 y2
  let d := pc.TransformPoint rs1 x3 y3
  { rs1 with
    Path := rs1.Path ++ [PathCmd.CubeBezier (Fixed b) (Fixed c) (Fixed d)]
    Current := d }

/-- ClosePath of paint.go: adds a line segment from the current point to the
beginning of the current subpath; with no current point it does nothing. -/
def Paint.ClosePath (_pc : Paint α) (rs : RenderState α) : RenderState α :=
  if rs.HasCurrent then
    { rs with
      Path := rs.Path ++ [PathCmd.Stop true]
      Current := rs.Start }
  else
    rs

/-- ClearPath of paint.go: clears the current path; there is no current point
after this operation. -/
def Paint.ClearPath (_pc : Paint α) (rs : RenderState α) : RenderState α :=
  { rs with Path := [], HasCurrent := false }

/-- NewSubPath of paint.go: there is no current point after this operation. -/
def Paint.NewSubPath (_pc : Paint α) (rs : RenderState α) : RenderState α :=
  { rs with HasCurrent := false }

/-- Read a run of path commands with the pen at a given position and the open
subpath started at a given point: the segments drawn, each as the pair of the
point where it starts and the point where it ends. -/
def segmentEnds : Point26_6 → Point26_6 → List PathCmd → List (Point26_6 × Point26_6)
  | _, _, [] => []
  | _, _, .Start a :: cs => segmentEnds a a cs
  | st, pen, .Line b :: cs => (pen, b) :: segmentEnds st b cs
  | st, pen, .QuadBezier _ c :: cs => (pen, c) :: segmentEnds st c cs
  | st, pen, .CubeBezier _ _ d :: cs => (pen, d) :: segmentEnds st d cs
  | st, pen, .Stop true :: cs => (pen, st) :: segmentEnds st st cs
  | st, pen, .Stop false :: cs => segmentEnds st pen cs

/-- The number of cubic segments of a run of path commands. -/
def countCubics : List PathCmd → Nat
  | [] => 0
  | .CubeBezier _ _ _ :: cs => countCubics cs + 1
  | .Start _ :: cs => countCubics cs
  | .Line _ :: cs => countCubics cs
  | .QuadBezier _ _ :: cs => countCubics cs
  | .Stop _ :: cs => countCubics cs

/-- The path command of a cubic segment given by its two control points and its
end point. -/
def cubicCmd (t : Point26_6 × Point26_6 × Point26_6) : PathCmd :=
  PathCmd.CubeBezier t.1 t.2.1 t.2.2

end PaintOps

/-! ## The elliptical-arc routines, over the reals -/

noncomputable section Arcs

/-- Atan2 of package math32 over the reals: the angle in (-π, π] of the point
(x, y), and 0 at the origin. -/
def Atan2 (y x : ℝ) : ℝ := Complex.arg ⟨x, y⟩

/-- Conversion of a scalar to int in Go: the fraction is discarded. -/
def truncToInt (x : ℝ) : Int := if 0 ≤ x then ⌊x⌋ else ⌈x⌉

/-- MaxDx of paint.go: the maximum radians a cubic splice is allowed to span. -/
def MaxDx : ℝ := Real.pi / 8

/-- Function ellipsePrime of paint.go: tangent vectors for the parameterized
ellipse. -/
def ellipsePrime (a b sinTheta cosTheta eta _cx _cy : ℝ) : ℝ × ℝ :=
  let bCosEta := b * Real.cos eta
  let aSinEta := a * Real.sin eta
  (-aSinEta * cosTheta - bCosEta * sinTheta, -aSinEta * sinTheta + bCosEta * cosTheta)

/-- Function ellipsePointAt of paint.go: points for the parameterized ellipse. -/
def ellipsePointAt (a b sinTheta cosTheta eta cx cy : ℝ) : ℝ × ℝ :=
  let aCosEta := a * Real.cos eta
  let bSinEta := b * Real.sin eta
  (cx + aCosEta * cosTheta - bSinEta * sinTheta, cy + aCosEta * sinTheta + bSinEta * cosTheta)

/-- What FindEllipseCenter hands back: the centre it returns and the radii held
by its two pointer arguments after the call. -/
structure EllipseCenter where
  cx : ℝ
  cy : ℝ
  rx : ℝ
  ry : ℝ

/-- The half chord of FindEllipseCenter in the frame where the ellipse is a
circle of radius ry: the values midX and midY of the source. -/
def ellipseMid (rx ry rotX startX startY endX endY : ℝ) : ℝ × ℝ :=
  let cos := Real.cos rotX
  let sin := Real.sin rotX
  let nx := endX - startX
  let ny := endY - startY
  let nx1 := nx * cos + ny * sin
  let ny1 := -nx * sin + ny * cos
  let nx2 := nx1 * (ry / rx)
  (nx2 / 2, ny1 / 2)

/-- FindEllipseCenter of paint.go: locates the center of the ellipse, increasing
the radii when no ellipse with the requested radii passes through both points. -/
def FindEllipseCenter (rx ry rotX startX startY endX endY : ℝ) (sweep largeArc : Bool) :
    EllipseCenter :=
  let cos := Real.cos rotX
  let sin := Real.sin rotX
  let mid := ellipseMid rx ry rotX startX startY endX endY
  let midX := mid.1
  let midY := mid.2
  let midlenSq := midX * midX + midY * midY
  let nry := Real.sqrt midlenSq
  let small : Prop := ry * ry < midlenSq
  let rx1 := if small then (if rx = ry then nry else rx * nry / ry) else rx
  let ry1 := if small then nry else ry
  let hr := if small then 0 else Real.sqrt (ry * ry - midlenSq) / Real.sqrt midlenSq
  let c : ℝ × ℝ :=
    if (!sweep && !largeArc) || (sweep && largeArc) then
      (midX + midY * hr, midY - midX * hr)
    else
      (midX - midY * hr, midY + midX * hr)
  let cx1 := c.1 * (rx1 / ry1)
  { cx := cx1 * cos - c.2 * sin + startX
    cy := cx1 * sin + c.2 * cos + startY
    rx := rx1
    ry := ry1 }

/-- The point (px, py) lies on the ellipse centred at (cx, cy) with radii rx and
ry whose x-axis is rotated by rotX. -/
def onEllipse (cx cy rx ry rotX px py : ℝ) : Prop :=
  let u := (px - cx) * Real.cos rotX + (py - cy) * Real.sin rotX
  let v := -(px - cx) * Real.sin rotX + (py - cy) * Real.cos rotX
  (u / rx) ^ 2 + (v / ry) ^ 2 = 1

/-- The value etaStart of DrawEllipticalArcPath when neither radius is zero. -/
def arcEtaStart (cx cy pcx pcy rx ry angle : ℝ) : ℝ :=
  let rotX := angle * Real.pi / 180
  let startAngle := Atan2 (pcy - cy) (pcx - cx) - rotX
  Atan2 (Real.sin startAngle / ry) (Real.cos startAngle / rx)

/-- The value deltaEta of DrawEllipticalArcPath after the large-arc flip and the
sweep correction, when neither radius is zero. -/
def arcDeltaEta (cx cy ocx ocy pcx pcy rx ry angle : ℝ) (largeArc sweep : Bool) : ℝ :=
  let rotX := angle * Real.pi / 180
  let startAngle := Atan2 (pcy - cy) (pcx - cx) - rotX
  let endAngle := Atan2 (ocy - cy) (ocx - cx) - rotX
  let deltaTheta := endAngle - startAngle
  let arcBig : Prop := |deltaTheta| > Real.pi
  let etaStart := Atan2 (Real.sin startAngle / ry) (Real.cos startAngle / rx)
  let etaEnd := Atan2 (Real.sin endAngle / ry) (Real.cos endAngle / rx)
  let deltaEta := etaEnd - etaStart
  let deltaEta1 :=
    if (arcBig ∧ largeArc = false) ∨ (¬ arcBig ∧ largeArc = true) then
      (if deltaEta < 0 then deltaEta + Real.pi * 2 else deltaEta - Real.pi * 2)
    else
      deltaEta
  if deltaEta1 < 0 ∧ sweep = true then
    deltaEta1 + Real.pi * 2
  else if deltaEta1 ≥ 0 ∧ sweep = false then
    deltaEta1 - Real.pi * 2
  else
    deltaEta1

/-- The value segs of DrawEllipticalArcPath: the number of cubic splines. -/
def arcSegs (deltaEta : ℝ) : Int :=
  truncToInt (|deltaEta| / MaxDx) + 1

/-- The loop of DrawEllipticalArcPath, entered at index i with the given number
of iterations left to run; it returns the render state and the last point. -/
def arcLoop (Fixed : Vec2D ℝ → Point26_6) (pc : Paint ℝ)
    (cx cy ocx ocy rx ry sinTheta cosTheta etaStart dEta alpha : ℝ) (segs : Int) :
    Nat → Int → RenderState ℝ → ℝ → ℝ → ℝ → ℝ → RenderState ℝ × ℝ × ℝ
  | 0, _, rs, lx, ly, _, _ => (rs, lx, ly)
  | n + 1, i, rs, lx, ly, ldx, ldy =>
    let eta := etaStart + dEta * (i : ℝ)
    let p : ℝ × ℝ :=
      if i = segs then (ocx, ocy)
      else ellipsePointAt rx ry sinTheta cosTheta eta cx cy
    let d := ellipsePrime rx ry sinTheta cosTheta eta cx cy
    let rs1 := pc.CubicTo Fixed rs (lx + alpha * ldx) (ly + alpha * ldy)
      (p.1 - alpha * d.1) (p.2 - alpha * d.2) p.1 p.2
    arcLoop Fixed pc cx cy ocx ocy rx ry sinTheta cosTheta etaStart dEta alpha segs
      n (i + 1) rs1 p.1 p.2 d.1 d.2

/-- A float32 value as the quotient of two real numbers gives it: a real number,
an infinity, or NaN (not a number). -/
inductive Float32Quotient where
  | fin (x : ℝ)
  | posInf
  | negInf
  | nan

/-- The float32 quotient a / b of two real numbers.  Division by zero gives NaN
when the numerator is zero and otherwise the infinity of the sign of the
numerator (the zero divisor being +0). -/
def div32 (a b : ℝ) : Float32Quotient :=
  if b = 0 then
    (if a = 0 then Float32Quotient.nan
      else if 0 < a then Float32Quotient.posInf else Float32Quotient.negInf)
  else Float32Quotient.fin (a / b)

/-- Atan2 of package math32 on such values, with the special cases of the
package for infinities and NaN; none stands for NaN. -/
def Atan2Quotient : Float32Quotient → Float32Quotient → Option ℝ
  | Float32Quotient.nan, _ => none
  | Float32Quotient.fin _, Float32Quotient.nan => none
  | Float32Quotient.posInf, Float32Quotient.nan => none
  | Float32Quotient.negInf, Float32Quotient.nan => none
  | Float32Quotient.fin y, Float32Quotient.fin x => some (Atan2 y x)
  | Float32Quotient.fin _, Float32Quotient.posInf => some 0
  | Float32Quotient.fin y, Float32Quotient.negInf => some (if 0 ≤ y then Real.pi else -Real.pi)
  | Float32Quotient.posInf, Float32Quotient.fin _ => some (Real.pi / 2)
  | Float32Quotient.negInf, Float32Quotient.fin _ => some (-(Real.pi / 2))
  | Float32Quotient.posInf, Float32Quotient.posInf => some (Real.pi / 4)
  | Float32Quotient.negInf, Float32Quotient.posInf => some (-(Real.pi / 4))
  | Float32Quotient.posInf, Float32Quotient.negInf => some (3 * Real.pi / 4)
  | Float32Quotient.negInf, Float32Quotient.negInf => some (-(3 * Real.pi / 4))

/-- The expression Atan2(Sin(a)/ry, Cos(a)/rx) of DrawEllipticalArcPath, which
gives etaStart and etaEnd; none stands for NaN, which arises when a radius is
zero and the sine or cosine it divides is zero too. -/
def arcEta (a rx ry : ℝ) : Option ℝ :=
  Atan2Quotient (div32 (Real.sin a) ry) (div32 (Real.cos a) rx)

/-- The large-arc flip and the sweep correction of DrawEllipticalArcPath, applied
to deltaEta = etaEnd - etaStart. -/
def arcSweep (deltaTheta deltaEta : ℝ) (largeArc sweep : Bool) : ℝ :=
  let arcBig : Prop := |deltaTheta| > Real.pi
  let deltaEta1 :=
    if (arcBig ∧ largeArc = false) ∨ (¬ arcBig ∧ largeArc = true) then
      (if deltaEta < 0 then deltaEta + Real.pi * 2 else deltaEta - Real.pi * 2)
    else
      deltaEta
  if deltaEta1 < 0 ∧ sweep = true then
    deltaEta1 + Real.pi * 2
  else if deltaEta1 ≥ 0 ∧ sweep = false then
    deltaEta1 - Real.pi * 2
  else
    deltaEta1

/-- The part of DrawEllipticalArcPath from the number of segments on, for a
corrected sweep deltaEta that is a number.  The loop runs for i from 1 to segs,
that is segs.toNat times. -/
def arcCubics (Fixed : Vec2D ℝ → Point26_6) (pc : Paint ℝ) (rs : RenderState ℝ)
    (cx cy ocx ocy pcx pcy rx ry rotX etaStart deltaEta : ℝ) : RenderState ℝ × ℝ × ℝ :=
  let segs := arcSegs deltaEta
  let dEta := deltaEta / (segs : ℝ)
  let tde := Real.tan (dEta / 2)
  let alpha := Real.sin dEta * (Real.sqrt (4 + 3 * tde * tde) - 1) / 3
  let sinTheta := Real.sin rotX
  let cosTheta := Real.cos rotX
  let ld := ellipsePrime rx ry sinTheta cosTheta etaStart cx cy
  arcLoop Fixed pc cx cy ocx ocy rx ry sinTheta cosTheta etaStart dEta alpha segs
    segs.toNat 1 rs pcx pcy ld.1 ld.2

/-- DrawEllipticalArcPath of paint.go: draws an arc centered at cx, cy with radii
rx, ry from the previous point pcx, pcy to ocx, ocy; it returns the render state
and the last point lx, ly.  When etaStart or etaEnd is NaN, so is deltaEta:
every comparison with it is false, the conversion int(NaN) gives the most
negative int (as it does on amd64; Go leaves the value to the implementation),
segs is negative, the loop does not run and the previous point is returned. -/
def Paint.DrawEllipticalArcPath (Fixed : Vec2D ℝ → Point26_6) (pc : Paint ℝ)
    (rs : RenderState ℝ) (cx cy ocx ocy pcx pcy rx ry angle : ℝ) (largeArc sweep : Bool) :
    RenderState ℝ × ℝ × ℝ :=
  let rotX := angle * Real.pi / 180
  let startAngle := Atan2 (pcy - cy) (pcx - cx) - rotX
  let endAngle := Atan2 (ocy - cy) (ocx - cx) - rotX
  let deltaTheta := endAngle - startAngle
  match arcEta startAngle rx ry, arcEta endAngle rx ry with
  | some etaStart, some etaEnd =>
    arcCubics Fixed pc rs cx cy ocx ocy pcx pcy rx ry rotX etaStart
      (arcSweep deltaTheta (etaEnd - etaStart) largeArc sweep)
  | _, _ => (rs, pcx, pcy)

/-- The point of parameter eta on the ellipse of centre (cx, cy) and radii rx,
ry whose x-axis is rotated by theta. -/
def arcPointSpec (cx cy rx ry theta eta : ℝ) : ℝ × ℝ :=
  (cx + rx * Real.cos eta * Real.cos theta - ry * Real.sin eta * Real.sin theta,
    cy + rx * Real.cos eta * Real.sin theta + ry * Real.sin eta * Real.cos theta)

/-- The derivative of that point in the parameter eta: the tangent vector of the
ellipse. -/
def arcTangentSpec (rx ry theta eta : ℝ) : ℝ × ℝ :=
  (-(rx * Real.sin eta * Real.cos theta) - ry * Real.cos eta * Real.sin theta,
    -(rx * Real.sin eta * Real.sin theta) + ry * Real.cos eta * Real.cos theta)

/-- The factor α = sin(Δη)(√(4 + 3 tan²(Δη/2)) − 1)/3 of the tangent-matching
formula, as the specification gives it. -/
def arcAlphaSpec (dEta : ℝ) : ℝ :=
  Real.sin dEta * (Real.sqrt (4 + 3 * Real.tan (dEta / 2) ^ 2) - 1) / 3

/-- The nodes of an arc of segs segments that each span the parametric angle
dEta: node 0 is the previous point, node segs the supplied end point, and node k
in between the point of parameter etaStart + k·dEta of the ellipse. -/
def arcNodeSpec (cx cy ocx ocy pcx pcy rx ry theta etaStart dEta : ℝ) (segs : Int)
    (k : Nat) : ℝ × ℝ :=
  if k = 0 then (pcx, pcy)
  else if (k : Int) = segs then (ocx, ocy)
  else arcPointSpec cx cy rx ry theta (etaStart + dEta * (k : ℝ))

/-- The cubic segment number j (counted from 0) of such an arc, as its two
control points and its end point in device coordinates: it runs from node j to
node j + 1, that is over the parameters from etaStart + j·dEta to
etaStart + (j + 1)·dEta, and its control points lie on the tangents at these two
parameters, at α times the tangent vector from the nodes. -/
def arcSegmentSpec (Fixed : Vec2D ℝ → Point26_6) (pc : Paint ℝ) (rs : RenderState ℝ)
    (cx cy ocx ocy pcx pcy rx ry theta etaStart dEta alpha : ℝ) (segs : Int) (j : Nat) :
    Point26_6 × Point26_6 × Point26_6 :=
  let p0 := arcNodeSpec cx cy ocx ocy pcx pcy rx ry theta etaStart dEta segs j
  let p1 := arcNodeSpec cx cy ocx ocy pcx pcy rx ry theta etaStart dEta segs (j + 1)
  let d0 := arcTangentSpec rx ry theta (etaStart + dEta * (j : ℝ))
  let d1 := arcTangentSpec rx ry theta (etaStart + dEta * ((j : ℝ) + 1))
  (Fixed (pc.TransformPoint rs (p0.1 + alpha * d0.1) (p0.2 + alpha * d0.2)),
    Fixed (pc.TransformPoint rs (p1.1 - alpha * d1.1) (p1.2 - alpha * d1.2)),
    Fixed (pc.TransformPoint rs p1.1 p1.2))

/-- The cubic segment number j of the arc the specification describes for a
start parameter etaStart and a corrected sweep deltaEta: there are
segs = ⌊|deltaEta| / (π/8)⌋ + 1 segments, each spans the parametric angle
deltaEta / segs, and α is that of the tangent-matching formula. -/
def arcPlanSpec (Fixed : Vec2D ℝ → Point26_6) (pc : Paint ℝ) (rs : RenderState ℝ)
    (cx cy ocx ocy pcx pcy rx ry angle etaStart deltaEta : ℝ) (j : Nat) :
    Point26_6 × Point26_6 × Point26_6 :=
  let segs : Int := ⌊|deltaEta| / (Real.pi / 8)⌋ + 1
  let dEta := deltaEta / (segs : ℝ)
  arcSegmentSpec Fixed pc rs cx cy ocx ocy pcx pcy rx ry (angle * Real.pi / 180) etaStart dEta
    (arcAlphaSpec dEta) segs j

end Arcs

/-! ## State queries, bounding boxes, fill and stroke, clipping, shapes -/

section Shapes

variable {α : Type}

/-- HasStroke of paint.go: does the current Paint have an active stroke to
render? -/
def Paint.HasStroke (pc : Paint α) : Bool := pc.StrokeStyle.On

/-- HasFill of paint.go: does the current Paint have an active fill to render? -/
def Paint.HasFill (pc : Paint α) : Bool := pc.FillStyle.On

/-- HasNoStrokeOrFill of paint.go: does the current Paint not have either a
stroke or fill? -/
def Paint.HasNoStrokeOrFill (pc : Paint α) : Bool :=
  !pc.StrokeStyle.On && !pc.FillStyle.On

/-- Modelled from the spec: SetMin of Vec2D (declared outside paint.go), the
component-wise minimum that BoundingBoxFromPoints accumulates. -/
def Vec2D.SetMin [LinearOrder α] (a b : Vec2D α) : Vec2D α :=
  { X := min a.X b.X, Y := min a.Y b.Y }

/-- Modelled from the spec: SetMax of Vec2D (declared outside paint.go), the
component-wise maximum that BoundingBoxFromPoints accumulates. -/
def Vec2D.SetMax [LinearOrder α] (a b : Vec2D α) : Vec2D α :=
  { X := max a.X b.X, Y := max a.Y b.Y }

/-- Modelled from the spec: NewVec2D (declared outside paint.go), the vector
with the given components. -/
def NewVec2D (x y : α) : Vec2D α := { X := x, Y := y }

/-- Modelled from the spec: ToPointFloor of Vec2D (declared outside paint.go),
the pixel whose coordinates are the components rounded down. -/
def Vec2D.ToPointFloor [LinearOrderedField α] [FloorRing α] (a : Vec2D α) : Point :=
  { X := ⌊a.X⌋, Y := ⌊a.Y⌋ }

/-- Modelled from the spec: ToPointCeil of Vec2D (declared outside paint.go),
the pixel whose coordinates are the components rounded up. -/
def Vec2D.ToPointCeil [LinearOrderedField α] [FloorRing α] (a : Vec2D α) : Point :=
  { X := ⌈a.X⌉, Y := ⌈a.Y⌉ }

/-- Function Rect of the standard package image: the rectangle with the given
corners, exchanged where needed so that Min is not beyond Max. -/
def Rect (x0 y0 x1 y1 : Int) : Rectangle :=
  let xa := if x0 > x1 then x1 else x0
  let xb := if x0 > x1 then x0 else x1
  let ya := if y0 > y1 then y1 else y0
  let yb := if y0 > y1 then y0 else y1
  { Min := { X := xa, Y := ya }, Max := { X := xb, Y := yb } }

/-- BoundingBox of paint.go: computes the bounding box for an element in pixel
int coordinates, applying current transform. -/
def Paint.BoundingBox [LinearOrderedField α] [FloorRing α] (pc : Paint α)
    (rs : RenderState α) (minX minY maxX maxY : α) : Rectangle :=
  let sw := if pc.HasStroke then 0.5 * pc.StrokeWidth rs else 0
  let t1 := rs.XForm.TransformPoint minX minY
  let t2 := rs.XForm.TransformPoint maxX maxY
  let tp1 := (NewVec2D (t1.1 - sw) (t1.2 - sw)).ToPointFloor
  let tp2 := (NewVec2D (t2.1 + sw) (t2.2 + sw)).ToPointCeil
  Rect tp1.X tp1.Y tp2.X tp2.Y

/-- The loop of BoundingBoxFromPoints over the points still to visit: each one
lowers min and raises max. -/
def pointsMinMax [LinearOrder α] : Vec2D α → Vec2D α → List (Vec2D α) → Vec2D α × Vec2D α
  | mn, mx, [] => (mn, mx)
  | mn, mx, p :: ps => pointsMinMax (mn.SetMin p) (mx.SetMax p) ps

/-- BoundingBoxFromPoints of paint.go: computes the bounding box for a slice of
points.  The result is none when an index is out of range.  The loop runs over
the indices 1 to sz - 1, that is over the points after the first. -/
def Paint.BoundingBoxFromPoints [LinearOrderedField α] [FloorRing α] (pc : Paint α)
    (rs : RenderState α) (points : List (Vec2D α)) : Option Rectangle :=
  let sz := points.length
  if sz = 0 then
    some { Min := { X := 0, Y := 0 }, Max := { X := 0, Y := 0 } }
  else do
    let min ← points[0]?
    let max ← points[1]?
    let mm := pointsMinMax min max (points.drop 1)
    some (pc.BoundingBox rs mm.1.X mm.1.Y mm.2.X mm.2.Y)

/-- The external packages rasterx, scanFT and draw, as far as paint.go relies on
them, taken as parameters: what filling a path and stroking it with a given
width do to the pixels of the destination image, for the given paint, clip
bounds, object bounds and path, and what draw.DrawMask with operator Over
leaves in its destination (arguments: destination, rectangle, source, source
point, mask, mask point). -/
structure RasterEngine (α : Type) where
  Fill : Paint α → Rectangle → Rectangle → List PathCmd → RGBA → RGBA
  Stroke : α → Paint α → Rectangle → Rectangle → List PathCmd → RGBA → RGBA
  DrawMaskOver : Alpha → Rectangle → Alpha → Point → Alpha → Point → Alpha

/-- Method fill of paint.go: feeds the path to the filler of the rasterizer and
draws.  The rasterizer and its scanner are the ones Init bound to the image of
the render state; the path is read, not changed. -/
def Paint.fill (R : RasterEngine α) (pc : Paint α) (rs : RenderState α) : RenderState α :=
  { rs with Image := rs.Image.map (R.Fill pc rs.Bounds rs.ObjBounds rs.Path) }

/-- Method stroke of paint.go: sets the stroke of the rasterizer from
StrokeWidth and the stroke style, feeds the path and draws. -/
def Paint.stroke [LinearOrderedField α] (R : RasterEngine α) (pc : Paint α)
    (rs : RenderState α) : RenderState α :=
  { rs with
    Image := rs.Image.map (R.Stroke (pc.StrokeWidth rs) pc rs.Bounds rs.ObjBounds rs.Path) }

/-- StrokePreserve of paint.go: strokes the current path; the path is preserved. -/
def Paint.StrokePreserve [LinearOrderedField α] (R : RasterEngine α) (pc : Paint α)
    (rs : RenderState α) : RenderState α :=
  pc.stroke R rs

/-- Stroke of paint.go: strokes the current path; the path is cleared after this
operation. -/
def Paint.Stroke [LinearOrderedField α] (R : RasterEngine α) (pc : Paint α)
    (rs : RenderState α) : RenderState α :=
  pc.ClearPath (pc.StrokePreserve R rs)

/-- FillPreserve of paint.go: fills the current path; the path is preserved. -/
def Paint.FillPreserve (R : RasterEngine α) (pc : Paint α) (rs : RenderState α) :
    RenderState α :=
  pc.fill R rs

/-- Fill of paint.go: fills the current path; the path is cleared after this
operation. -/
def Paint.Fill (R : RasterEngine α) (pc : Paint α) (rs : RenderState α) : RenderState α :=
  pc.ClearPath (pc.FillPreserve R rs)

/-- FillStrokeClear of paint.go: convenience for final draw for shapes when
done. -/
def Paint.FillStrokeClear [LinearOrderedField α] (R : RasterEngine α) (pc : Paint α)
    (rs : RenderState α) : RenderState α :=
  let rs1 := if pc.HasFill then pc.FillPreserve R rs else rs
  let rs2 := if pc.HasStroke then pc.StrokePreserve R rs1 else rs1
  pc.ClearPath rs2

/-- Function NewAlpha of the standard package image: a new alpha image with the
given bounds, all of whose pixels are zero. -/
def NewAlpha (r : Rectangle) : Alpha :=
  let w := r.Max.X - r.Min.X
  let h := r.Max.Y - r.Min.Y
  { Pix := List.replicate (w * h).toNat 0, Stride := w, Rect := r }

/-- ClipPreserve of paint.go.  The fresh alpha image clip is handed to nothing
before it becomes the mask or the source of DrawMask: the fill goes through the
rasterizer, which draws into the image of the render state. -/
def Paint.ClipPreserve (R : RasterEngine α) (pc : Paint α) (rs : RenderState α) :
    Option (RenderState α) := do
  let clip := NewAlpha (← rs.ImageBounds)
  let rs1 := pc.fill R rs
  match rs1.Mask with
  | none => some { rs1 with Mask := some clip }
  | some old =>
    let mask := NewAlpha (← rs1.ImageBounds)
    some { rs1 with
      Mask := some (R.DrawMaskOver mask mask.Bounds clip ⟨0, 0⟩ old ⟨0, 0⟩) }

/-- The message of the error SetMask returns. -/
def maskSizeError : String := "mask size must match context size"

/-- SetMask of paint.go: directly sets the alpha image to be used as a clipping
mask; it must be the same size as the context, else an error is returned and
the mask is unchanged.  The result is the render state with the error returned
(none for nil); it is none when the mask or the image is a nil pointer. -/
def Paint.SetMask (_pc : Paint α) (rs : RenderState α) (mask : Option Alpha) :
    Option (RenderState α × Option String) := do
  let mb ← mask.map Alpha.Bounds
  let ib ← rs.ImageBounds
  if mb ≠ ib then
    some (rs, some maskSizeError)
  else
    some ({ rs with Mask := mask }, none)

/-- DrawLine of paint.go. -/
def Paint.DrawLine [Add α] [Mul α] (Fixed : Vec2D α → Point26_6) (pc : Paint α)
    (rs : RenderState α) (x1 y1 x2 y2 : α) : RenderState α :=
  pc.LineTo Fixed (pc.MoveTo Fixed rs x1 y1) x2 y2

/-- DrawPolyline of paint.go: with fewer than two points it returns at once;
otherwise a MoveTo to the first point and a LineTo to each of the others. -/
def Paint.DrawPolyline [Add α] [Mul α] (Fixed : Vec2D α → Point26_6) (pc : Paint α)
    (rs : RenderState α) (points : List (Vec2D α)) : RenderState α :=
  let sz := points.length
  if sz < 2 then
    rs
  else
    match points with
    | [] => rs
    | p0 :: rest =>
      rest.foldl (fun r p => pc.LineTo Fixed r p.X p.Y) (pc.MoveTo Fixed rs p0.X p0.Y)

/-- DrawPolygon of paint.go: DrawPolyline followed by ClosePath. -/
def Paint.DrawPolygon [Add α] [Mul α] (Fixed : Vec2D α → Point26_6) (pc : Paint α)
    (rs : RenderState α) (points : List (Vec2D α)) : RenderState α :=
  pc.ClosePath (pc.DrawPolyline Fixed rs points)

/-- DrawRectangle of paint.go. -/
def Paint.DrawRectangle [Add α] [Mul α] (Fixed : Vec2D α → Point26_6) (pc : Paint α)
    (rs : RenderState α) (x y w h : α) : RenderState α :=
  let rs1 := pc.NewSubPath rs
  let rs2 := pc.MoveTo Fixed rs1 x y
  let rs3 := pc.LineTo Fixed rs2 (x + w) y
  let rs4 := pc.LineTo Fixed rs3 (x + w) (y + h)
  let rs5 := pc.LineTo Fixed rs4 x (y + h)
  pc.ClosePath rs5

end Shapes

/-! ## Unit context, copying, images and text -/

section Context

variable {α : Type}

/-- The fields of the render state that the transform, bounds and clip stacks
own: the current transform, bounds, object bounds and mask, and the three
stacks. -/
def RenderState.scopes (rs : RenderState α) :
    XFormMatrix2D α × List (XFormMatrix2D α) × Rectangle × Rectangle × List Rectangle ×
      Option Alpha × List (Option Alpha) :=
  (rs.XForm, rs.XFormStack, rs.Bounds, rs.ObjBounds, rs.BoundsStack, rs.Mask, rs.ClipStack)

/-- CopyFrom of paint.go: copies from another Paint, while preserving relevant
local state. -/
def Paint.CopyFrom (pc cp : Paint α) : Paint α :=
  let is := pc.StyleSet
  let pn := pc.PropsNil
  let ds := pc.dotsSet
  let lu := pc.lastUnCtxt
  { cp with StyleSet := is, PropsNil := pn, dotsSet := ds, lastUnCtxt := lu }

/-- Modelled from the spec: the window of a viewport, of which paint.go reads
the logical DPI (the unit-context provider of section 6). -/
structure Window (α : Type) where
  LogicalDPI : α

/-- Modelled from the spec: the viewport handed to SetUnitContext, with the
fields paint.go reads: the window, which may be nil, and the render state. -/
structure Viewport2D (α : Type) where
  Win : Option (Window α)
  Render : RenderState α

/-- The code of package units and of the style machinery that SetUnitContext
calls and that is not in paint.go, taken as parameters: Defaults and SetSizes of
the unit context, SetUnitContext of the font style (which receives a pointer to
the unit context) and the conversion ToDots of the styled fields of a paint. -/
structure UnitsEnv (α : Type) where
  Defaults : Context α → Context α
  SetSizes : Context α → α → α → α → α → Context α
  FontSetUnitContext : FontStyle α → Context α → FontStyle α × Context α
  ToDots : Paint α → Paint α

/-- The first part of SetUnitContext of paint.go, up to the call of
FontStyle.SetUnitContext: the unit context is computed afresh. -/
def Paint.freshUnitContext [Zero α] [IntCast α] (E : UnitsEnv α) (pc : Paint α)
    (vp : Option (Viewport2D α)) (el : Vec2D α) : Paint α :=
  let c0 := E.Defaults pc.UnContext
  let c2 :=
    match vp with
    | none => c0
    | some v =>
      let c1 :=
        match v.Win with
        | none => c0
        | some win => { c0 with DPI := win.LogicalDPI }
      match v.Render.Image with
      | some img =>
        let szX := img.Bounds.Max.X - img.Bounds.Min.X
        let szY := img.Bounds.Max.Y - img.Bounds.Min.Y
        E.SetSizes c1 (szX : α) (szY : α) el.X el.Y
      | none => E.SetSizes c1 0 0 el.X el.Y
  let fc := E.FontSetUnitContext pc.FontStyle c2
  { pc with UnContext := fc.2, FontStyle := fc.1 }

/-- SetUnitContext of paint.go: sets the unit context based on size of viewport
and parent element and then caches everything out in terms of raw pixel dots. -/
def Paint.SetUnitContext [Zero α] [IntCast α] [DecidableEq α] (E : UnitsEnv α)
    (pc : Paint α) (vp : Option (Viewport2D α)) (el : Vec2D α) : Paint α :=
  let pc1 := pc.freshUnitContext E vp el
  if !(pc1.dotsSet && decide (pc1.UnContext = pc1.lastUnCtxt) && pc1.PropsNil) then
    let pc2 := E.ToDots pc1
    let pc3 := { pc2 with dotsSet := true }
    { pc3 with lastUnCtxt := pc3.UnContext }
  else
    pc1

/-- Conversion of a scalar to int in Go, for any ordered field with a floor: the
fraction is discarded. -/
def truncInt [LinearOrderedField α] [FloorRing α] (v : α) : Int :=
  if 0 ≤ v then ⌊v⌋ else ⌈v⌉

/-- Modelled from the spec: translate of section 4.1 as a method, the transform
followed inside by the translation by (x, y). -/
def XFormMatrix2D.Translate [Zero α] [One α] [Add α] [Mul α] (a : XFormMatrix2D α) (x y : α) :
    XFormMatrix2D α :=
  a.Multiply { XX := 1, YX := 0, XY := 0, YY := 1, X0 := x, Y0 := y }

/-- The point to which DrawImageAnchored moves the origin of the image (the
first three lines of its body): s is the size of the image of the render
state. -/
def Paint.imageAnchor [LinearOrderedField α] [FloorRing α] (_pc : Paint α)
    (rs : RenderState α) (x y : Int) (ax ay : α) : Option (Int × Int) := do
  let b ← rs.ImageBounds
  let sX := b.Max.X - b.Min.X
  let sY := b.Max.Y - b.Min.Y
  some (x - truncInt (ax * (sX : α)), y - truncInt (ay * (sY : α)))

/-- DrawImageAnchored of paint.go: draws the specified image at the specified
anchor point.  Transform stands for the bilinear transformer of package draw
with operator Over: destination, affine matrix, source image and destination
mask (none for no options). -/
def Paint.DrawImageAnchored [LinearOrderedField α] [FloorRing α]
    (Transform : RGBA → XFormMatrix2D α → RGBA → Option Alpha → RGBA) (pc : Paint α)
    (rs : RenderState α) (fmIm : RGBA) (x y : Int) (ax ay : α) : Option (RenderState α) := do
  let a ← pc.imageAnchor rs x y ax ay
  let fx : α := (a.1 : α)
  let fy : α := (a.2 : α)
  let m := rs.XForm.Translate fx fy
  let img ← rs.Image
  some { rs with Image := some (Transform img m fmIm rs.Mask) }

/-- DrawImage of paint.go: draws the specified image at the specified point. -/
def Paint.DrawImage [LinearOrderedField α] [FloorRing α]
    (Transform : RGBA → XFormMatrix2D α → RGBA → Option Alpha → RGBA) (pc : Paint α)
    (rs : RenderState α) (fmIm : RGBA) (x y : Int) : Option (RenderState α) :=
  pc.DrawImageAnchored Transform rs fmIm x y 0 0

/-- The font and text code that paint.go calls and that is not in paint.go,
taken as parameters: loading the default font into a font style, the measured
advance of a string rounded up, the method drawString (image, bounds, string
and position) and draw.DrawMask with operator Over on an RGBA destination. -/
structure TextEngine (α : Type) where
  LoadFont : FontStyle α → Context α → FontStyle α
  MeasureWidth : FontStyle α → String → α
  drawString : Paint α → RenderState α → RGBA → Rectangle → String → α → α → RGBA
  DrawMaskOver : RGBA → Rectangle → RGBA → Point → Alpha → Point → RGBA

/-- MeasureString of paint.go: the rendered width and height of the text given
the current font face, which is loaded first when there is none; it returns the
paint as well. -/
def Paint.MeasureString (T : TextEngine α) (pc : Paint α) (s : String) : Paint α × α × α :=
  let pc1 :=
    if pc.FontStyle.Face = none then
      { pc with FontStyle := T.LoadFont pc.FontStyle pc.UnContext }
    else pc
  (pc1, T.MeasureWidth pc1.FontStyle s, pc1.FontStyle.Height)

/-- The position at which DrawStringAnchored draws the string (the first four
lines of its body). -/
def Paint.stringAnchor [Add α] [Sub α] [Mul α] (T : TextEngine α) (pc : Paint α)
    (rs : RenderState α) (s : String) (x y ax ay : α) : α × α :=
  let t := rs.XForm.TransformPoint x y
  let m := pc.MeasureString T s
  (t.1 - ax * m.2.1, t.2 + ay * m.2.2)

/-- Function NewRGBA of the standard package image: a new RGBA image with the
given bounds, all of whose pixels are zero. -/
def NewRGBA (r : Rectangle) : RGBA :=
  let w := r.Max.X - r.Min.X
  let h := r.Max.Y - r.Min.Y
  { Pix := List.replicate (4 * w * h).toNat 0, Stride := 4 * w, Rect := r }

/-- DrawStringAnchored of paint.go: draws the specified text at the specified
anchor point; it returns the paint (whose font may have been loaded) and the
render state. -/
def Paint.DrawStringAnchored [Add α] [Sub α] [Mul α] (T : TextEngine α) (pc : Paint α)
    (rs : RenderState α) (s : String) (x y ax ay _width : α) :
    Option (Paint α × RenderState α) := do
  let pos := pc.stringAnchor T rs s x y ax ay
  let pc1 := (pc.MeasureString T s).1
  let img ← rs.Image
  match rs.Mask with
  | none =>
    some (pc1, { rs with Image := some (T.drawString pc1 rs img rs.Bounds s pos.1 pos.2) })
  | some mask =>
    let im := NewRGBA img.Bounds
    let im1 := T.drawString pc1 rs im rs.Bounds s pos.1 pos.2
    some (pc1, { rs with
      Image := some (T.DrawMaskOver img img.Bounds im1 ⟨0, 0⟩ mask ⟨0, 0⟩) })

end Context

/-! ## ComboBox (combobox.go) -/

section Combo

/-- ComboBox of combobox.go.  B is the embedded ButtonBase, V the type of the
item values (interface values that can be compared); the menu and the signal
are handles. -/
structure ComboBox (B V : Type) where
  ButtonBase : B
  Editable : Bool
  CurVal : V
  CurIndex : Int
  Items : List V
  ItemsMenu : List Nat
  ComboSig : Nat
  MaxLength : Int

variable {B V : Type}

/-- The loop of FindItem from index i on: the index of the first item equal to
it, or -1. -/
def findItemFrom [DecidableEq V] (it : V) : Int → List V → Int
  | _, [] => -1
  | i, v :: vs => if v = it then i else findItemFrom it (i + 1) vs

/-- FindItem of combobox.go: finds an item on list of items and returns its
index. -/
def ComboBox.FindItem [DecidableEq V] (cb : ComboBox B V) (it : V) : Int :=
  findItemFrom it 0 cb.Items

/-- SetCurVal of combobox.go: sets the current value and the corresponding
CurIndex for that item on the current Items list (adds to items list if not
found) and returns that index.  SetText is the method of the embedded
ButtonBase, ToLabel the conversion of a value to its label. -/
def ComboBox.SetCurVal [DecidableEq V] (SetText : B → String → B) (ToLabel : V → String)
    (cb : ComboBox B V) (it : V) : ComboBox B V × Int :=
  let cb1 := { cb with CurVal := it }
  let cb2 := { cb1 with CurIndex := cb1.FindItem it }
  let cb3 :=
    if cb2.CurIndex < 0 then
      let cb2a := { cb2 with CurIndex := (cb2.Items.length : Int) }
      { cb2a with Items := cb2a.Items ++ [it] }
    else cb2
  let cb4 := { cb3 with ButtonBase := SetText cb3.ButtonBase (ToLabel it) }
  (cb4, cb4.CurIndex)

end Combo

/-! ## NodeSignals (nodesignals_string.go) -/

/-- The constant _NodeSignals_name of nodesignals_string.go. -/
def NodeSignals_name : String :=
  "NodeSignalNilNodeSignalUpdatedNodeSignalDeletingNodeSignalDestroyingNodeSignalsN"

/-- The table _NodeSignals_index of nodesignals_string.go. -/
def NodeSignals_index : List Nat := [0, 13, 30, 48, 68, 80]

/-- The slice expression s[a:b] of Go on a string of one-byte characters. -/
def sliceString (s : String) (a b : Nat) : String :=
  String.mk ((s.toList.drop a).take (b - a))

/-- The name of the value j in the table: the slice of _NodeSignals_name from
_NodeSignals_index[j] to _NodeSignals_index[j+1]. -/
def NodeSignals_slice (j : Nat) : String :=
  sliceString NodeSignals_name (NodeSignals_index.getD j 0) (NodeSignals_index.getD (j + 1) 0)

/-- Method String of NodeSignals. -/
def NodeSignals_String (i : Int) : String :=
  if i < 0 ∨ i ≥ ((NodeSignals_index.length - 1 : Nat) : Int) then
    String.append (String.append "NodeSignals(" (toString i)) ")"
  else
    NodeSignals_slice i.toNat

/-- The loop of FromString from index j on, with the given number of indices
left: the first index whose name is s. -/
def NodeSignals_find (s : String) : Nat → Nat → Option Nat
  | 0, _ => none
  | n + 1, j => if s = NodeSignals_slice j then some j else NodeSignals_find s n (j + 1)

/-- Method FromString of NodeSignals: the receiver after the call and the error
returned (none for nil). -/
def NodeSignals_FromString (i : Int) (s : String) : Int × Option String :=
  match NodeSignals_find s (NodeSignals_index.length - 1) 0 with
  | some j => ((j : Int), none)
  | none =>
    (i, some (String.append (String.append "String " s)
      " is not a valid option for type NodeSignals"))

/-! ## Regular polygons and arcs between two angles, over the reals -/

noncomputable section Polygons

/-- DrawRegularPolygon of paint.go; the loop runs for i from 0 to n - 1. -/
def Paint.DrawRegularPolygon (Fixed : Vec2D ℝ → Point26_6) (pc : Paint ℝ)
    (rs : RenderState ℝ) (n : Int) (x y r rotation : ℝ) : RenderState ℝ :=
  let angle := 2 * Real.pi / (n : ℝ)
  let rotation1 := rotation - Real.pi / 2
  let rotation2 := if n % 2 = 0 then rotation1 + angle / 2 else rotation1
  let rs1 := pc.NewSubPath rs
  let rs2 := (List.range n.toNat).foldl
    (fun (r0 : RenderState ℝ) (i : Nat) =>
      let a := rotation2 + angle * (i : ℝ)
      pc.LineTo Fixed r0 (x + r * Real.cos a) (y + r * Real.sin a)) rs1
  pc.ClosePath rs2

/-- The numbers of one round of the loop of DrawEllipticalArc: the points
(x0, y0) and (x2, y2) and the control point (ncx, ncy) of segment i. -/
def ellipticalArcSegment (cx cy rx ry angle1 angle2 : ℝ) (i : Nat) :
    (ℝ × ℝ) × (ℝ × ℝ) × (ℝ × ℝ) :=
  let p1 := ((i : ℝ) + 0) / 16
  let p2 := ((i : ℝ) + 1) / 16
  let a1 := angle1 + (angle2 - angle1) * p1
  let a2 := angle1 + (angle2 - angle1) * p2
  let x0 := cx + rx * Real.cos a1
  let y0 := cy + ry * Real.sin a1
  let x1 := cx + rx * Real.cos (a1 + (a2 - a1) / 2)
  let y1 := cy + ry * Real.sin (a1 + (a2 - a1) / 2)
  let x2 := cx + rx * Real.cos a2
  let y2 := cy + ry * Real.sin a2
  let ncx := 2 * x1 - x0 / 2 - x2 / 2
  let ncy := 2 * y1 - y0 / 2 - y2 / 2
  ((x0, y0), (ncx, ncy), (x2, y2))

/-- One round of the loop of DrawEllipticalArc. -/
def ellipticalArcStep (Fixed : Vec2D ℝ → Point26_6) (pc : Paint ℝ)
    (cx cy rx ry angle1 angle2 : ℝ) (rs : RenderState ℝ) (i : Nat) : RenderState ℝ :=
  let s := ellipticalArcSegment cx cy rx ry angle1 angle2 i
  let rs1 := if i = 0 ∧ rs.HasCurrent = false then pc.MoveTo Fixed rs s.1.1 s.1.2 else rs
  pc.QuadraticTo Fixed rs1 s.2.1.1 s.2.1.2 s.2.2.1 s.2.2.2

/-- DrawEllipticalArc of paint.go: draws the arc between angle1 and angle2 along
an ellipse, using sixteen quadratic bezier curves. -/
def Paint.DrawEllipticalArc (Fixed : Vec2D ℝ → Point26_6) (pc : Paint ℝ)
    (rs : RenderState ℝ) (cx cy rx ry angle1 angle2 : ℝ) : RenderState ℝ :=
  (List.range 16).foldl (ellipticalArcStep Fixed pc cx cy rx ry angle1 angle2) rs

/-- The point of the ellipse with centre (cx, cy) and radii rx, ry at the
parameter a. -/
def ellipseAt (cx cy rx ry a : ℝ) : ℝ × ℝ :=
  (cx + rx * Real.cos a, cy + ry * Real.sin a)

/-- The vertex i of the regular polygon with n vertices, centre (x, y), radius r
and the given rotation, as the specification words it: at the angle
rotation - π/2 + i·(2π/n), plus π/n when n is even. -/
def regularPolygonVertex (n : Nat) (x y r rotation : ℝ) (i : Nat) : Vec2D ℝ :=
  let a := rotation - Real.pi / 2 + (i : ℝ) * (2 * Real.pi / (n : ℝ)) +
    (if n % 2 = 0 then Real.pi / (n : ℝ) else 0)
  { X := x + r * Real.cos a, Y := y + r * Real.sin a }

/-- The quadratic segment the source computes for index i: its control point
and its end point, converted to fixed point. -/
def arcQuadCmd (Fixed : Vec2D ℝ → Point26_6) (cx cy rx ry angle1 angle2 : ℝ)
    (i : Nat) : PathCmd :=
  PathCmd.QuadBezier
    (Fixed { X := (ellipticalArcSegment cx cy rx ry angle1 angle2 i).2.1.1
             Y := (ellipticalArcSegment cx cy rx ry angle1 angle2 i).2.1.2 })
    (Fixed { X := (ellipticalArcSegment cx cy rx ry angle1 angle2 i).2.2.1
             Y := (ellipticalArcSegment cx cy rx ry angle1 angle2 i).2.2.2 })

/-- A conversion to fixed point that sends every point to the origin. -/
def blankFixed : Vec2D ℝ → Point26_6 := fun _ => { X := 0, Y := 0 }

/-- A render state over the reals as Init leaves it: identity transform, empty
path, no current point. -/
def freshStateR : RenderState ℝ :=
  { (default : RenderState ℝ) with XForm := Identity2D, Path := [], HasCurrent := false }

/-- The value etaEnd of DrawEllipticalArcPath when neither radius is zero. -/
def arcEtaEnd (cx cy ocx ocy rx ry angle : ℝ) : ℝ :=
  let rotX := angle * Real.pi / 180
  let endAngle := Atan2 (ocy - cy) (ocx - cx) - rotX
  Atan2 (Real.sin endAngle / ry) (Real.cos endAngle / rx)

end Polygons

/-! ## Concrete states used as test inputs -/

/-- A sample conversion to fixed point: 64 units per dot, rounded down. -/
def sampleFixed (p : Vec2D ℚ) : Point26_6 :=
  { X := ⌊p.X * 64⌋, Y := ⌊p.Y * 64⌋ }


/-- A 100 by 100 destination image. -/
def image100 : RGBA :=
  { Pix := [], Stride := 400, Rect := ⟨⟨0, 0⟩, ⟨100, 100⟩⟩ }

/-- A render state as Init leaves it for a 100 by 100 image: identity transform,
no mask, zero Bounds and empty stacks. -/
def freshState : RenderState ℚ :=
  { (default : RenderState ℚ) with XForm := Identity2D, Image := some image100 }

/-- A render state drawing into the rectangle (0,0)-(10,10) of a 100 by 100
image. -/
def boundedState : RenderState ℚ :=
  { freshState with Bounds := ⟨⟨0, 0⟩, ⟨10, 10⟩⟩ }

/-- A mask of the size of image100. -/
def mask100 : Alpha :=
  { Pix := [], Stride := 100, Rect := ⟨⟨0, 0⟩, ⟨100, 100⟩⟩ }

/-- The render state reached from freshState by SetMask(mask100), PushClip and
ResetClip: no current mask, one mask saved on the clip stack. -/
def resetClipState : RenderState ℚ :=
  { freshState with Mask := none, ClipStack := [some mask100] }

/-- A paint with a zero stroke width and a minimum-width floor of one dot. -/
def hairlinePaint : Paint ℚ :=
  { (default : Paint ℚ) with
    VecEff := VectorEffect.VecEffNone
    StrokeStyle := { (default : StrokeStyle ℚ) with
      On := true
      Width := { Val := 0, Un := 0, Dots := 0 }
      MinWidth := { Val := 1, Un := 0, Dots := 1 } } }

/-- A paint with a stroke two dots wide and a minimum-width floor of one dot. -/
def widePaint : Paint ℚ :=
  { (default : Paint ℚ) with
    VecEff := VectorEffect.VecEffNone
    StrokeStyle := { (default : StrokeStyle ℚ) with
      On := true
      Width := { Val := 2, Un := 0, Dots := 2 }
      MinWidth := { Val := 1, Un := 0, Dots := 1 } } }

/-- A render state with an open subpath from (0, 0) to (10, 0): the current
point is (10, 0), the subpath started at (0, 0). -/
def openPathState : RenderState ℚ :=
  { freshState with
    Path := [PathCmd.Start ⟨0, 0⟩, PathCmd.Line ⟨640, 0⟩]
    Start := { X := 0, Y := 0 }
    Current := { X := 10, Y := 0 }
    HasCurrent := true }

/-- A render state whose path is the closed square from (10, 10) to (60, 60). -/
def squarePathState : RenderState ℚ :=
  { freshState with
    Path := [PathCmd.Start ⟨640, 640⟩, PathCmd.Line ⟨3840, 640⟩, PathCmd.Line ⟨3840, 3840⟩,
      PathCmd.Line ⟨640, 3840⟩, PathCmd.Stop true]
    Start := { X := 10, Y := 10 }
    Current := { X := 10, Y := 10 }
    HasCurrent := true }

/-- A 10 by 10 image to draw. -/
def image10 : RGBA :=
  { Pix := [], Stride := 40, Rect := ⟨⟨0, 0⟩, ⟨10, 10⟩⟩ }

/-- A text engine in which every string measures 10 dots; drawString and the
masked draw are whatever functions are given. -/
def tenWideText (draw : Paint ℚ → RenderState ℚ → RGBA → Rectangle → String → ℚ → ℚ → RGBA)
    (over : RGBA → Rectangle → RGBA → Point → Alpha → Point → RGBA) : TextEngine ℚ :=
  { LoadFont := fun f _ => f
    MeasureWidth := fun _ _ => 10
    drawString := draw
    DrawMaskOver := over }

/-- The render state freshState with the mask mask100 set. -/
def maskedState : RenderState ℚ :=
  { freshState with Mask := some mask100 }

/-- A paint with a font face loaded, of height 4 dots. -/
def fontPaint : Paint ℚ :=
  { (default : Paint ℚ) with FontStyle := { Face := some 1, Height := 4 } }

/-- A combo box over natural numbers with the items 7, 8, 7. -/
def sampleCombo : ComboBox String Nat :=
  { ButtonBase := "", Editable := false, CurVal := 0, CurIndex := -1, Items := [7, 8, 7],
    ItemsMenu := [], ComboSig := 0, MaxLength := 0 }

/-- A sample of the units code: Defaults and the font style leave the context
as it is, SetSizes stores the four sizes, ToDots changes nothing. -/
def sampleUnits : UnitsEnv ℚ :=
  { Defaults := fun c => c
    SetSizes := fun c vw vh ew eh => { c with VpW := vw, VpH := vh, ElW := ew, ElH := eh }
    FontSetUnitContext := fun f c => (f, c)
    ToDots := fun pc => pc }

/-- A render state whose transform is the uniform scale by three. -/
def scaledState : RenderState ℚ :=
  { freshState with XForm := { XX := 3, YX := 0, XY := 0, YY := 3, X0 := 0, Y0 := 0 } }

/-! ## The transform, bounds and clip stacks -/

section StackTheorems

variable {α : Type}

theorem PushXForm_XFormStack [Add α] [Mul α] (rs : RenderState α) (xf : XFormMatrix2D α) :
    (rs.PushXForm xf).XFormStack = rs.XFormStack ++ [rs.XForm] := rfl

theorem PushXForm_XForm [Add α] [Mul α] (rs : RenderState α) (xf : XFormMatrix2D α) :
    (rs.PushXForm xf).XForm = rs.XForm.Multiply xf := rfl

/-- PopXForm on a stack with top y takes y as the transform and removes it. -/
theorem PopXForm_concat [Zero α] [One α] (rs : RenderState α)
    (l : List (XFormMatrix2D α)) (y : XFormMatrix2D α) (h : rs.XFormStack = l ++ [y]) :
    rs.PopXForm.XForm = y ∧ rs.PopXForm.XFormStack = l := by
  have hlen : ¬ rs.XFormStack.length = 0 := by simp [h]
  unfold RenderState.PopXForm
  rw [dif_neg hlen]
  simp [h]

/-- The invariant of a run of pushes and pops: above the stack found at the start
sit as many saved transforms as pushes are open, and the oldest value of that
chain (the current transform when none is open) is the transform at the start. -/
theorem runXFormOps_chain [Zero α] [One α] [Add α] [Mul α]
    (base : List (XFormMatrix2D α)) (x0 : XFormMatrix2D α) (ops : List (XFormOp α)) :
    ∀ (d m : Nat) (rs : RenderState α) (suf : List (XFormMatrix2D α)),
      rs.XFormStack = base ++ suf → suf.length = d →
      (suf ++ [rs.XForm]).head? = some x0 → nestDepth d ops = some m →
      ∃ suf', (runXFormOps rs ops).XFormStack = base ++ suf' ∧ suf'.length = m ∧
        (suf' ++ [(runXFormOps rs ops).XForm]).head? = some x0 := by
  induction ops with
  | nil =>
    intro d m rs suf hs hl hh hn
    simp only [nestDepth, Option.some.injEq] at hn
    exact ⟨suf, hs, by omega, hh⟩
  | cons op ops ih =>
    intro d m rs suf hs hl hh hn
    cases op with
    | push xf =>
      simp only [nestDepth] at hn
      have := ih (d + 1) m (rs.PushXForm xf) (suf ++ [rs.XForm])
        (by rw [PushXForm_XFormStack, hs, List.append_assoc])
        (by simp [hl])
        (by rw [List.head?_append_of_ne_nil _ (by simp)]; exact hh) hn
      simpa [runXFormOps, XFormOp.apply] using this
    | pop =>
      cases d with
      | zero => simp [nestDepth] at hn
      | succ d =>
        simp only [nestDepth] at hn
        have hne : suf ≠ [] := by
          intro h0
          rw [h0] at hl
          simp at hl
        obtain ⟨suf1, y, rfl⟩ : ∃ suf1 y, suf = suf1 ++ [y] :=
          ⟨suf.dropLast, suf.getLast hne, (List.dropLast_append_getLast hne).symm⟩
        have hp := PopXForm_concat rs (base ++ suf1) y (by rw [hs, List.append_assoc])
        have := ih d m rs.PopXForm suf1 hp.2 (by simpa using hl)
          (by
            rw [hp.1]
            rw [List.head?_append_of_ne_nil _ (by simp)] at hh
            exact hh) hn
        simpa [runXFormOps, XFormOp.apply] using this

/-- C1: for every render state and every well-nested sequence of PushXForm and
PopXForm calls, with arbitrary pushed transforms, the current transform after
the sequence is the one before it, and the transform stack has the same depth
and the same contents as before. -/
theorem runXFormOps_wellNested [Zero α] [One α] [Add α] [Mul α]
    (rs : RenderState α) (ops : List (XFormOp α)) (h : wellNested ops = true) :
    (runXFormOps rs ops).XForm = rs.XForm ∧
    (runXFormOps rs ops).XFormStack = rs.XFormStack ∧
    (runXFormOps rs ops).XFormStack.length = rs.XFormStack.length := by
  have hn : nestDepth 0 ops = some 0 := by
    simpa [wellNested] using h
  obtain ⟨suf, hs, hl, hh⟩ := runXFormOps_chain rs.XFormStack rs.XForm ops 0 0 rs []
    (by simp) rfl (by simp) hn
  have hnil : suf = [] := List.length_eq_zero.mp hl
  subst hnil
  simp only [List.append_nil, List.nil_append, List.head?_cons, Option.some.injEq] at hs hh
  exact ⟨hh, hs, by rw [hs]⟩

/-- A witness for C1: push a scaling, push a translation inside it, pop twice,
then push and pop once more, on a state over the rationals. -/
theorem runXFormOps_wellNested_witness :
    wellNested [XFormOp.push (⟨2, 0, 0, 2, 0, 0⟩ : XFormMatrix2D ℚ),
      XFormOp.push ⟨1, 0, 0, 1, 5, 7⟩, XFormOp.pop, XFormOp.pop,
      XFormOp.push ⟨0, 1, 1, 0, 0, 0⟩, XFormOp.pop] = true ∧
    (runXFormOps (default : RenderState ℚ)
      [XFormOp.push ⟨2, 0, 0, 2, 0, 0⟩, XFormOp.push ⟨1, 0, 0, 1, 5, 7⟩, XFormOp.pop,
        XFormOp.pop, XFormOp.push ⟨0, 1, 1, 0, 0, 0⟩, XFormOp.pop]).XForm
      = (default : RenderState ℚ).XForm ∧
    (runXFormOps (default : RenderState ℚ)
      [XFormOp.push ⟨2, 0, 0, 2, 0, 0⟩, XFormOp.push ⟨1, 0, 0, 1, 5, 7⟩, XFormOp.pop,
        XFormOp.pop, XFormOp.push ⟨0, 1, 1, 0, 0, 0⟩, XFormOp.pop]).XFormStack
      = (default : RenderState ℚ).XFormStack ∧
    (runXFormOps (default : RenderState ℚ)
      [XFormOp.push ⟨2, 0, 0, 2, 0, 0⟩, XFormOp.push ⟨1, 0, 0, 1, 5, 7⟩, XFormOp.pop,
        XFormOp.pop, XFormOp.push ⟨0, 1, 1, 0, 0, 0⟩, XFormOp.pop]).XFormStack.length
      = (default : RenderState ℚ).XFormStack.length :=
  ⟨rfl, runXFormOps_wellNested _ _ rfl⟩

theorem Identity2D_Multiply [Semiring α] (a : XFormMatrix2D α) :
    (Identity2D : XFormMatrix2D α).Multiply a = a := by
  cases a
  simp [Identity2D, XFormMatrix2D.Multiply]

/-- C2: with current transform M, after PushXForm(A) followed by PushXForm(B) the
current transform is (M.Multiply(A)).Multiply(B), so TransformPoint maps every
point by that product; when M is the identity the point is mapped by
A.Multiply(B). -/
theorem PushXForm_PushXForm_compose [Semiring α] (pc : Paint α) (rs : RenderState α)
    (A B : XFormMatrix2D α) (x y : α) :
    ((rs.PushXForm A).PushXForm B).XForm = (rs.XForm.Multiply A).Multiply B ∧
    pc.TransformPoint ((rs.PushXForm A).PushXForm B) x y =
      { X := (((rs.XForm.Multiply A).Multiply B).TransformPoint x y).1
        Y := (((rs.XForm.Multiply A).Multiply B).TransformPoint x y).2 } ∧
    (rs.XForm = Identity2D →
      pc.TransformPoint ((rs.PushXForm A).PushXForm B) x y =
        { X := ((A.Multiply B).TransformPoint x y).1
          Y := ((A.Multiply B).TransformPoint x y).2 }) := by
  refine ⟨rfl, rfl, ?_⟩
  intro hM
  simp only [Paint.TransformPoint, PushXForm_XForm, hM, Identity2D_Multiply]

/-- A witness for C2: from the identity, a translation by (5, 7) pushed first and
a scaling by 2 pushed inside it. -/
theorem PushXForm_PushXForm_compose_witness :
    freshState.XForm = Identity2D ∧
    (default : Paint ℚ).TransformPoint
        ((freshState.PushXForm ⟨1, 0, 0, 1, 5, 7⟩).PushXForm ⟨2, 0, 0, 2, 0, 0⟩) 1 1 =
      { X := (((⟨1, 0, 0, 1, 5, 7⟩ : XFormMatrix2D ℚ).Multiply
            ⟨2, 0, 0, 2, 0, 0⟩).TransformPoint 1 1).1
        Y := (((⟨1, 0, 0, 1, 5, 7⟩ : XFormMatrix2D ℚ).Multiply
            ⟨2, 0, 0, 2, 0, 0⟩).TransformPoint 1 1).2 } :=
  ⟨rfl, (PushXForm_PushXForm_compose default freshState ⟨1, 0, 0, 1, 5, 7⟩
    ⟨2, 0, 0, 2, 0, 0⟩ 1 1).2.2 rfl⟩

/-- PopBounds on a stack with top r takes r as the bounds and removes it. -/
theorem PopBounds_concat (rs : RenderState α) (l : List Rectangle) (r : Rectangle)
    (h : rs.BoundsStack = l ++ [r]) :
    rs.PopBounds = some { rs with Bounds := r, BoundsStack := l } := by
  have hlen : ¬ rs.BoundsStack.length = 0 := by simp [h]
  unfold RenderState.PopBounds
  rw [dif_neg hlen]
  simp [h]

/-- PushBounds when the current bounds are not empty. -/
theorem PushBounds_of_nonempty (rs : RenderState α) (b objb : Rectangle)
    (h : rs.Bounds.Empty = false) :
    rs.PushBounds b objb = some { rs with
      BoundsStack := rs.BoundsStack ++ [rs.Bounds], Bounds := b, ObjBounds := objb } := by
  simp [RenderState.PushBounds, h]

/-- PushBounds when the current bounds are empty and there is an image. -/
theorem PushBounds_of_empty (rs : RenderState α) (b objb : Rectangle) (img : RGBA)
    (h : rs.Bounds.Empty = true) (hi : rs.Image = some img) :
    rs.PushBounds b objb = some { rs with
      BoundsStack := rs.BoundsStack ++ [img.Bounds], Bounds := b, ObjBounds := objb } := by
  simp [RenderState.PushBounds, RenderState.ImageBounds, h, hi]

/-- C3, as the code has it: PushBounds(b, objb) followed by PopBounds leaves the
bounds stack with the same depth and contents as before the push; the bounds it
restores are the bounds before the push when those were a non-empty rectangle,
and the bounds of the image when they were empty (PushBounds first replaces
empty bounds by the image bounds, which needs the image to be there). -/
theorem PushBounds_PopBounds_restores (rs : RenderState α) (b objb : Rectangle)
    (h : rs.Bounds.Empty = true → rs.Image.isSome = true) :
    ∃ rs2, (rs.PushBounds b objb).bind RenderState.PopBounds = some rs2 ∧
      rs2.BoundsStack = rs.BoundsStack ∧
      rs2.BoundsStack.length = rs.BoundsStack.length ∧
      some rs2.Bounds = (if rs.Bounds.Empty then rs.ImageBounds else some rs.Bounds) := by
  cases he : rs.Bounds.Empty with
  | false =>
    rw [PushBounds_of_nonempty rs b objb he]
    simp only [Option.some_bind]
    rw [PopBounds_concat _ rs.BoundsStack rs.Bounds rfl]
    exact ⟨_, rfl, rfl, rfl, by simp⟩
  | true =>
    obtain ⟨img, hi⟩ := Option.isSome_iff_exists.mp (h he)
    rw [PushBounds_of_empty rs b objb img he hi]
    simp only [Option.some_bind]
    rw [PopBounds_concat _ rs.BoundsStack img.Bounds rfl]
    exact ⟨_, rfl, rfl, rfl, by simp [RenderState.ImageBounds, hi]⟩

/-- A witness for C3: non-empty bounds (0,0)-(10,10) come back after the pair. -/
theorem PushBounds_PopBounds_restores_witness :
    (boundedState.Bounds.Empty = true → boundedState.Image.isSome = true) ∧
    ∃ rs2, (boundedState.PushBounds ⟨⟨1, 1⟩, ⟨5, 5⟩⟩ ⟨⟨2, 2⟩, ⟨3, 3⟩⟩).bind
        RenderState.PopBounds = some rs2 ∧
      rs2.BoundsStack = boundedState.BoundsStack ∧
      rs2.BoundsStack.length = boundedState.BoundsStack.length ∧
      some rs2.Bounds =
        (if boundedState.Bounds.Empty then boundedState.ImageBounds
          else some boundedState.Bounds) :=
  ⟨by decide, PushBounds_PopBounds_restores boundedState _ _ (by decide)⟩

/-- C3 fails as stated: on a state with zero (empty) Bounds and a 100 by 100
image, PushBounds followed by PopBounds ends with Bounds (0,0)-(100,100), not
with the Bounds before the push. -/
theorem PushBounds_PopBounds_empty_counterexample :
    ((freshState.PushBounds ⟨⟨1, 1⟩, ⟨5, 5⟩⟩ ⟨⟨2, 2⟩, ⟨3, 3⟩⟩).bind
        RenderState.PopBounds).map (fun r => r.Bounds) = some ⟨⟨0, 0⟩, ⟨100, 100⟩⟩ ∧
    freshState.Bounds = ⟨⟨0, 0⟩, ⟨0, 0⟩⟩ ∧
    ((freshState.PushBounds ⟨⟨1, 1⟩, ⟨5, 5⟩⟩ ⟨⟨2, 2⟩, ⟨3, 3⟩⟩).bind
        RenderState.PopBounds).map (fun r => r.Bounds) ≠ some freshState.Bounds := by
  decide

/-- C4, as the code has it: PushBounds(b, objb) sets Bounds to b and ObjBounds to
objb together; PopBounds does not touch ObjBounds, so after the matching
PopBounds the object bounds are still objb. -/
theorem PushBounds_PopBounds_ObjBounds (rs : RenderState α) (b objb : Rectangle)
    (h : rs.Bounds.Empty = true → rs.Image.isSome = true) :
    ∃ rs1 rs2, rs.PushBounds b objb = some rs1 ∧ rs1.Bounds = b ∧ rs1.ObjBounds = objb ∧
      rs1.PopBounds = some rs2 ∧ rs2.ObjBounds = objb := by
  cases he : rs.Bounds.Empty with
  | false =>
    rw [PushBounds_of_nonempty rs b objb he]
    exact ⟨_, _, rfl, rfl, rfl, PopBounds_concat _ rs.BoundsStack rs.Bounds rfl, rfl⟩
  | true =>
    obtain ⟨img, hi⟩ := Option.isSome_iff_exists.mp (h he)
    rw [PushBounds_of_empty rs b objb img he hi]
    exact ⟨_, _, rfl, rfl, rfl, PopBounds_concat _ rs.BoundsStack img.Bounds rfl, rfl⟩

/-- A witness for C4 on the state bounded by (0,0)-(10,10). -/
theorem PushBounds_PopBounds_ObjBounds_witness :
    (boundedState.Bounds.Empty = true → boundedState.Image.isSome = true) ∧
    ∃ rs1 rs2, boundedState.PushBounds ⟨⟨1, 1⟩, ⟨5, 5⟩⟩ ⟨⟨2, 2⟩, ⟨3, 3⟩⟩ = some rs1 ∧
      rs1.Bounds = ⟨⟨1, 1⟩, ⟨5, 5⟩⟩ ∧ rs1.ObjBounds = ⟨⟨2, 2⟩, ⟨3, 3⟩⟩ ∧
      rs1.PopBounds = some rs2 ∧ rs2.ObjBounds = ⟨⟨2, 2⟩, ⟨3, 3⟩⟩ :=
  ⟨by decide, PushBounds_PopBounds_ObjBounds boundedState _ _ (by decide)⟩

/-- C4 fails as stated: on a state with zero ObjBounds, PushBounds with object
bounds (2,2)-(3,3) followed by PopBounds ends with ObjBounds (2,2)-(3,3), not
with the ObjBounds before the push. -/
theorem PushBounds_PopBounds_ObjBounds_counterexample :
    ((boundedState.PushBounds ⟨⟨1, 1⟩, ⟨5, 5⟩⟩ ⟨⟨2, 2⟩, ⟨3, 3⟩⟩).bind
        RenderState.PopBounds).map (fun r => r.ObjBounds) = some ⟨⟨2, 2⟩, ⟨3, 3⟩⟩ ∧
    boundedState.ObjBounds = ⟨⟨0, 0⟩, ⟨0, 0⟩⟩ ∧
    ((boundedState.PushBounds ⟨⟨1, 1⟩, ⟨5, 5⟩⟩ ⟨⟨2, 2⟩, ⟨3, 3⟩⟩).bind
        RenderState.PopBounds).map (fun r => r.ObjBounds) ≠ some boundedState.ObjBounds := by
  decide

/-- PopClip on a stack with top m takes m as the mask and removes it. -/
theorem PopClip_concat (rs : RenderState α) (l : List (Option Alpha)) (m : Option Alpha)
    (h : rs.ClipStack = l ++ [m]) :
    rs.PopClip.Mask = m ∧ rs.PopClip.ClipStack = l := by
  have hlen : ¬ rs.ClipStack.length = 0 := by simp [h]
  unfold RenderState.PopClip
  rw [dif_neg hlen]
  simp [h]

/-- C5, as the code has it: when a clip mask is set, or when none is set and the
clip stack is empty, PushClip followed by PopClip leaves the mask equal to its
value before the push and the clip stack with the same depth and contents. -/
theorem PushClip_PopClip_restores (rs : RenderState α)
    (h : rs.Mask ≠ none ∨ rs.ClipStack = []) :
    rs.PushClip.PopClip.Mask = rs.Mask ∧
    rs.PushClip.PopClip.ClipStack = rs.ClipStack ∧
    rs.PushClip.PopClip.ClipStack.length = rs.ClipStack.length := by
  cases hm : rs.Mask with
  | some m =>
    have hp : rs.PushClip = { rs with ClipStack := rs.ClipStack ++ [some m] } := by
      simp [RenderState.PushClip, hm]
    have := PopClip_concat rs.PushClip rs.ClipStack (some m) (by rw [hp])
    exact ⟨this.1, this.2, by rw [this.2]⟩
  | none =>
    have hs : rs.ClipStack = [] := by
      rcases h with h | h
      · exact absurd hm h
      · exact h
    have hp : rs.PushClip = rs := by
      simp [RenderState.PushClip, hm]
    rw [hp]
    simp [RenderState.PopClip, hs]

/-- A witness for C5: a state with the mask mask100 set and an empty stack. -/
theorem PushClip_PopClip_restores_witness :
    (({ freshState with Mask := some mask100 } : RenderState ℚ).Mask ≠ none ∨
      ({ freshState with Mask := some mask100 } : RenderState ℚ).ClipStack = []) ∧
    ({ freshState with Mask := some mask100 } : RenderState ℚ).PushClip.PopClip.Mask =
      some mask100 :=
  ⟨by decide,
    (PushClip_PopClip_restores ({ freshState with Mask := some mask100 } : RenderState ℚ)
      (by decide)).1⟩

/-- C5 fails as stated: with no mask set and one mask saved on the clip stack,
PushClip does nothing and PopClip installs the saved mask and empties the stack. -/
theorem PushClip_PopClip_unset_counterexample :
    resetClipState.Mask = none ∧ resetClipState.ClipStack = [some mask100] ∧
    resetClipState.PushClip.PopClip.Mask = some mask100 ∧
    resetClipState.PushClip.PopClip.ClipStack = [] ∧
    resetClipState.PushClip.PopClip.Mask ≠ resetClipState.Mask ∧
    resetClipState.PushClip.PopClip.ClipStack.length ≠ resetClipState.ClipStack.length := by
  decide

end StackTheorems

/-! ## Stroke width -/

section StrokeWidthTheorems

variable {α : Type} [LinearOrderedField α]

/-- C6, as the code has it: a zero logical width gives a zero stroke width,
whatever the vector effect, the transform and the minimum-width floor; for a
non-zero logical width StrokeWidth is the logical width under
VecEffNonScalingStroke and max(0.5·(XX + YY)·Width.Dots, MinWidth.Dots)
otherwise, which under a uniform scale s is s·Width.Dots when that exceeds the
floor and the floor otherwise. -/
theorem StrokeWidth_rule (pc : Paint α) (rs : RenderState α) :
    (pc.StrokeStyle.Width.Dots = 0 → pc.StrokeWidth rs = 0) ∧
    (pc.StrokeStyle.Width.Dots ≠ 0 → pc.VecEff = VectorEffect.VecEffNonScalingStroke →
      pc.StrokeWidth rs = pc.StrokeStyle.Width.Dots) ∧
    (pc.StrokeStyle.Width.Dots ≠ 0 → pc.VecEff ≠ VectorEffect.VecEffNonScalingStroke →
      pc.StrokeWidth rs =
        max (0.5 * (rs.XForm.XX + rs.XForm.YY) * pc.StrokeStyle.Width.Dots)
          pc.StrokeStyle.MinWidth.Dots) ∧
    (∀ s : α, pc.StrokeStyle.Width.Dots ≠ 0 →
      pc.VecEff ≠ VectorEffect.VecEffNonScalingStroke →
      rs.XForm.XX = s → rs.XForm.YY = s →
      (pc.StrokeStyle.MinWidth.Dots < s * pc.StrokeStyle.Width.Dots →
        pc.StrokeWidth rs = s * pc.StrokeStyle.Width.Dots) ∧
      (s * pc.StrokeStyle.Width.Dots ≤ pc.StrokeStyle.MinWidth.Dots →
        pc.StrokeWidth rs = pc.StrokeStyle.MinWidth.Dots)) := by
  refine ⟨?_, ?_, ?_, ?_⟩
  · intro h0
    simp [Paint.StrokeWidth, h0]
  · intro h0 hv
    simp [Paint.StrokeWidth, h0, hv]
  · intro h0 hv
    simp [Paint.StrokeWidth, h0, hv, Max32]
  · intro s h0 hv hx hy
    have hs : (0.5 : α) * (s + s) * pc.StrokeStyle.Width.Dots =
        s * pc.StrokeStyle.Width.Dots := by
      have half : (0.5 : α) = 1 / 2 := by norm_num
      rw [half]
      ring
    constructor
    · intro hlt
      simp only [Paint.StrokeWidth, h0, hv, hx, hy, if_false, Max32, hs]
      exact max_eq_left hlt.le
    · intro hle
      simp only [Paint.StrokeWidth, h0, hv, hx, hy, if_false, Max32, hs]
      exact max_eq_right hle

/-- A witness for C6: a stroke two dots wide under the uniform scale by three,
with a floor of one dot, is six dots wide. -/
theorem StrokeWidth_rule_witness :
    widePaint.StrokeStyle.Width.Dots ≠ 0 ∧
    widePaint.VecEff ≠ VectorEffect.VecEffNonScalingStroke ∧
    scaledState.XForm.XX = 3 ∧ scaledState.XForm.YY = 3 ∧
    widePaint.StrokeStyle.MinWidth.Dots < 3 * widePaint.StrokeStyle.Width.Dots ∧
    widePaint.StrokeWidth scaledState = 3 * widePaint.StrokeStyle.Width.Dots :=
  ⟨by decide, by decide, rfl, rfl, by norm_num [widePaint],
    ((StrokeWidth_rule widePaint scaledState).2.2.2 3 (by decide) (by decide) rfl rfl).1
      (by norm_num [widePaint])⟩

/-- C6 fails as stated: with a zero logical width, the default vector effect,
the identity transform and a floor of one dot, StrokeWidth is 0 while
max(0.5·(XX + YY)·Width.Dots, MinWidth.Dots) is 1. -/
theorem StrokeWidth_zero_counterexample :
    hairlinePaint.VecEff ≠ VectorEffect.VecEffNonScalingStroke ∧
    hairlinePaint.StrokeWidth freshState = 0 ∧
    max (0.5 * (freshState.XForm.XX + freshState.XForm.YY) *
        hairlinePaint.StrokeStyle.Width.Dots) hairlinePaint.StrokeStyle.MinWidth.Dots = 1 ∧
    hairlinePaint.StrokeWidth freshState ≠
      max (0.5 * (freshState.XForm.XX + freshState.XForm.YY) *
        hairlinePaint.StrokeStyle.Width.Dots) hairlinePaint.StrokeStyle.MinWidth.Dots := by
  have h1 : hairlinePaint.StrokeWidth freshState = 0 := by
    simp [Paint.StrokeWidth, hairlinePaint]
  have h2 : max (0.5 * (freshState.XForm.XX + freshState.XForm.YY) *
      hairlinePaint.StrokeStyle.Width.Dots) hairlinePaint.StrokeStyle.MinWidth.Dots = 1 := by
    simp [hairlinePaint]
  refine ⟨by decide, h1, h2, ?_⟩
  rw [h1, h2]
  norm_num

end StrokeWidthTheorems

/-! ## The centre of an elliptical arc -/

section EllipseCenterTheorems

theorem ellipseMid_pos (rx ry rotX startX startY endX endY : ℝ)
    (hrx : 0 < rx) (hry : 0 < ry) (hne : (startX, startY) ≠ (endX, endY)) :
    0 < (ellipseMid rx ry rotX startX startY endX endY).1 *
        (ellipseMid rx ry rotX startX startY endX endY).1 +
      (ellipseMid rx ry rotX startX startY endX endY).2 *
        (ellipseMid rx ry rotX startX startY endX endY).2 := by
  have hcs := Real.cos_sq_add_sin_sq rotX
  set c := Real.cos rotX
  set s := Real.sin rotX
  simp only [ellipseMid]
  by_contra hle
  push_neg at hle
  have h1 : (endX - startX) * c + (endY - startY) * s = 0 := by
    have hk : 0 < ry / rx := div_pos hry hrx
    have : ((endX - startX) * c + (endY - startY) * s) * (ry / rx) / 2 = 0 := by
      nlinarith [mul_self_nonneg (((endX - startX) * c + (endY - startY) * s) * (ry / rx) / 2),
        mul_self_nonneg ((-(endX - startX) * s + (endY - startY) * c) / 2)]
    have h2 : ((endX - startX) * c + (endY - startY) * s) * (ry / rx) = 0 := by linarith
    rcases mul_eq_zero.mp h2 with h | h
    · exact h
    · exact absurd h hk.ne'
  have h2 : -(endX - startX) * s + (endY - startY) * c = 0 := by
    have : (-(endX - startX) * s + (endY - startY) * c) / 2 = 0 := by
      nlinarith [mul_self_nonneg (((endX - startX) * c + (endY - startY) * s) * (ry / rx) / 2),
        mul_self_nonneg ((-(endX - startX) * s + (endY - startY) * c) / 2)]
    linarith
  have hx : endX - startX = 0 := by
    linear_combination c * h1 - s * h2 - (endX - startX) * hcs
  have hy : endY - startY = 0 := by
    linear_combination s * h1 + c * h2 - (endY - startY) * hcs
  apply hne
  rw [Prod.mk.injEq]
  constructor <;> linarith

/-- FindEllipseCenter when the requested radii are too small. -/
theorem FindEllipseCenter_of_small (rx ry rotX startX startY endX endY : ℝ)
    (sweep largeArc : Bool) (hry : 0 < ry) (mX mY sL : ℝ)
    (hmX : mX = (ellipseMid rx ry rotX startX startY endX endY).1)
    (hmY : mY = (ellipseMid rx ry rotX startX startY endX endY).2)
    (hsLdef : sL = Real.sqrt (mX * mX + mY * mY)) (hsL : 0 < sL)
    (hsmall : ry * ry < mX * mX + mY * mY) :
    FindEllipseCenter rx ry rotX startX startY endX endY sweep largeArc =
      { cx := mX * (rx / ry) * Real.cos rotX - mY * Real.sin rotX + startX
        cy := mX * (rx / ry) * Real.sin rotX + mY * Real.cos rotX + startY
        rx := rx * sL / ry
        ry := sL } := by
  have hratio : (if rx = ry then sL else rx * sL / ry) = rx * sL / ry := by
    split_ifs with h
    · rw [h]; field_simp
    · rfl
  have hquot : rx * sL / ry / sL = rx / ry := by
    field_simp
    ring
  simp only [FindEllipseCenter, ← hmX, ← hmY, ← hsLdef, if_pos hsmall, hratio, hquot,
    mul_zero, add_zero, sub_zero, ite_self]

/-- The centre found, in the frame where the ellipse is a circle. -/
theorem FindEllipseCenter_frame (rx ry rotX startX startY endX endY : ℝ)
    (sweep largeArc : Bool)
    (hrx : 0 < rx) (hry : 0 < ry) (hne : (startX, startY) ≠ (endX, endY)) :
    ∃ c1 c2 : ℝ,
      0 < (FindEllipseCenter rx ry rotX startX startY endX endY sweep largeArc).rx ∧
      0 < (FindEllipseCenter rx ry rotX startX startY endX endY sweep largeArc).ry ∧
      (FindEllipseCenter rx ry rotX startX startY endX endY sweep largeArc).rx * ry =
        rx * (FindEllipseCenter rx ry rotX startX startY endX endY sweep largeArc).ry ∧
      (FindEllipseCenter rx ry rotX startX startY endX endY sweep largeArc).cx =
        c1 * (rx / ry) * Real.cos rotX - c2 * Real.sin rotX + startX ∧
      (FindEllipseCenter rx ry rotX startX startY endX endY sweep largeArc).cy =
        c1 * (rx / ry) * Real.sin rotX + c2 * Real.cos rotX + startY ∧
      c1 ^ 2 + c2 ^ 2 =
        (FindEllipseCenter rx ry rotX startX startY endX endY sweep largeArc).ry ^ 2 ∧
      (2 * (ellipseMid rx ry rotX startX startY endX endY).1 - c1) ^ 2 +
        (2 * (ellipseMid rx ry rotX startX startY endX endY).2 - c2) ^ 2 =
        (FindEllipseCenter rx ry rotX startX startY endX endY sweep largeArc).ry ^ 2 := by
  have hL := ellipseMid_pos rx ry rotX startX startY endX endY hrx hry hne
  obtain ⟨mX, hmX⟩ : ∃ m, m = (ellipseMid rx ry rotX startX startY endX endY).1 := ⟨_, rfl⟩
  obtain ⟨mY, hmY⟩ : ∃ m, m = (ellipseMid rx ry rotX startX startY endX endY).2 := ⟨_, rfl⟩
  rw [← hmX, ← hmY] at hL ⊢
  obtain ⟨sL, hsLdef⟩ : ∃ t, t = Real.sqrt (mX * mX + mY * mY) := ⟨_, rfl⟩
  have hsL : 0 < sL := hsLdef ▸ Real.sqrt_pos.mpr hL
  have hsq : sL ^ 2 = mX * mX + mY * mY := hsLdef ▸ Real.sq_sqrt hL.le
  by_cases hsmall : ry * ry < mX * mX + mY * mY
  · -- the radii are too small: they grow, and the centre is the mid point
    have he := FindEllipseCenter_of_small rx ry rotX startX startY endX endY sweep largeArc
      hry mX mY sL hmX hmY hsLdef hsL hsmall
    rw [he]
    refine ⟨mX, mY, by positivity, hsL, ?_, rfl, rfl, ?_, ?_⟩
    · show rx * sL / ry * ry = rx * sL
      field_simp
    · show mX ^ 2 + mY ^ 2 = sL ^ 2
      rw [hsq]; ring
    · show (2 * mX - mX) ^ 2 + (2 * mY - mY) ^ 2 = sL ^ 2
      rw [hsq]; ring
  · -- the radii are large enough and stay
    have hge : 0 ≤ ry * ry - (mX * mX + mY * mY) := by linarith [not_lt.mp hsmall]
    obtain ⟨hr, hhr⟩ : ∃ t, t = Real.sqrt (ry * ry - (mX * mX + mY * mY)) / sL := ⟨_, rfl⟩
    have hhr2 : (mX * mX + mY * mY) * (1 + hr ^ 2) = ry ^ 2 := by
      rw [hhr, div_pow, Real.sq_sqrt hge, hsq]
      field_simp
      ring
    by_cases hflag : ((!sweep && !largeArc) || (sweep && largeArc)) = true
    · have he : FindEllipseCenter rx ry rotX startX startY endX endY sweep largeArc =
          { cx := (mX + mY * hr) * (rx / ry) * Real.cos rotX -
              (mY - mX * hr) * Real.sin rotX + startX
            cy := (mX + mY * hr) * (rx / ry) * Real.sin rotX +
              (mY - mX * hr) * Real.cos rotX + startY
            rx := rx
            ry := ry } := by
        simp only [FindEllipseCenter, ← hmX, ← hmY, ← hsLdef, if_neg hsmall, if_pos hflag,
          ← hhr]
      rw [he]
      refine ⟨mX + mY * hr, mY - mX * hr, hrx, hry, rfl, rfl, rfl, ?_, ?_⟩
      · show (mX + mY * hr) ^ 2 + (mY - mX * hr) ^ 2 = ry ^ 2
        linear_combination hhr2
      · show (2 * mX - (mX + mY * hr)) ^ 2 + (2 * mY - (mY - mX * hr)) ^ 2 = ry ^ 2
        linear_combination hhr2
    · have he : FindEllipseCenter rx ry rotX startX startY endX endY sweep largeArc =
          { cx := (mX - mY * hr) * (rx / ry) * Real.cos rotX -
              (mY + mX * hr) * Real.sin rotX + startX
            cy := (mX - mY * hr) * (rx / ry) * Real.sin rotX +
              (mY + mX * hr) * Real.cos rotX + startY
            rx := rx
            ry := ry } := by
        simp only [FindEllipseCenter, ← hmX, ← hmY, ← hsLdef, if_neg hsmall, if_neg hflag,
          ← hhr]
      rw [he]
      refine ⟨mX - mY * hr, mY + mX * hr, hrx, hry, rfl, rfl, rfl, ?_, ?_⟩
      · show (mX - mY * hr) ^ 2 + (mY + mX * hr) ^ 2 = ry ^ 2
        linear_combination hhr2
      · show (2 * mX - (mX - mY * hr)) ^ 2 + (2 * mY - (mY + mX * hr)) ^ 2 = ry ^ 2
        linear_combination hhr2


/-- C7: for positive radii and distinct end points, both the start point and the
end point lie on the ellipse centred at the centre FindEllipseCenter returns,
with the radii left in its pointer arguments and x-axis rotated by rotX. -/
theorem FindEllipseCenter_on_ellipse (rx ry rotX startX startY endX endY : ℝ)
    (sweep largeArc : Bool)
    (hrx : 0 < rx) (hry : 0 < ry) (hne : (startX, startY) ≠ (endX, endY)) :
    onEllipse (FindEllipseCenter rx ry rotX startX startY endX endY sweep largeArc).cx
      (FindEllipseCenter rx ry rotX startX startY endX endY sweep largeArc).cy
      (FindEllipseCenter rx ry rotX startX startY endX endY sweep largeArc).rx
      (FindEllipseCenter rx ry rotX startX startY endX endY sweep largeArc).ry
      rotX startX startY ∧
    onEllipse (FindEllipseCenter rx ry rotX startX startY endX endY sweep largeArc).cx
      (FindEllipseCenter rx ry rotX startX startY endX endY sweep largeArc).cy
      (FindEllipseCenter rx ry rotX startX startY endX endY sweep largeArc).rx
      (FindEllipseCenter rx ry rotX startX startY endX endY sweep largeArc).ry
      rotX endX endY := by
  obtain ⟨c1, c2, hR, hr, hratio, hcx, hcy, hs, he⟩ :=
    FindEllipseCenter_frame rx ry rotX startX startY endX endY sweep largeArc hrx hry hne
  have hm1 : (ellipseMid rx ry rotX startX startY endX endY).1 =
      ((endX - startX) * Real.cos rotX + (endY - startY) * Real.sin rotX) * (ry / rx) / 2 :=
    rfl
  have hm2 : (ellipseMid rx ry rotX startX startY endX endY).2 =
      (-(endX - startX) * Real.sin rotX + (endY - startY) * Real.cos rotX) / 2 := rfl
  rw [hm1, hm2] at he
  obtain ⟨R, hRdef⟩ : ∃ t,
    t = (FindEllipseCenter rx ry rotX startX startY endX endY sweep largeArc).rx := ⟨_, rfl⟩
  obtain ⟨r, hrdef⟩ : ∃ t,
    t = (FindEllipseCenter rx ry rotX startX startY endX endY sweep largeArc).ry := ⟨_, rfl⟩
  rw [← hRdef] at hR hratio ⊢
  rw [← hrdef] at hr hratio hs he ⊢
  have hcs := Real.cos_sq_add_sin_sq rotX
  obtain ⟨c, hc⟩ : ∃ t, t = Real.cos rotX := ⟨_, rfl⟩
  obtain ⟨s, hsn⟩ : ∃ t, t = Real.sin rotX := ⟨_, rfl⟩
  simp only [onEllipse, hcx, hcy]
  rw [← hc, ← hsn] at hcs he ⊢
  have hk : rx / ry = R / r := by
    field_simp
    linarith
  have hk2 : ry / rx = r / R := by
    field_simp
    linarith
  rw [hk2] at he
  rw [hk]
  constructor
  · have hu : (startX - (c1 * (R / r) * c - c2 * s + startX)) * c +
        (startY - (c1 * (R / r) * s + c2 * c + startY)) * s = -(c1 * (R / r)) := by
      linear_combination (-(c1 * (R / r))) * hcs
    have hv : -(startX - (c1 * (R / r) * c - c2 * s + startX)) * s +
        (startY - (c1 * (R / r) * s + c2 * c + startY)) * c = -c2 := by
      linear_combination (-c2) * hcs
    rw [hu, hv]
    have e1 : -(c1 * (R / r)) / R = -c1 / r := by
      field_simp
      ring
    rw [e1, div_pow, div_pow, ← add_div, neg_sq, neg_sq, hs]
    exact div_self (pow_ne_zero 2 hr.ne')
  · have hu : (endX - (c1 * (R / r) * c - c2 * s + startX)) * c +
        (endY - (c1 * (R / r) * s + c2 * c + startY)) * s =
        ((endX - startX) * c + (endY - startY) * s) - c1 * (R / r) := by
      linear_combination (-(c1 * (R / r))) * hcs
    have hv : -(endX - (c1 * (R / r) * c - c2 * s + startX)) * s +
        (endY - (c1 * (R / r) * s + c2 * c + startY)) * c =
        (-(endX - startX) * s + (endY - startY) * c) - c2 := by
      linear_combination (-c2) * hcs
    rw [hu, hv]
    obtain ⟨N1, hN1⟩ : ∃ t, t = (endX - startX) * c + (endY - startY) * s := ⟨_, rfl⟩
    obtain ⟨N2, hN2⟩ : ∃ t, t = -(endX - startX) * s + (endY - startY) * c := ⟨_, rfl⟩
    rw [← hN1, ← hN2] at he ⊢
    have e1 : (N1 - c1 * (R / r)) / R = (2 * (N1 * (r / R) / 2) - c1) / r := by
      field_simp
      ring
    have e2 : N2 - c2 = 2 * (N2 / 2) - c2 := by ring
    rw [e1, e2, div_pow, div_pow, ← add_div, he]
    exact div_self (pow_ne_zero 2 hr.ne')


/-- C8: for positive radii and distinct end points, FindEllipseCenter leaves the
radii unchanged when they are feasible (ry² at least the squared half chord
midX² + midY² of the circle frame); otherwise both grow strictly, keep the ratio
rx/ry, the new ry is exactly the half chord, and the centre returned is the mid
point of the start and end points. -/
theorem FindEllipseCenter_radii (rx ry rotX startX startY endX endY : ℝ)
    (sweep largeArc : Bool)
    (hrx : 0 < rx) (hry : 0 < ry) (hne : (startX, startY) ≠ (endX, endY)) :
    ((ellipseMid rx ry rotX startX startY endX endY).1 *
          (ellipseMid rx ry rotX startX startY endX endY).1 +
        (ellipseMid rx ry rotX startX startY endX endY).2 *
          (ellipseMid rx ry rotX startX startY endX endY).2 ≤ ry * ry →
      (FindEllipseCenter rx ry rotX startX startY endX endY sweep largeArc).rx = rx ∧
      (FindEllipseCenter rx ry rotX startX startY endX endY sweep largeArc).ry = ry) ∧
    (ry * ry < (ellipseMid rx ry rotX startX startY endX endY).1 *
          (ellipseMid rx ry rotX startX startY endX endY).1 +
        (ellipseMid rx ry rotX startX startY endX endY).2 *
          (ellipseMid rx ry rotX startX startY endX endY).2 →
      rx < (FindEllipseCenter rx ry rotX startX startY endX endY sweep largeArc).rx ∧
      ry < (FindEllipseCenter rx ry rotX startX startY endX endY sweep largeArc).ry ∧
      (FindEllipseCenter rx ry rotX startX startY endX endY sweep largeArc).rx /
          (FindEllipseCenter rx ry rotX startX startY endX endY sweep largeArc).ry =
        rx / ry ∧
      (FindEllipseCenter rx ry rotX startX startY endX endY sweep largeArc).ry =
        Real.sqrt ((ellipseMid rx ry rotX startX startY endX endY).1 *
            (ellipseMid rx ry rotX startX startY endX endY).1 +
          (ellipseMid rx ry rotX startX startY endX endY).2 *
            (ellipseMid rx ry rotX startX startY endX endY).2) ∧
      (FindEllipseCenter rx ry rotX startX startY endX endY sweep largeArc).cx =
        (startX + endX) / 2 ∧
      (FindEllipseCenter rx ry rotX startX startY endX endY sweep largeArc).cy =
        (startY + endY) / 2) := by
  have hL := ellipseMid_pos rx ry rotX startX startY endX endY hrx hry hne
  have hm1 : (ellipseMid rx ry rotX startX startY endX endY).1 =
      ((endX - startX) * Real.cos rotX + (endY - startY) * Real.sin rotX) * (ry / rx) / 2 :=
    rfl
  have hm2 : (ellipseMid rx ry rotX startX startY endX endY).2 =
      (-(endX - startX) * Real.sin rotX + (endY - startY) * Real.cos rotX) / 2 := rfl
  obtain ⟨mX, hmX⟩ : ∃ m, m = (ellipseMid rx ry rotX startX startY endX endY).1 := ⟨_, rfl⟩
  obtain ⟨mY, hmY⟩ : ∃ m, m = (ellipseMid rx ry rotX startX startY endX endY).2 := ⟨_, rfl⟩
  rw [← hmX, ← hmY] at hL ⊢
  constructor
  · intro hfeas
    have hns : ¬ ry * ry < mX * mX + mY * mY := not_lt.mpr hfeas
    constructor <;> simp only [FindEllipseCenter, ← hmX, ← hmY, if_neg hns]
  · intro hsmall
    obtain ⟨sL, hsLdef⟩ : ∃ t, t = Real.sqrt (mX * mX + mY * mY) := ⟨_, rfl⟩
    have hsL : 0 < sL := hsLdef ▸ Real.sqrt_pos.mpr hL
    have hlt : ry < sL := by
      rw [hsLdef]
      apply (Real.lt_sqrt hry.le).mpr
      rw [pow_two]
      exact hsmall
    rw [FindEllipseCenter_of_small rx ry rotX startX startY endX endY sweep largeArc hry
      mX mY sL hmX hmY hsLdef hsL hsmall, ← hsLdef]
    have hcs := Real.cos_sq_add_sin_sq rotX
    have hmk : mX * (rx / ry) =
        ((endX - startX) * Real.cos rotX + (endY - startY) * Real.sin rotX) / 2 := by
      rw [hmX, hm1]
      field_simp
      ring
    refine ⟨?_, hlt, ?_, rfl, ?_, ?_⟩
    · show rx < rx * sL / ry
      rw [lt_div_iff₀ hry]
      exact mul_lt_mul_of_pos_left hlt hrx
    · show rx * sL / ry / sL = rx / ry
      field_simp
      ring
    · show mX * (rx / ry) * Real.cos rotX - mY * Real.sin rotX + startX = (startX + endX) / 2
      rw [hmk, hmY, hm2]
      linear_combination ((endX - startX) / 2) * hcs
    · show mX * (rx / ry) * Real.sin rotX + mY * Real.cos rotX + startY = (startY + endY) / 2
      rw [hmk, hmY, hm2]
      linear_combination ((endY - startY) / 2) * hcs

/-- FindEllipseCenter on radii 5, no rotation, from (0, 0) to (6, 0): the half
chord is 3, the radii stay and the centre is (3, -4). -/
theorem FindEllipseCenter_example :
    FindEllipseCenter 5 5 0 0 0 6 0 false false = { cx := 3, cy := -4, rx := 5, ry := 5 } := by
  have h16 : Real.sqrt 16 = 4 := by
    rw [show (16 : ℝ) = 4 ^ 2 by norm_num]
    exact Real.sqrt_sq (by norm_num)
  have h9 : Real.sqrt 9 = 3 := by
    rw [show (9 : ℝ) = 3 ^ 2 by norm_num]
    exact Real.sqrt_sq (by norm_num)
  have hm : ellipseMid 5 5 0 0 0 6 0 = (3, 0) := by
    simp [ellipseMid]
    norm_num
  have e1 : (5 : ℝ) * 5 - (3 * 3 + 0 * 0) = 16 := by norm_num
  have e2 : (3 : ℝ) * 3 + 0 * 0 = 9 := by norm_num
  have e3 : ¬ ((5 : ℝ) * 5 < 9) := by norm_num
  simp only [FindEllipseCenter, hm, e1, e2, e3, h16, h9, if_false]
  norm_num [h16]

/-- The end points (0, 0) and (4, 0) of the test arc are distinct. -/
theorem testChord_ne : ((0 : ℝ), (0 : ℝ)) ≠ (4, 0) := by
  intro h
  have h4 := congrArg Prod.fst h
  norm_num at h4

/-- A witness for C7: unit radii, no rotation, from (0, 0) to (4, 0); the radii
are too small for the chord and grow. -/
theorem FindEllipseCenter_on_ellipse_witness :
    (0 : ℝ) < 1 ∧ ((0 : ℝ), (0 : ℝ)) ≠ (4, 0) ∧
    onEllipse (FindEllipseCenter 1 1 0 0 0 4 0 false false).cx
      (FindEllipseCenter 1 1 0 0 0 4 0 false false).cy
      (FindEllipseCenter 1 1 0 0 0 4 0 false false).rx
      (FindEllipseCenter 1 1 0 0 0 4 0 false false).ry 0 0 0 ∧
    onEllipse (FindEllipseCenter 1 1 0 0 0 4 0 false false).cx
      (FindEllipseCenter 1 1 0 0 0 4 0 false false).cy
      (FindEllipseCenter 1 1 0 0 0 4 0 false false).rx
      (FindEllipseCenter 1 1 0 0 0 4 0 false false).ry 0 4 0 :=
  ⟨by norm_num, testChord_ne,
    FindEllipseCenter_on_ellipse 1 1 0 0 0 4 0 false false (by norm_num) (by norm_num)
      testChord_ne⟩

/-- A witness for C8: unit radii, no rotation, from (0, 0) to (4, 0); the half
chord is 2, the radii grow and the centre is the mid point (2, 0). -/
theorem FindEllipseCenter_radii_witness :
    (0 : ℝ) < 1 ∧ ((0 : ℝ), (0 : ℝ)) ≠ (4, 0) ∧
    (1 : ℝ) * 1 < (ellipseMid 1 1 0 0 0 4 0).1 * (ellipseMid 1 1 0 0 0 4 0).1 +
      (ellipseMid 1 1 0 0 0 4 0).2 * (ellipseMid 1 1 0 0 0 4 0).2 ∧
    1 < (FindEllipseCenter 1 1 0 0 0 4 0 true false).rx ∧
    1 < (FindEllipseCenter 1 1 0 0 0 4 0 true false).ry ∧
    (FindEllipseCenter 1 1 0 0 0 4 0 true false).cx = (0 + 4) / 2 ∧
    (FindEllipseCenter 1 1 0 0 0 4 0 true false).cy = (0 + 0) / 2 := by
  have hsmall : (1 : ℝ) * 1 < (ellipseMid 1 1 0 0 0 4 0).1 * (ellipseMid 1 1 0 0 0 4 0).1 +
      (ellipseMid 1 1 0 0 0 4 0).2 * (ellipseMid 1 1 0 0 0 4 0).2 := by
    simp only [ellipseMid, Real.cos_zero, Real.sin_zero]
    norm_num
  have h := (FindEllipseCenter_radii 1 1 0 0 0 4 0 true false (by norm_num) (by norm_num)
    testChord_ne).2 hsmall
  exact ⟨by norm_num, testChord_ne, hsmall, h.1, h.2.1, h.2.2.2.2.1, h.2.2.2.2.2⟩

end EllipseCenterTheorems

/-! ## The cubic segments of an elliptical arc -/

section ArcPathTheorems

theorem Atan2_range (y x : ℝ) : -Real.pi < Atan2 y x ∧ Atan2 y x ≤ Real.pi :=
  ⟨Complex.neg_pi_lt_arg _, Complex.arg_le_pi _⟩

/-- The corrected sweep lies between -2π (included) and 2π (excluded). -/
theorem arcDeltaEta_range (cx cy ocx ocy pcx pcy rx ry angle : ℝ) (largeArc sweep : Bool) :
    -(2 * Real.pi) ≤ arcDeltaEta cx cy ocx ocy pcx pcy rx ry angle largeArc sweep ∧
    arcDeltaEta cx cy ocx ocy pcx pcy rx ry angle largeArc sweep < 2 * Real.pi := by
  have hpi := Real.pi_pos
  simp only [arcDeltaEta]
  obtain ⟨h1, h2⟩ := Atan2_range
    (Real.sin (Atan2 (pcy - cy) (pcx - cx) - angle * Real.pi / 180) / ry)
    (Real.cos (Atan2 (pcy - cy) (pcx - cx) - angle * Real.pi / 180) / rx)
  obtain ⟨h3, h4⟩ := Atan2_range
    (Real.sin (Atan2 (ocy - cy) (ocx - cx) - angle * Real.pi / 180) / ry)
    (Real.cos (Atan2 (ocy - cy) (ocx - cx) - angle * Real.pi / 180) / rx)
  split_ifs <;> constructor <;> linarith

theorem truncToInt_of_nonneg (x : ℝ) (h : 0 ≤ x) : truncToInt x = ⌊x⌋ := by
  simp [truncToInt, h]

theorem arcSegs_eq (d : ℝ) : arcSegs d = ⌊|d| / (Real.pi / 8)⌋ + 1 := by
  have hpi := Real.pi_pos
  unfold arcSegs MaxDx
  rw [truncToInt_of_nonneg _ (div_nonneg (abs_nonneg d) (by positivity))]

theorem arcSegs_pos (d : ℝ) : 1 ≤ arcSegs d := by
  have hpi := Real.pi_pos
  rw [arcSegs_eq]
  have : 0 ≤ ⌊|d| / (Real.pi / 8)⌋ := Int.floor_nonneg.mpr (div_nonneg (abs_nonneg d) (by positivity))
  omega

theorem arcSegs_le (d : ℝ) (h1 : -(2 * Real.pi) ≤ d) (h2 : d < 2 * Real.pi) : arcSegs d ≤ 17 := by
  have hpi := Real.pi_pos
  rw [arcSegs_eq]
  have habs : |d| ≤ 2 * Real.pi := abs_le.mpr ⟨h1, h2.le⟩
  have : |d| / (Real.pi / 8) ≤ 16 := by
    rw [div_le_iff₀ (by positivity)]
    linarith
  have : ⌊|d| / (Real.pi / 8)⌋ ≤ 16 := by
    have h16 := Int.floor_le_floor this
    simpa using h16
  omega

theorem arcSegs_span (d : ℝ) : |d / (arcSegs d : ℝ)| < MaxDx := by
  have hpi := Real.pi_pos
  have hpos : (0 : ℝ) < (arcSegs d : ℝ) := by
    have := arcSegs_pos d
    exact_mod_cast (by omega : 0 < arcSegs d)
  rw [abs_div, abs_of_pos hpos, div_lt_iff₀ hpos]
  have hlt : |d| / (Real.pi / 8) < (arcSegs d : ℝ) := by
    rw [arcSegs_eq]
    push_cast
    exact Int.lt_floor_add_one _
  unfold MaxDx
  rw [div_lt_iff₀ (by positivity)] at hlt
  linarith


theorem countCubics_append (a b : List PathCmd) :
    countCubics (a ++ b) = countCubics a + countCubics b := by
  induction a with
  | nil => simp [countCubics]
  | cons c cs ih =>
    cases c
    all_goals rw [List.cons_append]
    all_goals simp only [countCubics]
    all_goals rw [ih]
    all_goals omega

theorem countCubics_map_cubicCmd (l : List (Point26_6 × Point26_6 × Point26_6)) :
    countCubics (l.map cubicCmd) = l.length := by
  induction l with
  | nil => rfl
  | cons t ts ih => simp [countCubics, cubicCmd, ih]

theorem segmentEnds_cubicCmd_cons (st pen : Point26_6)
    (t : Point26_6 × Point26_6 × Point26_6) (cs : List PathCmd) :
    segmentEnds st pen (cubicCmd t :: cs) = (pen, t.2.2) :: segmentEnds st t.2.2 cs := rfl

/-- Read from any pen position, a run of cubic segments is a chain: it has one
segment per command, the first starts at the pen position, each next one starts
where the one before it ends, and the segments end at the end points of the
commands. -/
theorem segmentEnds_cubics (l : List (Point26_6 × Point26_6 × Point26_6)) :
    ∀ st pen : Point26_6,
      (segmentEnds st pen (l.map cubicCmd)).length = l.length ∧
      List.Chain' (fun s t => s.2 = t.1) (segmentEnds st pen (l.map cubicCmd)) ∧
      (segmentEnds st pen (l.map cubicCmd)).head?.map Prod.fst = l.head?.map (fun _ => pen) ∧
      (segmentEnds st pen (l.map cubicCmd)).map Prod.snd = l.map (fun t => t.2.2) := by
  induction l with
  | nil => intro st pen; simp [segmentEnds]
  | cons t ts ih =>
    intro st pen
    obtain ⟨h1, h2, h3, h4⟩ := ih st t.2.2
    rw [List.map_cons, segmentEnds_cubicCmd_cons]
    refine ⟨?_, ?_, ?_, ?_⟩
    · simp [h1]
    · rw [List.chain'_cons']
      refine ⟨?_, h2⟩
      intro y hy
      rw [Option.mem_def] at hy
      rw [hy] at h3
      cases hts : ts.head? with
      | none => simp [hts] at h3
      | some u =>
        simp [hts] at h3
        exact h3.symm
    · simp
    · simp [h4]

/-- What one call of CubicTo does to the render state. -/
theorem CubicTo_effect (Fixed : Vec2D ℝ → Point26_6) (pc : Paint ℝ) (rs : RenderState ℝ)
    (x1 y1 x2 y2 x3 y3 : ℝ) :
    ∃ (pre : List PathCmd) (b c : Point26_6),
      (pc.CubicTo Fixed rs x1 y1 x2 y2 x3 y3).Path =
        rs.Path ++ pre ++ [cubicCmd (b, c, Fixed (pc.TransformPoint rs x3 y3))] ∧
      (rs.HasCurrent = true → pre = []) ∧
      (rs.HasCurrent = false → pre = [PathCmd.Start (Fixed (pc.TransformPoint rs x1 y1))]) ∧
      (pc.CubicTo Fixed rs x1 y1 x2 y2 x3 y3).Current = pc.TransformPoint rs x3 y3 ∧
      (pc.CubicTo Fixed rs x1 y1 x2 y2 x3 y3).HasCurrent = true ∧
      (pc.CubicTo Fixed rs x1 y1 x2 y2 x3 y3).XForm = rs.XForm := by
  cases h : rs.HasCurrent with
  | true =>
    refine ⟨[], Fixed (pc.TransformPoint rs x1 y1), Fixed (pc.TransformPoint rs x2 y2),
      ?_, fun _ => rfl, fun h0 => by simp at h0, ?_, ?_, ?_⟩
    all_goals simp [Paint.CubicTo, h, cubicCmd]
  | false =>
    refine ⟨[PathCmd.Start (Fixed (pc.TransformPoint rs x1 y1))],
      Fixed (pc.TransformPoint rs x1 y1), Fixed (pc.TransformPoint rs x2 y2), ?_,
      fun h0 => by simp at h0, fun _ => rfl, ?_, ?_, ?_⟩
    all_goals simp [Paint.CubicTo, Paint.MoveTo, h, cubicCmd, Paint.TransformPoint]


theorem TransformPoint_congr (pc : Paint ℝ) (rs rs1 : RenderState ℝ) (h : rs1.XForm = rs.XForm)
    (x y : ℝ) : pc.TransformPoint rs1 x y = pc.TransformPoint rs x y := by
  simp [Paint.TransformPoint, h]

/-- The loop of DrawEllipticalArcPath with n + 1 iterations left, the last of
them at index segs: it appends n + 1 cubic segments (after the start of a
subpath when there was no current point), the last one ending at the transform
of (ocx, ocy), and it returns (ocx, ocy). -/
theorem arcLoop_effect (Fixed : Vec2D ℝ → Point26_6) (pc : Paint ℝ)
    (cx cy ocx ocy rx ry sinTheta cosTheta etaStart dEta alpha : ℝ) (segs : Int) (n : Nat) :
    ∀ (i : Int) (rs : RenderState ℝ) (lx ly ldx ldy : ℝ), i + n = segs →
      ∃ (a : Point26_6) (cubics : List (Point26_6 × Point26_6 × Point26_6)),
        (arcLoop Fixed pc cx cy ocx ocy rx ry sinTheta cosTheta etaStart dEta alpha segs
            (n + 1) i rs lx ly ldx ldy).1.Path =
          rs.Path ++ (if rs.HasCurrent then [] else [PathCmd.Start a]) ++
            cubics.map cubicCmd ∧
        cubics.length = n + 1 ∧
        (cubics.map (fun t => t.2.2)).getLast? = some (Fixed (pc.TransformPoint rs ocx ocy)) ∧
        (arcLoop Fixed pc cx cy ocx ocy rx ry sinTheta cosTheta etaStart dEta alpha segs
            (n + 1) i rs lx ly ldx ldy).1.Current = pc.TransformPoint rs ocx ocy ∧
        (arcLoop Fixed pc cx cy ocx ocy rx ry sinTheta cosTheta etaStart dEta alpha segs
            (n + 1) i rs lx ly ldx ldy).1.HasCurrent = true ∧
        (arcLoop Fixed pc cx cy ocx ocy rx ry sinTheta cosTheta etaStart dEta alpha segs
            (n + 1) i rs lx ly ldx ldy).1.XForm = rs.XForm ∧
        (arcLoop Fixed pc cx cy ocx ocy rx ry sinTheta cosTheta etaStart dEta alpha segs
            (n + 1) i rs lx ly ldx ldy).2 = (ocx, ocy) := by
  induction n with
  | zero =>
    intro i rs lx ly ldx ldy hi
    have his : i = segs := by simpa using hi
    obtain ⟨pre, b, c, hp, ht, hf, hc, hh, hx⟩ := CubicTo_effect Fixed pc rs
      (lx + alpha * ldx) (ly + alpha * ldy)
      (ocx - alpha * (ellipsePrime rx ry sinTheta cosTheta (etaStart + dEta * (i : ℝ)) cx cy).1)
      (ocy - alpha * (ellipsePrime rx ry sinTheta cosTheta (etaStart + dEta * (i : ℝ)) cx cy).2)
      ocx ocy
    refine ⟨Fixed (pc.TransformPoint rs (lx + alpha * ldx) (ly + alpha * ldy)),
      [(b, c, Fixed (pc.TransformPoint rs ocx ocy))], ?_, rfl, rfl, ?_, ?_, ?_, ?_⟩
    all_goals simp only [arcLoop, if_pos his]
    · rw [hp]
      cases hcur : rs.HasCurrent with
      | true => simp [ht hcur]
      | false => simp [hf hcur]
    · exact hc
    · exact hh
    · exact hx
  | succ n ih =>
    intro i rs lx ly ldx ldy hi
    have hi1 : (i + 1) + (n : Int) = segs := by
      push_cast at hi
      omega
    obtain ⟨p, hpdef⟩ : ∃ p : ℝ × ℝ, p = (if i = segs then (ocx, ocy)
        else ellipsePointAt rx ry sinTheta cosTheta (etaStart + dEta * (i : ℝ)) cx cy) :=
      ⟨_, rfl⟩
    obtain ⟨d, hddef⟩ : ∃ d : ℝ × ℝ,
        d = ellipsePrime rx ry sinTheta cosTheta (etaStart + dEta * (i : ℝ)) cx cy := ⟨_, rfl⟩
    obtain ⟨pre, b, c, hp, ht, hf, hc, hh, hx⟩ := CubicTo_effect Fixed pc rs
      (lx + alpha * ldx) (ly + alpha * ldy) (p.1 - alpha * d.1) (p.2 - alpha * d.2) p.1 p.2
    obtain ⟨a1, cubics, hp1, hlen, hlast, hc1, hh1, hx1, hr1⟩ :=
      ih (i + 1) (pc.CubicTo Fixed rs (lx + alpha * ldx) (ly + alpha * ldy)
        (p.1 - alpha * d.1) (p.2 - alpha * d.2) p.1 p.2) p.1 p.2 d.1 d.2 hi1
    have hstep : arcLoop Fixed pc cx cy ocx ocy rx ry sinTheta cosTheta etaStart dEta alpha
        segs (n + 1 + 1) i rs lx ly ldx ldy =
        arcLoop Fixed pc cx cy ocx ocy rx ry sinTheta cosTheta etaStart dEta alpha segs
          (n + 1) (i + 1) (pc.CubicTo Fixed rs (lx + alpha * ldx) (ly + alpha * ldy)
            (p.1 - alpha * d.1) (p.2 - alpha * d.2) p.1 p.2) p.1 p.2 d.1 d.2 := by
      rw [arcLoop, ← hpdef, ← hddef]
    rw [hstep]
    refine ⟨Fixed (pc.TransformPoint rs (lx + alpha * ldx) (ly + alpha * ldy)),
      (b, c, Fixed (pc.TransformPoint rs p.1 p.2)) :: cubics, ?_, ?_, ?_, ?_, hh1, ?_, hr1⟩
    · rw [hp1, hh, hp]
      cases hcur : rs.HasCurrent with
      | true => simp [ht hcur]
      | false => simp [hf hcur]
    · simp [hlen]
    · rw [List.map_cons, List.getLast?_cons, hlast, TransformPoint_congr pc rs _ hx]
      rfl
    · rw [hc1, TransformPoint_congr pc rs _ hx]
    · rw [hx1, hx]


theorem Atan2_zero_one : Atan2 0 1 = 0 := by
  have h : (⟨1, 0⟩ : ℂ) = 1 := rfl
  simp [Atan2, h]

theorem Atan2_one_zero : Atan2 1 0 = Real.pi / 2 := by
  have h : (⟨0, 1⟩ : ℂ) = Complex.I := rfl
  simp [Atan2, h]

/-- The corrected sweep of the quarter of the unit circle from (1, 0) to (0, 1),
drawn with sweep set, is π/2. -/
theorem quarter_deltaEta : arcDeltaEta 0 0 0 1 1 0 1 1 0 false true = Real.pi / 2 := by
  have hpi := Real.pi_pos
  have h1 : ¬ (|Real.pi / 2| > Real.pi) := by
    rw [abs_of_pos (by positivity)]
    linarith
  have h2 : ¬ (Real.pi / 2 < 0) := by linarith
  simp [arcDeltaEta, Atan2_zero_one, Atan2_one_zero, h1, h2]

/-- The quarter of the unit circle is drawn with five cubic segments. -/
theorem quarter_segs : arcSegs (arcDeltaEta 0 0 0 1 1 0 1 1 0 false true) = 5 := by
  have hpi := Real.pi_pos
  rw [quarter_deltaEta, arcSegs_eq, abs_of_pos (by positivity)]
  have : Real.pi / 2 / (Real.pi / 8) = 4 := by
    field_simp
    ring
  rw [this]
  norm_num

/-- With neither radius zero the expression for etaStart and etaEnd is the
angle Atan2 gives over the reals. -/
theorem arcEta_of_radii (a rx ry : ℝ) (hrx : rx ≠ 0) (hry : ry ≠ 0) :
    arcEta a rx ry = some (Atan2 (Real.sin a / ry) (Real.cos a / rx)) := by
  simp [arcEta, div32, hrx, hry, Atan2Quotient]

/-- With neither radius zero DrawEllipticalArcPath draws the cubics of the
corrected sweep arcDeltaEta from the start parameter arcEtaStart. -/
theorem DrawEllipticalArcPath_of_radii (Fixed : Vec2D ℝ → Point26_6) (pc : Paint ℝ)
    (rs : RenderState ℝ) (cx cy ocx ocy pcx pcy rx ry angle : ℝ) (largeArc sweep : Bool)
    (hrx : rx ≠ 0) (hry : ry ≠ 0) :
    pc.DrawEllipticalArcPath Fixed rs cx cy ocx ocy pcx pcy rx ry angle largeArc sweep =
      arcCubics Fixed pc rs cx cy ocx ocy pcx pcy rx ry (angle * Real.pi / 180)
        (arcEtaStart cx cy pcx pcy rx ry angle)
        (arcDeltaEta cx cy ocx ocy pcx pcy rx ry angle largeArc sweep) := by
  simp only [Paint.DrawEllipticalArcPath, arcEta_of_radii _ rx ry hrx hry]
  rfl

/-- The loop of arcCubics runs arcSegs - 1 + 1 times, from index 1, starting at
the previous point with the tangent at etaStart. -/
theorem arcCubics_loop (Fixed : Vec2D ℝ → Point26_6) (pc : Paint ℝ)
    (rs : RenderState ℝ) (cx cy ocx ocy pcx pcy rx ry rotX etaStart deltaEta : ℝ) :
    ∃ (n : Nat),
      (1 : Int) + n = arcSegs deltaEta ∧
      (arcSegs deltaEta).toNat = n + 1 ∧
      arcCubics Fixed pc rs cx cy ocx ocy pcx pcy rx ry rotX etaStart deltaEta =
        arcLoop Fixed pc cx cy ocx ocy rx ry (Real.sin rotX) (Real.cos rotX) etaStart
          (deltaEta / (arcSegs deltaEta : ℝ))
          (Real.sin (deltaEta / (arcSegs deltaEta : ℝ)) *
            (Real.sqrt (4 + 3 * Real.tan (deltaEta / (arcSegs deltaEta : ℝ) / 2) *
              Real.tan (deltaEta / (arcSegs deltaEta : ℝ) / 2)) - 1) / 3)
          (arcSegs deltaEta) (n + 1) 1 rs pcx pcy
          (ellipsePrime rx ry (Real.sin rotX) (Real.cos rotX) etaStart cx cy).1
          (ellipsePrime rx ry (Real.sin rotX) (Real.cos rotX) etaStart cx cy).2 := by
  have hpos := arcSegs_pos deltaEta
  obtain ⟨n, hn⟩ : ∃ n : Nat, (arcSegs deltaEta).toNat = n + 1 :=
    ⟨(arcSegs deltaEta).toNat - 1, by omega⟩
  refine ⟨n, by omega, hn, ?_⟩
  simp only [arcCubics]
  rw [hn]

/-- For radii that are not zero, DrawEllipticalArcPath appends at least one
cubic segment (after the start of a subpath at the first control point when
there was no current point); read as a path, the appended segments form a chain
in which every segment starts at the end point of the one before it, the first
at the current point; the last one ends at the transform of exactly (ocx, ocy),
which becomes the current point, and the pair returned is (ocx, ocy). -/
theorem DrawEllipticalArcPath_chain_of_radii (Fixed : Vec2D ℝ → Point26_6) (pc : Paint ℝ)
    (rs : RenderState ℝ) (cx cy ocx ocy pcx pcy rx ry angle : ℝ) (largeArc sweep : Bool)
    (hrx : rx ≠ 0) (hry : ry ≠ 0) :
    ∃ (a : Point26_6) (cubics : List (Point26_6 × Point26_6 × Point26_6)),
      (pc.DrawEllipticalArcPath Fixed rs cx cy ocx ocy pcx pcy rx ry angle largeArc sweep).1.Path =
        rs.Path ++ (if rs.HasCurrent then [] else [PathCmd.Start a]) ++ cubics.map cubicCmd ∧
      1 ≤ cubics.length ∧
      (∀ st, List.Chain' (fun s t => s.2 = t.1)
        (segmentEnds st (Fixed rs.Current)
          ((if rs.HasCurrent then [] else [PathCmd.Start a]) ++ cubics.map cubicCmd))) ∧
      (∀ st, (segmentEnds st (Fixed rs.Current)
          ((if rs.HasCurrent then [] else [PathCmd.Start a]) ++ cubics.map cubicCmd)).head?.map
            Prod.fst = some (if rs.HasCurrent then Fixed rs.Current else a)) ∧
      (∀ st, ((segmentEnds st (Fixed rs.Current)
          ((if rs.HasCurrent then [] else [PathCmd.Start a]) ++ cubics.map cubicCmd)).map
            Prod.snd).getLast? = some (Fixed (pc.TransformPoint rs ocx ocy))) ∧
      (pc.DrawEllipticalArcPath Fixed rs cx cy ocx ocy pcx pcy rx ry angle largeArc
        sweep).1.Current = pc.TransformPoint rs ocx ocy ∧
      (pc.DrawEllipticalArcPath Fixed rs cx cy ocx ocy pcx pcy rx ry angle largeArc
        sweep).1.HasCurrent = true ∧
      (pc.DrawEllipticalArcPath Fixed rs cx cy ocx ocy pcx pcy rx ry angle largeArc sweep).2 =
        (ocx, ocy) := by
  obtain ⟨n, hn, _, hloop⟩ := arcCubics_loop Fixed pc rs cx cy ocx ocy pcx pcy rx ry
    (angle * Real.pi / 180) (arcEtaStart cx cy pcx pcy rx ry angle)
    (arcDeltaEta cx cy ocx ocy pcx pcy rx ry angle largeArc sweep)
  obtain ⟨a, cubics, hp, hlen, hlast, hc, hh, _, hr⟩ := arcLoop_effect Fixed pc cx cy ocx ocy
    rx ry (Real.sin (angle * Real.pi / 180)) (Real.cos (angle * Real.pi / 180))
    (arcEtaStart cx cy pcx pcy rx ry angle) _ _
    (arcSegs (arcDeltaEta cx cy ocx ocy pcx pcy rx ry angle largeArc sweep)) n 1 rs pcx pcy
    _ _ hn
  rw [DrawEllipticalArcPath_of_radii Fixed pc rs cx cy ocx ocy pcx pcy rx ry angle largeArc
    sweep hrx hry, hloop]
  have hhead : cubics.head?.map (fun _ => (Fixed rs.Current)) = some (Fixed rs.Current) ∧
      ∀ q : Point26_6, cubics.head?.map (fun _ => q) = some q := by
    cases cubics with
    | nil => simp at hlen
    | cons t ts => simp
  refine ⟨a, cubics, hp, by omega, ?_, ?_, ?_, hc, hh, hr⟩
  · intro st
    cases hcur : rs.HasCurrent with
    | true => simpa using (segmentEnds_cubics cubics st (Fixed rs.Current)).2.1
    | false => simpa [segmentEnds] using (segmentEnds_cubics cubics a a).2.1
  · intro st
    cases hcur : rs.HasCurrent with
    | true =>
      have h3 := (segmentEnds_cubics cubics st (Fixed rs.Current)).2.2.1
      rw [hhead.2] at h3
      simpa using h3
    | false =>
      have h3 := (segmentEnds_cubics cubics a a).2.2.1
      rw [hhead.2] at h3
      simpa [segmentEnds] using h3
  · intro st
    cases hcur : rs.HasCurrent with
    | true =>
      have h4 := (segmentEnds_cubics cubics st (Fixed rs.Current)).2.2.2
      simp only [Bool.true_eq_false, if_false, if_true, List.nil_append]
      rw [h4, hlast]
    | false =>
      have h4 := (segmentEnds_cubics cubics a a).2.2.2
      have hs : segmentEnds st (Fixed rs.Current) ([PathCmd.Start a] ++ cubics.map cubicCmd) =
          segmentEnds a a (cubics.map cubicCmd) := rfl
      simp only [Bool.false_eq_true, if_false]
      rw [hs, h4, hlast]

/-- C9, the code at a failing input: centre (0, 0), from the previous point
(1, 0) to the end point (0, 1), both radii zero, angle 0.  The start angle is 0,
so Sin(startAngle)/ry is 0/0, etaStart is NaN and with it deltaEta; segs is
negative, the loop does not run: the render state, and so the path, is left as
it was, no cubic segment is appended, and the pair returned is the previous
point (1, 0), not the end point (0, 1). -/
theorem DrawEllipticalArcPath_zero_radii (Fixed : Vec2D ℝ → Point26_6) (pc : Paint ℝ)
    (rs : RenderState ℝ) (largeArc sweep : Bool) :
    arcEta (Atan2 (0 - 0) (1 - 0) - 0 * Real.pi / 180) 0 0 = none ∧
    pc.DrawEllipticalArcPath Fixed rs 0 0 0 1 1 0 0 0 0 largeArc sweep = (rs, 1, 0) ∧
    (pc.DrawEllipticalArcPath Fixed rs 0 0 0 1 1 0 0 0 0 largeArc sweep).1.Path = rs.Path ∧
    (pc.DrawEllipticalArcPath Fixed rs 0 0 0 1 1 0 0 0 0 largeArc sweep).2 ≠ (0, 1) := by
  have h : arcEta (Atan2 (0 - 0) (1 - 0) - 0 * Real.pi / 180) 0 0 = none := by
    simp [arcEta, div32, Atan2_zero_one, Atan2Quotient]
  have hd : pc.DrawEllipticalArcPath Fixed rs 0 0 0 1 1 0 0 0 0 largeArc sweep = (rs, 1, 0) := by
    simp only [Paint.DrawEllipticalArcPath, h]
  refine ⟨h, hd, by rw [hd], ?_⟩
  rw [hd]
  intro h2
  have h3 := congrArg Prod.fst h2
  norm_num at h3

/-- What one call of CubicTo appends to the path. -/
theorem CubicTo_path (Fixed : Vec2D ℝ → Point26_6) (pc : Paint ℝ) (rs : RenderState ℝ)
    (x1 y1 x2 y2 x3 y3 : ℝ) :
    (pc.CubicTo Fixed rs x1 y1 x2 y2 x3 y3).Path =
      rs.Path ++
        (if rs.HasCurrent then [] else [PathCmd.Start (Fixed (pc.TransformPoint rs x1 y1))]) ++
        [cubicCmd (Fixed (pc.TransformPoint rs x1 y1), Fixed (pc.TransformPoint rs x2 y2),
          Fixed (pc.TransformPoint rs x3 y3))] ∧
    (pc.CubicTo Fixed rs x1 y1 x2 y2 x3 y3).HasCurrent = true ∧
    (pc.CubicTo Fixed rs x1 y1 x2 y2 x3 y3).XForm = rs.XForm := by
  cases h : rs.HasCurrent with
  | true => simp [Paint.CubicTo, h, cubicCmd]
  | false => simp [Paint.CubicTo, Paint.MoveTo, h, cubicCmd, Paint.TransformPoint]

/-- The point the loop of DrawEllipticalArcPath computes at index m + 1 is node
m + 1 of the arc. -/
theorem arcLoop_node (cx cy ocx ocy pcx pcy rx ry theta etaStart dEta : ℝ) (segs : Int)
    (m : Nat) :
    (if (m : Int) + 1 = segs then (ocx, ocy)
      else ellipsePointAt rx ry (Real.sin theta) (Real.cos theta)
        (etaStart + dEta * (((m : Int) + 1 : Int) : ℝ)) cx cy) =
      arcNodeSpec cx cy ocx ocy pcx pcy rx ry theta etaStart dEta segs (m + 1) := by
  have h0 : m + 1 ≠ 0 := by omega
  have hc : (((m + 1 : Nat) : Int) = segs) ↔ ((m : Int) + 1 = segs) := by
    push_cast
    exact Iff.rfl
  simp only [arcNodeSpec, if_neg h0, hc]
  by_cases h : (m : Int) + 1 = segs
  · rw [if_pos h, if_pos h]
  · rw [if_neg h, if_neg h]
    simp only [ellipsePointAt, arcPointSpec]
    push_cast
    rfl

/-- The tangent the loop of DrawEllipticalArcPath computes at index m + 1 is the
tangent of the ellipse at the parameter etaStart + (m + 1)·dEta. -/
theorem arcLoop_tangent (cx cy rx ry theta etaStart dEta : ℝ) (m : Nat) :
    ellipsePrime rx ry (Real.sin theta) (Real.cos theta)
        (etaStart + dEta * (((m : Int) + 1 : Int) : ℝ)) cx cy =
      arcTangentSpec rx ry theta (etaStart + dEta * ((m : ℝ) + 1)) := by
  simp only [ellipsePrime, arcTangentSpec]
  push_cast
  ext
  · simp only
    ring
  · simp only
    ring

theorem range_map_shift {β : Type} (f : Nat → β) (m n : Nat) :
    (List.range (n + 1)).map (fun j => f (m + j)) =
      f m :: (List.range n).map (fun j => f (m + 1 + j)) := by
  rw [List.range_succ_eq_map, List.map_cons, List.map_map]
  refine congrArg₂ List.cons rfl ?_
  apply List.map_congr_left
  intro j _
  simp only [Function.comp, Nat.succ_eq_add_one]
  congr 1
  omega

/-- The loop of DrawEllipticalArcPath, entered at index m + 1 with n + 1
iterations left, at node m with the tangent there: it appends the segments
m, ..., m + n of the arc. -/
theorem arcLoop_path (Fixed : Vec2D ℝ → Point26_6) (pc : Paint ℝ) (rs0 : RenderState ℝ)
    (cx cy ocx ocy pcx pcy rx ry theta etaStart dEta alpha : ℝ) (segs : Int) (n : Nat) :
    ∀ (m : Nat) (i : Int) (rs : RenderState ℝ) (lx ly ldx ldy : ℝ),
      i = (m : Int) + 1 → rs.XForm = rs0.XForm →
      (lx, ly) = arcNodeSpec cx cy ocx ocy pcx pcy rx ry theta etaStart dEta segs m →
      (ldx, ldy) = arcTangentSpec rx ry theta (etaStart + dEta * (m : ℝ)) →
      (arcLoop Fixed pc cx cy ocx ocy rx ry (Real.sin theta) (Real.cos theta) etaStart dEta
          alpha segs (n + 1) i rs lx ly ldx ldy).1.Path =
        rs.Path ++
          (if rs.HasCurrent then []
            else [PathCmd.Start (arcSegmentSpec Fixed pc rs0 cx cy ocx ocy pcx pcy rx ry theta
              etaStart dEta alpha segs m).1]) ++
          (List.range (n + 1)).map (fun j => cubicCmd
            (arcSegmentSpec Fixed pc rs0 cx cy ocx ocy pcx pcy rx ry theta etaStart dEta alpha
              segs (m + j))) := by
  induction n with
  | zero =>
    intro m i rs lx ly ldx ldy hi hx hl hld
    subst hi
    obtain ⟨p, hp⟩ : ∃ p : ℝ × ℝ, p = (if (m : Int) + 1 = segs then (ocx, ocy)
        else ellipsePointAt rx ry (Real.sin theta) (Real.cos theta)
          (etaStart + dEta * (((m : Int) + 1 : Int) : ℝ)) cx cy) := ⟨_, rfl⟩
    obtain ⟨d, hd⟩ : ∃ d : ℝ × ℝ, d = ellipsePrime rx ry (Real.sin theta) (Real.cos theta)
        (etaStart + dEta * (((m : Int) + 1 : Int) : ℝ)) cx cy := ⟨_, rfl⟩
    have hpN := hp.trans (arcLoop_node cx cy ocx ocy pcx pcy rx ry theta etaStart dEta segs m)
    have hdT := hd.trans (arcLoop_tangent cx cy rx ry theta etaStart dEta m)
    have hseg : arcSegmentSpec Fixed pc rs0 cx cy ocx ocy pcx pcy rx ry theta etaStart dEta
        alpha segs m =
        (Fixed (pc.TransformPoint rs (lx + alpha * ldx) (ly + alpha * ldy)),
          Fixed (pc.TransformPoint rs (p.1 - alpha * d.1) (p.2 - alpha * d.2)),
          Fixed (pc.TransformPoint rs p.1 p.2)) := by
      simp only [arcSegmentSpec]
      rw [← hl, ← hld, ← hpN, ← hdT]
      simp only [TransformPoint_congr pc rs0 rs hx]
    have hfst : (arcSegmentSpec Fixed pc rs0 cx cy ocx ocy pcx pcy rx ry theta etaStart dEta
        alpha segs m).1 = Fixed (pc.TransformPoint rs (lx + alpha * ldx) (ly + alpha * ldy)) := by
      rw [hseg]
    obtain ⟨hpath, _, _⟩ := CubicTo_path Fixed pc rs (lx + alpha * ldx) (ly + alpha * ldy)
      (p.1 - alpha * d.1) (p.2 - alpha * d.2) p.1 p.2
    have hstep : arcLoop Fixed pc cx cy ocx ocy rx ry (Real.sin theta) (Real.cos theta) etaStart
        dEta alpha segs (0 + 1) ((m : Int) + 1) rs lx ly ldx ldy =
        (pc.CubicTo Fixed rs (lx + alpha * ldx) (ly + alpha * ldy)
            (p.1 - alpha * d.1) (p.2 - alpha * d.2) p.1 p.2, p.1, p.2) := by
      rw [arcLoop, ← hp, ← hd]
      rfl
    rw [hstep]
    show (pc.CubicTo Fixed rs (lx + alpha * ldx) (ly + alpha * ldy)
      (p.1 - alpha * d.1) (p.2 - alpha * d.2) p.1 p.2).Path = _
    rw [hpath, ← hseg, ← hfst, range_map_shift (fun k => cubicCmd (arcSegmentSpec Fixed pc rs0 cx cy ocx
      ocy pcx pcy rx ry theta etaStart dEta alpha segs k)) m 0]
    rfl
  | succ n ih =>
    intro m i rs lx ly ldx ldy hi hx hl hld
    subst hi
    obtain ⟨p, hp⟩ : ∃ p : ℝ × ℝ, p = (if (m : Int) + 1 = segs then (ocx, ocy)
        else ellipsePointAt rx ry (Real.sin theta) (Real.cos theta)
          (etaStart + dEta * (((m : Int) + 1 : Int) : ℝ)) cx cy) := ⟨_, rfl⟩
    obtain ⟨d, hd⟩ : ∃ d : ℝ × ℝ, d = ellipsePrime rx ry (Real.sin theta) (Real.cos theta)
        (etaStart + dEta * (((m : Int) + 1 : Int) : ℝ)) cx cy := ⟨_, rfl⟩
    have hpN := hp.trans (arcLoop_node cx cy ocx ocy pcx pcy rx ry theta etaStart dEta segs m)
    have hdT := hd.trans (arcLoop_tangent cx cy rx ry theta etaStart dEta m)
    have hseg : arcSegmentSpec Fixed pc rs0 cx cy ocx ocy pcx pcy rx ry theta etaStart dEta
        alpha segs m =
        (Fixed (pc.TransformPoint rs (lx + alpha * ldx) (ly + alpha * ldy)),
          Fixed (pc.TransformPoint rs (p.1 - alpha * d.1) (p.2 - alpha * d.2)),
          Fixed (pc.TransformPoint rs p.1 p.2)) := by
      simp only [arcSegmentSpec]
      rw [← hl, ← hld, ← hpN, ← hdT]
      simp only [TransformPoint_congr pc rs0 rs hx]
    have hfst : (arcSegmentSpec Fixed pc rs0 cx cy ocx ocy pcx pcy rx ry theta etaStart dEta
        alpha segs m).1 = Fixed (pc.TransformPoint rs (lx + alpha * ldx) (ly + alpha * ldy)) := by
      rw [hseg]
    obtain ⟨hpath, hcur, hxf⟩ := CubicTo_path Fixed pc rs (lx + alpha * ldx) (ly + alpha * ldy)
      (p.1 - alpha * d.1) (p.2 - alpha * d.2) p.1 p.2
    have hstep : arcLoop Fixed pc cx cy ocx ocy rx ry (Real.sin theta) (Real.cos theta) etaStart
        dEta alpha segs (n + 1 + 1) ((m : Int) + 1) rs lx ly ldx ldy =
        arcLoop Fixed pc cx cy ocx ocy rx ry (Real.sin theta) (Real.cos theta) etaStart dEta
          alpha segs (n + 1) ((m : Int) + 1 + 1) (pc.CubicTo Fixed rs (lx + alpha * ldx)
            (ly + alpha * ldy) (p.1 - alpha * d.1) (p.2 - alpha * d.2) p.1 p.2)
          p.1 p.2 d.1 d.2 := by
      rw [arcLoop, ← hp, ← hd]
    have hd1 : (d.1, d.2) =
        arcTangentSpec rx ry theta (etaStart + dEta * ((m + 1 : Nat) : ℝ)) := by
      rw [hdT]
      push_cast
      rfl
    have ih1 := ih (m + 1) ((m : Int) + 1 + 1) (pc.CubicTo Fixed rs (lx + alpha * ldx)
        (ly + alpha * ldy) (p.1 - alpha * d.1) (p.2 - alpha * d.2) p.1 p.2) p.1 p.2 d.1 d.2
      (by push_cast; ring) (hxf.trans hx) hpN hd1
    rw [hstep, ih1, hcur, hpath, ← hseg, ← hfst, range_map_shift (fun k => cubicCmd (arcSegmentSpec
      Fixed pc rs0 cx cy ocx ocy pcx pcy rx ry theta etaStart dEta alpha segs k)) m (n + 1)]
    simp only [if_true, List.append_nil, List.append_assoc, List.singleton_append]

/-- The factor alpha as DrawEllipticalArcPath computes it is the α of the
tangent-matching formula. -/
theorem arcAlpha_eq (dEta : ℝ) :
    Real.sin dEta * (Real.sqrt (4 + 3 * Real.tan (dEta / 2) * Real.tan (dEta / 2)) - 1) / 3 =
      arcAlphaSpec dEta := by
  simp only [arcAlphaSpec]
  rw [show 3 * Real.tan (dEta / 2) * Real.tan (dEta / 2) = 3 * Real.tan (dEta / 2) ^ 2 by ring]

/-- C10: for positive radii, DrawEllipticalArcPath emits
segs = floor(|deltaEta| / (π/8)) + 1 cubic segments, deltaEta being the corrected
sweep, and segs lies between 1 and 17.  The segments are those of the arc of
the specification: segment j (from 0) runs from node j to node j + 1, where
node 0 is the previous point, node k for 0 < k < segs is the point of the
ellipse at the parameter etaStart + k·(deltaEta / segs), and node segs is the
end point supplied; so each segment spans the parametric angle deltaEta / segs,
whose absolute value is strictly less than MaxDx = π/8. -/
theorem DrawEllipticalArcPath_segs (Fixed : Vec2D ℝ → Point26_6) (pc : Paint ℝ)
    (rs : RenderState ℝ) (cx cy ocx ocy pcx pcy rx ry angle : ℝ) (largeArc sweep : Bool)
    (hrx : 0 < rx) (hry : 0 < ry) :
    arcSegs (arcDeltaEta cx cy ocx ocy pcx pcy rx ry angle largeArc sweep) =
      ⌊|arcDeltaEta cx cy ocx ocy pcx pcy rx ry angle largeArc sweep| / (Real.pi / 8)⌋ + 1 ∧
    (countCubics (pc.DrawEllipticalArcPath Fixed rs cx cy ocx ocy pcx pcy rx ry angle largeArc
        sweep).1.Path : Int) =
      countCubics rs.Path +
        arcSegs (arcDeltaEta cx cy ocx ocy pcx pcy rx ry angle largeArc sweep) ∧
    |arcDeltaEta cx cy ocx ocy pcx pcy rx ry angle largeArc sweep /
        (arcSegs (arcDeltaEta cx cy ocx ocy pcx pcy rx ry angle largeArc sweep) : ℝ)| < MaxDx ∧
    MaxDx = Real.pi / 8 ∧
    1 ≤ arcSegs (arcDeltaEta cx cy ocx ocy pcx pcy rx ry angle largeArc sweep) ∧
    arcSegs (arcDeltaEta cx cy ocx ocy pcx pcy rx ry angle largeArc sweep) ≤ 17 ∧
    (pc.DrawEllipticalArcPath Fixed rs cx cy ocx ocy pcx pcy rx ry angle largeArc sweep).1.Path =
      rs.Path ++
        (if rs.HasCurrent then []
          else [PathCmd.Start (arcPlanSpec Fixed pc rs cx cy ocx ocy pcx pcy rx ry angle
            (arcEtaStart cx cy pcx pcy rx ry angle)
            (arcDeltaEta cx cy ocx ocy pcx pcy rx ry angle largeArc sweep) 0).1]) ++
        (List.range
          (arcSegs (arcDeltaEta cx cy ocx ocy pcx pcy rx ry angle largeArc sweep)).toNat).map
          (fun j => cubicCmd (arcPlanSpec Fixed pc rs cx cy ocx ocy pcx pcy rx ry angle
            (arcEtaStart cx cy pcx pcy rx ry angle)
            (arcDeltaEta cx cy ocx ocy pcx pcy rx ry angle largeArc sweep) j)) ∧
    (∀ j : Nat,
      (j : Int) + 1 < arcSegs (arcDeltaEta cx cy ocx ocy pcx pcy rx ry angle largeArc sweep) →
      (arcPlanSpec Fixed pc rs cx cy ocx ocy pcx pcy rx ry angle
        (arcEtaStart cx cy pcx pcy rx ry angle)
        (arcDeltaEta cx cy ocx ocy pcx pcy rx ry angle largeArc sweep) j).2.2 =
        Fixed (pc.TransformPoint rs
          (cx + rx * Real.cos (arcEtaStart cx cy pcx pcy rx ry angle +
                arcDeltaEta cx cy ocx ocy pcx pcy rx ry angle largeArc sweep /
                  (arcSegs (arcDeltaEta cx cy ocx ocy pcx pcy rx ry angle largeArc sweep) : ℝ) *
                  ((j : ℝ) + 1)) * Real.cos (angle * Real.pi / 180) -
            ry * Real.sin (arcEtaStart cx cy pcx pcy rx ry angle +
                arcDeltaEta cx cy ocx ocy pcx pcy rx ry angle largeArc sweep /
                  (arcSegs (arcDeltaEta cx cy ocx ocy pcx pcy rx ry angle largeArc sweep) : ℝ) *
                  ((j : ℝ) + 1)) * Real.sin (angle * Real.pi / 180))
          (cy + rx * Real.cos (arcEtaStart cx cy pcx pcy rx ry angle +
                arcDeltaEta cx cy ocx ocy pcx pcy rx ry angle largeArc sweep /
                  (arcSegs (arcDeltaEta cx cy ocx ocy pcx pcy rx ry angle largeArc sweep) : ℝ) *
                  ((j : ℝ) + 1)) * Real.sin (angle * Real.pi / 180) +
            ry * Real.sin (arcEtaStart cx cy pcx pcy rx ry angle +
                arcDeltaEta cx cy ocx ocy pcx pcy rx ry angle largeArc sweep /
                  (arcSegs (arcDeltaEta cx cy ocx ocy pcx pcy rx ry angle largeArc sweep) : ℝ) *
                  ((j : ℝ) + 1)) * Real.cos (angle * Real.pi / 180)))) ∧
    (∀ j : Nat,
      (j : Int) + 1 = arcSegs (arcDeltaEta cx cy ocx ocy pcx pcy rx ry angle largeArc sweep) →
      (arcPlanSpec Fixed pc rs cx cy ocx ocy pcx pcy rx ry angle
        (arcEtaStart cx cy pcx pcy rx ry angle)
        (arcDeltaEta cx cy ocx ocy pcx pcy rx ry angle largeArc sweep) j).2.2 =
        Fixed (pc.TransformPoint rs ocx ocy)) := by
  obtain ⟨hlo, hhi⟩ := arcDeltaEta_range cx cy ocx ocy pcx pcy rx ry angle largeArc sweep
  obtain ⟨n, hn, hnat, hloop⟩ := arcCubics_loop Fixed pc rs cx cy ocx ocy pcx pcy rx ry
    (angle * Real.pi / 180) (arcEtaStart cx cy pcx pcy rx ry angle)
    (arcDeltaEta cx cy ocx ocy pcx pcy rx ry angle largeArc sweep)
  have hdraw := DrawEllipticalArcPath_of_radii Fixed pc rs cx cy ocx ocy pcx pcy rx ry angle
    largeArc sweep hrx.ne.symm hry.ne.symm
  have hpath := arcLoop_path Fixed pc rs cx cy ocx ocy pcx pcy rx ry (angle * Real.pi / 180)
    (arcEtaStart cx cy pcx pcy rx ry angle)
    (arcDeltaEta cx cy ocx ocy pcx pcy rx ry angle largeArc sweep /
      (arcSegs (arcDeltaEta cx cy ocx ocy pcx pcy rx ry angle largeArc sweep) : ℝ))
    (arcAlphaSpec (arcDeltaEta cx cy ocx ocy pcx pcy rx ry angle largeArc sweep /
      (arcSegs (arcDeltaEta cx cy ocx ocy pcx pcy rx ry angle largeArc sweep) : ℝ)))
    (arcSegs (arcDeltaEta cx cy ocx ocy pcx pcy rx ry angle largeArc sweep)) n 0 1 rs pcx pcy
    (ellipsePrime rx ry (Real.sin (angle * Real.pi / 180)) (Real.cos (angle * Real.pi / 180))
      (arcEtaStart cx cy pcx pcy rx ry angle) cx cy).1
    (ellipsePrime rx ry (Real.sin (angle * Real.pi / 180)) (Real.cos (angle * Real.pi / 180))
      (arcEtaStart cx cy pcx pcy rx ry angle) cx cy).2
    (by norm_num) rfl (by simp [arcNodeSpec])
    (by
      simp only [ellipsePrime, arcTangentSpec, Nat.cast_zero, mul_zero, add_zero]
      ext
      · simp only
        ring
      · simp only
        ring)
  rw [arcAlpha_eq] at hloop
  have hplan : ∀ j : Nat, arcPlanSpec Fixed pc rs cx cy ocx ocy pcx pcy rx ry angle
      (arcEtaStart cx cy pcx pcy rx ry angle)
      (arcDeltaEta cx cy ocx ocy pcx pcy rx ry angle largeArc sweep) j =
      arcSegmentSpec Fixed pc rs cx cy ocx ocy pcx pcy rx ry (angle * Real.pi / 180)
        (arcEtaStart cx cy pcx pcy rx ry angle)
        (arcDeltaEta cx cy ocx ocy pcx pcy rx ry angle largeArc sweep /
          (arcSegs (arcDeltaEta cx cy ocx ocy pcx pcy rx ry angle largeArc sweep) : ℝ))
        (arcAlphaSpec (arcDeltaEta cx cy ocx ocy pcx pcy rx ry angle largeArc sweep /
          (arcSegs (arcDeltaEta cx cy ocx ocy pcx pcy rx ry angle largeArc sweep) : ℝ)))
        (arcSegs (arcDeltaEta cx cy ocx ocy pcx pcy rx ry angle largeArc sweep)) j := by
    intro j
    simp only [arcPlanSpec, arcSegs_eq]
  have hfull : (pc.DrawEllipticalArcPath Fixed rs cx cy ocx ocy pcx pcy rx ry angle largeArc
      sweep).1.Path =
      rs.Path ++
        (if rs.HasCurrent then []
          else [PathCmd.Start (arcPlanSpec Fixed pc rs cx cy ocx ocy pcx pcy rx ry angle
            (arcEtaStart cx cy pcx pcy rx ry angle)
            (arcDeltaEta cx cy ocx ocy pcx pcy rx ry angle largeArc sweep) 0).1]) ++
        (List.range
          (arcSegs (arcDeltaEta cx cy ocx ocy pcx pcy rx ry angle largeArc sweep)).toNat).map
          (fun j => cubicCmd (arcPlanSpec Fixed pc rs cx cy ocx ocy pcx pcy rx ry angle
            (arcEtaStart cx cy pcx pcy rx ry angle)
            (arcDeltaEta cx cy ocx ocy pcx pcy rx ry angle largeArc sweep) j)) := by
    rw [hdraw, hloop, hpath, hnat]
    simp only [hplan, Nat.zero_add]
  refine ⟨arcSegs_eq _, ?_, arcSegs_span _, rfl, arcSegs_pos _, arcSegs_le _ hlo hhi, hfull,
    ?_, ?_⟩
  · rw [hfull, countCubics_append, countCubics_append]
    have hpre : countCubics (if rs.HasCurrent then []
        else [PathCmd.Start (arcPlanSpec Fixed pc rs cx cy ocx ocy pcx pcy rx ry angle
          (arcEtaStart cx cy pcx pcy rx ry angle)
          (arcDeltaEta cx cy ocx ocy pcx pcy rx ry angle largeArc sweep) 0).1]) = 0 := by
      split_ifs <;> rfl
    have hmap : ∀ (f : Nat → Point26_6 × Point26_6 × Point26_6) (l : List Nat),
        countCubics (l.map (fun j => cubicCmd (f j))) = l.length := by
      intro f l
      have hl : l.map (fun j => cubicCmd (f j)) = (l.map f).map cubicCmd := by
        rw [List.map_map]
        rfl
      rw [hl, countCubics_map_cubicCmd, List.length_map]
    rw [hpre, hmap, List.length_range, hnat, ← hn]
    push_cast
    ring
  · intro j hj
    rw [hplan]
    have h0 : j + 1 ≠ 0 := by omega
    have h1 : ¬ (((j + 1 : Nat) : Int) =
        arcSegs (arcDeltaEta cx cy ocx ocy pcx pcy rx ry angle largeArc sweep)) := by
      push_cast
      omega
    simp only [arcSegmentSpec, arcNodeSpec, if_neg h0, if_neg h1, arcPointSpec]
    push_cast
    rfl
  · intro j hj
    rw [hplan]
    have h0 : j + 1 ≠ 0 := by omega
    have h1 : (((j + 1 : Nat) : Int) =
        arcSegs (arcDeltaEta cx cy ocx ocy pcx pcy rx ry angle largeArc sweep)) := by
      push_cast
      omega
    simp only [arcSegmentSpec, arcNodeSpec, if_neg h0, if_pos h1]

/-- A witness for C10: the quarter of the unit circle from (1, 0) to (0, 1). -/
theorem DrawEllipticalArcPath_segs_witness :
    (0 : ℝ) < 1 ∧
    1 ≤ arcSegs (arcDeltaEta 0 0 0 1 1 0 1 1 0 false true) ∧
    arcSegs (arcDeltaEta 0 0 0 1 1 0 1 1 0 false true) ≤ 17 ∧
    (arcPlanSpec blankFixed default freshStateR 0 0 0 1 1 0 1 1 0
      (arcEtaStart 0 0 1 0 1 1 0) (arcDeltaEta 0 0 0 1 1 0 1 1 0 false true) 4).2.2 =
      blankFixed ((default : Paint ℝ).TransformPoint freshStateR 0 1) :=
  ⟨by norm_num,
    (DrawEllipticalArcPath_segs blankFixed default freshStateR 0 0 0 1 1 0 1 1 0 false true
      (by norm_num) (by norm_num)).2.2.2.2.1,
    (DrawEllipticalArcPath_segs blankFixed default freshStateR 0 0 0 1 1 0 1 1 0 false true
      (by norm_num) (by norm_num)).2.2.2.2.2.1,
    (DrawEllipticalArcPath_segs blankFixed default freshStateR 0 0 0 1 1 0 1 1 0 false true
      (by norm_num) (by norm_num)).2.2.2.2.2.2.2.2 4 (by rw [quarter_segs]; norm_num)⟩

end ArcPathTheorems

/-! ## Path construction: rectangle, MoveTo, LineTo and the curves -/

section PathTheorems

variable {α : Type}

theorem Identity2D_TransformPoint [Semiring α] (pc : Paint α) (rs : RenderState α)
    (h : rs.XForm = Identity2D) (x y : α) : pc.TransformPoint rs x y = { X := x, Y := y } := by
  simp [Paint.TransformPoint, XFormMatrix2D.TransformPoint, h, Identity2D]

/-- C11: with the identity transform, whatever the path and current point
before, DrawRectangle(x, y, w, h) appends exactly one subpath: a start at
(x, y), lines to (x+w, y), (x+w, y+h) and (x, y+h), and a closing stop (the
points converted to fixed point); afterwards Start and Current are both (x, y)
and HasCurrent is true. -/
theorem DrawRectangle_path [Semiring α] (Fixed : Vec2D α → Point26_6) (pc : Paint α)
    (rs : RenderState α) (x y w h : α) (hI : rs.XForm = Identity2D) :
    (pc.DrawRectangle Fixed rs x y w h).Path =
      rs.Path ++ [PathCmd.Start (Fixed { X := x, Y := y }),
        PathCmd.Line (Fixed { X := x + w, Y := y }),
        PathCmd.Line (Fixed { X := x + w, Y := y + h }),
        PathCmd.Line (Fixed { X := x, Y := y + h }),
        PathCmd.Stop true] ∧
    (∀ st pen, segmentEnds st pen [PathCmd.Start (Fixed { X := x, Y := y }),
        PathCmd.Line (Fixed { X := x + w, Y := y }),
        PathCmd.Line (Fixed { X := x + w, Y := y + h }),
        PathCmd.Line (Fixed { X := x, Y := y + h }),
        PathCmd.Stop true] =
      [(Fixed { X := x, Y := y }, Fixed { X := x + w, Y := y }),
        (Fixed { X := x + w, Y := y }, Fixed { X := x + w, Y := y + h }),
        (Fixed { X := x + w, Y := y + h }, Fixed { X := x, Y := y + h }),
        (Fixed { X := x, Y := y + h }, Fixed { X := x, Y := y })]) ∧
    (pc.DrawRectangle Fixed rs x y w h).Start = { X := x, Y := y } ∧
    (pc.DrawRectangle Fixed rs x y w h).Current = { X := x, Y := y } ∧
    (pc.DrawRectangle Fixed rs x y w h).HasCurrent = true := by
  refine ⟨?_, fun _ _ => rfl, ?_, ?_, ?_⟩ <;>
    simp [Paint.DrawRectangle, Paint.NewSubPath, Paint.MoveTo, Paint.LineTo, Paint.ClosePath,
      Identity2D_TransformPoint, hI, Paint.TransformPoint, XFormMatrix2D.TransformPoint,
      Identity2D]

/-- A witness for C11: the rectangle at (10, 20) of size 30 by 40 drawn on a
state that has an open subpath. -/
theorem DrawRectangle_path_witness :
    openPathState.XForm = Identity2D ∧
    ((default : Paint ℚ).DrawRectangle sampleFixed openPathState 10 20 30 40).Path =
      openPathState.Path ++ [PathCmd.Start (sampleFixed { X := 10, Y := 20 }),
        PathCmd.Line (sampleFixed { X := 10 + 30, Y := 20 }),
        PathCmd.Line (sampleFixed { X := 10 + 30, Y := 20 + 40 }),
        PathCmd.Line (sampleFixed { X := 10, Y := 20 + 40 }),
        PathCmd.Stop true] ∧
    ((default : Paint ℚ).DrawRectangle sampleFixed openPathState 10 20 30 40).Current =
      { X := 10, Y := 20 } :=
  ⟨rfl, (DrawRectangle_path sampleFixed default openPathState 10 20 30 40 rfl).1,
    (DrawRectangle_path sampleFixed default openPathState 10 20 30 40 rfl).2.2.2.1⟩

/-- C16: after MoveTo, Start and Current are both the transform of (x, y),
HasCurrent is true and the path has gained the start of a new subpath at that
point, preceded by a non-closing stop of the prior subpath exactly when there
was a current point. -/
theorem MoveTo_effect [Add α] [Mul α] (Fixed : Vec2D α → Point26_6) (pc : Paint α)
    (rs : RenderState α) (x y : α) :
    (pc.MoveTo Fixed rs x y).Start = pc.TransformPoint rs x y ∧
    (pc.MoveTo Fixed rs x y).Current = pc.TransformPoint rs x y ∧
    (pc.MoveTo Fixed rs x y).HasCurrent = true ∧
    (pc.MoveTo Fixed rs x y).Path =
      rs.Path ++ (if rs.HasCurrent then [PathCmd.Stop false] else []) ++
        [PathCmd.Start (Fixed (pc.TransformPoint rs x y))] := by
  cases h : rs.HasCurrent <;>
    simp [Paint.MoveTo, h, Paint.TransformPoint]

end PathTheorems

/-! ## Short polylines and polygons, and the empty transform stack -/

section PathTheorems2

variable {α : Type}

/-- C17: with no current point LineTo(x, y) gives the same render state as
MoveTo(x, y), and QuadraticTo and CubicTo give the same render state as
MoveTo(x1, y1) followed by the same curve call; with or without a current point,
after LineTo, QuadraticTo and CubicTo HasCurrent is true and Current is the
transform of the final point of the operation. -/
theorem LineTo_curves_without_current [Add α] [Mul α] (Fixed : Vec2D α → Point26_6)
    (pc : Paint α) (rs : RenderState α) (x1 y1 x2 y2 x3 y3 : α) :
    (rs.HasCurrent = false →
      pc.LineTo Fixed rs x1 y1 = pc.MoveTo Fixed rs x1 y1 ∧
      pc.QuadraticTo Fixed rs x1 y1 x2 y2 =
        pc.QuadraticTo Fixed (pc.MoveTo Fixed rs x1 y1) x1 y1 x2 y2 ∧
      pc.CubicTo Fixed rs x1 y1 x2 y2 x3 y3 =
        pc.CubicTo Fixed (pc.MoveTo Fixed rs x1 y1) x1 y1 x2 y2 x3 y3) ∧
    (pc.LineTo Fixed rs x1 y1).HasCurrent = true ∧
    (pc.LineTo Fixed rs x1 y1).Current = pc.TransformPoint rs x1 y1 ∧
    (pc.QuadraticTo Fixed rs x1 y1 x2 y2).HasCurrent = true ∧
    (pc.QuadraticTo Fixed rs x1 y1 x2 y2).Current = pc.TransformPoint rs x2 y2 ∧
    (pc.CubicTo Fixed rs x1 y1 x2 y2 x3 y3).HasCurrent = true ∧
    (pc.CubicTo Fixed rs x1 y1 x2 y2 x3 y3).Current = pc.TransformPoint rs x3 y3 := by
  cases h : rs.HasCurrent <;>
    simp [Paint.LineTo, Paint.QuadraticTo, Paint.CubicTo, Paint.MoveTo, h,
      Paint.TransformPoint]

/-- A witness for C17 on the state freshState, which has no current point. -/
theorem LineTo_curves_without_current_witness :
    freshState.HasCurrent = false ∧
    (default : Paint ℚ).LineTo sampleFixed freshState 1 2 =
      (default : Paint ℚ).MoveTo sampleFixed freshState 1 2 ∧
    (default : Paint ℚ).QuadraticTo sampleFixed freshState 1 2 3 4 =
      (default : Paint ℚ).QuadraticTo sampleFixed
        ((default : Paint ℚ).MoveTo sampleFixed freshState 1 2) 1 2 3 4 ∧
    (default : Paint ℚ).CubicTo sampleFixed freshState 1 2 3 4 5 6 =
      (default : Paint ℚ).CubicTo sampleFixed
        ((default : Paint ℚ).MoveTo sampleFixed freshState 1 2) 1 2 3 4 5 6 :=
  ⟨rfl, (LineTo_curves_without_current sampleFixed default freshState 1 2 3 4 5 6).1 rfl⟩

/-- DrawPolyline with fewer than two points does nothing. -/
theorem DrawPolyline_short [Add α] [Mul α] (Fixed : Vec2D α → Point26_6) (pc : Paint α)
    (rs : RenderState α) (points : List (Vec2D α)) (h : points.length < 2) :
    pc.DrawPolyline Fixed rs points = rs := by
  simp [Paint.DrawPolyline, h]

/-- C18, the code at the failing input: on a state with an open subpath from
(0, 0) to (10, 0), DrawPolygon with no point or with one point adds a closing
stop to that subpath and moves the current point back to its start, while
DrawPolyline changes nothing. -/
theorem DrawPolygon_short_closes (Fixed : Vec2D ℚ → Point26_6) (pc : Paint ℚ) :
    pc.DrawPolyline Fixed openPathState [] = openPathState ∧
    pc.DrawPolyline Fixed openPathState [{ X := 5, Y := 5 }] = openPathState ∧
    (pc.DrawPolygon Fixed openPathState []).Path =
      openPathState.Path ++ [PathCmd.Stop true] ∧
    (pc.DrawPolygon Fixed openPathState []).Current = { X := 0, Y := 0 } ∧
    openPathState.Current = { X := 10, Y := 0 } ∧
    (pc.DrawPolygon Fixed openPathState [{ X := 5, Y := 5 }]).Path =
      openPathState.Path ++ [PathCmd.Stop true] ∧
    (pc.DrawPolygon Fixed openPathState [{ X := 5, Y := 5 }]).Current = { X := 0, Y := 0 } ∧
    pc.DrawPolygon Fixed openPathState [] ≠ openPathState := by
  have h0 : pc.DrawPolyline Fixed openPathState [] = openPathState :=
    DrawPolyline_short Fixed pc _ _ (by simp)
  have h1 : pc.DrawPolyline Fixed openPathState [{ X := 5, Y := 5 }] = openPathState :=
    DrawPolyline_short Fixed pc _ _ (by simp)
  have hc : pc.ClosePath openPathState =
      { openPathState with
        Path := openPathState.Path ++ [PathCmd.Stop true], Current := openPathState.Start } :=
    rfl
  refine ⟨h0, h1, ?_, ?_, rfl, ?_, ?_, ?_⟩
  · rw [Paint.DrawPolygon, h0, hc]
  · rw [Paint.DrawPolygon, h0, hc]; rfl
  · rw [Paint.DrawPolygon, h1, hc]
  · rw [Paint.DrawPolygon, h1, hc]; rfl
  · rw [Paint.DrawPolygon, h0, hc]
    intro h
    have hp := congrArg RenderState.Path h
    simp [openPathState] at hp

/-- C20: with an empty transform stack PopXForm sets the current transform to
the identity and leaves the stack empty. -/
theorem PopXForm_empty [Zero α] [One α] (rs : RenderState α) (h : rs.XFormStack = []) :
    rs.PopXForm.XForm = Identity2D ∧ rs.PopXForm.XFormStack = [] := by
  simp [RenderState.PopXForm, h]

/-- A witness for C20: the state scaled by three, whose stack is empty. -/
theorem PopXForm_empty_witness :
    scaledState.XFormStack = [] ∧ scaledState.PopXForm.XForm = Identity2D ∧
    scaledState.PopXForm.XFormStack = [] :=
  ⟨rfl, PopXForm_empty scaledState rfl⟩

end PathTheorems2

/-! ## Bounding boxes, masks, fill and stroke -/

section BoxTheorems

variable {α : Type}

/-- C13, the code at the failing input: on a slice of exactly one point
BoundingBoxFromPoints reads points[1], which is out of range, whatever the
point, the paint and the render state; on the empty slice it returns the zero
rectangle. -/
theorem BoundingBoxFromPoints_single [LinearOrderedField α] [FloorRing α] (pc : Paint α)
    (rs : RenderState α) (p : Vec2D α) :
    pc.BoundingBoxFromPoints rs [p] = none ∧
    pc.BoundingBoxFromPoints rs [] = some { Min := { X := 0, Y := 0 }, Max := { X := 0, Y := 0 } } := by
  constructor <;> simp [Paint.BoundingBoxFromPoints]

/-- C12, the code at the failing input: with no stroke and the identity
transform, the box of the points (10, 10) and (0, 0) has min corner (0, 0) and
max corner (0, 0): the max corner starts from the second point and never sees
the first, so the rectangle returned does not reach (10, 10). -/
theorem BoundingBoxFromPoints_misses_first :
    (default : Paint ℚ).HasStroke = false ∧ freshState.XForm = Identity2D ∧
    pointsMinMax ({ X := 10, Y := 10 } : Vec2D ℚ) { X := 0, Y := 0 } [{ X := 0, Y := 0 }] =
      ({ X := 0, Y := 0 }, { X := 0, Y := 0 }) ∧
    (default : Paint ℚ).BoundingBoxFromPoints freshState
        [{ X := 10, Y := 10 }, { X := 0, Y := 0 }] =
      some { Min := { X := 0, Y := 0 }, Max := { X := 0, Y := 0 } } := by
  have hmm : pointsMinMax ({ X := 10, Y := 10 } : Vec2D ℚ) { X := 0, Y := 0 }
      [{ X := 0, Y := 0 }] = ({ X := 0, Y := 0 }, { X := 0, Y := 0 }) := by
    simp [pointsMinMax, Vec2D.SetMin, Vec2D.SetMax]
  refine ⟨rfl, rfl, hmm, ?_⟩
  have hs : (default : Paint ℚ).HasStroke = false := rfl
  simp [Paint.BoundingBoxFromPoints, hmm, Paint.BoundingBox, hs, freshState,
    XFormMatrix2D.TransformPoint, Identity2D, NewVec2D, Vec2D.ToPointFloor, Vec2D.ToPointCeil,
    Rect]

/-- C14: with a mask and an image at hand, SetMask returns an error exactly when
the bounds of the mask differ from the bounds of the image; on an error the
render state is returned as it was, and otherwise it is the render state with
Mask set to the mask supplied and every other field as before. -/
theorem SetMask_result (pc : Paint α) (rs : RenderState α) (mask : Alpha) (img : RGBA)
    (hi : rs.Image = some img) :
    (mask.Bounds ≠ img.Bounds →
      pc.SetMask rs (some mask) = some (rs, some maskSizeError)) ∧
    (mask.Bounds = img.Bounds →
      pc.SetMask rs (some mask) = some ({ rs with Mask := some mask }, none)) ∧
    ∃ rs1 err, pc.SetMask rs (some mask) = some (rs1, err) ∧
      (err.isSome = true ↔ mask.Bounds ≠ img.Bounds) ∧
      (err.isSome = true → rs1 = rs) ∧
      (err = none → rs1 = { rs with Mask := some mask }) := by
  by_cases h : mask.Bounds = img.Bounds
  · have he : pc.SetMask rs (some mask) = some ({ rs with Mask := some mask }, none) := by
      simp [Paint.SetMask, RenderState.ImageBounds, hi, h]
    refine ⟨fun hne => absurd h hne, fun _ => he, _, _, he, ?_, ?_, ?_⟩
    · simp [h]
    · simp
    · intro _; rfl
  · have he : pc.SetMask rs (some mask) = some (rs, some maskSizeError) := by
      simp [Paint.SetMask, RenderState.ImageBounds, hi, h]
    refine ⟨fun _ => he, fun heq => absurd heq h, _, _, he, ?_, ?_, ?_⟩
    · simp [h]
    · intro _; rfl
    · simp

/-- A witness for C14: the mask mask100 fits the 100 by 100 image of
freshState and is installed. -/
theorem SetMask_result_witness :
    freshState.Image = some image100 ∧ mask100.Bounds = image100.Bounds ∧
    (default : Paint ℚ).SetMask freshState (some mask100) =
      some ({ freshState with Mask := some mask100 }, none) :=
  ⟨rfl, rfl, (SetMask_result default freshState mask100 image100 rfl).2.1 rfl⟩

/-- C19: FillStrokeClear leaves the path empty and HasCurrent false; the image
is the one before with the path filled exactly when HasFill holds and then
stroked exactly when HasStroke holds, the stroke applied after the fill and to
the same path, bounds and transform as the fill; nothing else changes. -/
theorem FillStrokeClear_effect [LinearOrderedField α] (R : RasterEngine α) (pc : Paint α)
    (rs : RenderState α) :
    pc.FillStrokeClear R rs =
      { rs with
        Path := []
        HasCurrent := false
        Image := rs.Image.map (fun img =>
          (if pc.HasStroke then
            R.Stroke (pc.StrokeWidth rs) pc rs.Bounds rs.ObjBounds rs.Path else id)
          ((if pc.HasFill then R.Fill pc rs.Bounds rs.ObjBounds rs.Path else id) img)) } ∧
    (pc.FillStrokeClear R rs).Path = [] ∧
    (pc.FillStrokeClear R rs).HasCurrent = false := by
  refine ⟨?_, rfl, rfl⟩
  cases hf : pc.HasFill <;> cases hs : pc.HasStroke <;> cases hi : rs.Image <;>
    simp [Paint.FillStrokeClear, Paint.FillPreserve, Paint.StrokePreserve, Paint.fill,
      Paint.stroke, Paint.ClearPath, hf, hs, hi, Paint.StrokeWidth]

/-- All pixels of a new alpha image are zero. -/
theorem NewAlpha_zero (r : Rectangle) : ∀ v ∈ (NewAlpha r).Pix, v = 0 := by
  intro v hv
  simp only [NewAlpha] at hv
  exact List.eq_of_mem_replicate hv

/-- With no mask set, the mask ClipPreserve installs is a new alpha image of the
size of the image, whatever the path and the rasterizer. -/
theorem ClipPreserve_of_no_mask (R : RasterEngine α) (pc : Paint α) (rs : RenderState α)
    (img : RGBA) (hi : rs.Image = some img) (hm : rs.Mask = none) :
    (pc.ClipPreserve R rs).map (fun r => r.Mask) = some (some (NewAlpha img.Bounds)) := by
  simp [Paint.ClipPreserve, RenderState.ImageBounds, hi, hm, Paint.fill]

/-- C15, the code at the failing input: on a fresh 100 by 100 state whose path
is the closed square from (10, 10) to (60, 60), with no mask set, the mask
ClipPreserve installs is the new alpha image of 100 by 100 pixels, all of them
zero, whatever the rasterizer does: the fill is never drawn into the mask. -/
theorem ClipPreserve_mask_blank (R : RasterEngine ℚ) (pc : Paint ℚ) :
    squarePathState.Mask = none ∧
    (pc.ClipPreserve R squarePathState).map (fun r => r.Mask) =
      some (some (NewAlpha ⟨⟨0, 0⟩, ⟨100, 100⟩⟩)) ∧
    (∀ v ∈ (NewAlpha ⟨⟨0, 0⟩, ⟨100, 100⟩⟩).Pix, v = 0) ∧
    (pc.ClipPreserve R squarePathState).map (fun r => r.Mask) =
      (pc.ClipPreserve R freshState).map (fun r => r.Mask) := by
  refine ⟨rfl, ?_, NewAlpha_zero _, ?_⟩
  · exact ClipPreserve_of_no_mask R pc squarePathState image100 rfl rfl
  · rw [ClipPreserve_of_no_mask R pc squarePathState image100 rfl rfl,
      ClipPreserve_of_no_mask R pc freshState image100 rfl rfl]

end BoxTheorems

/-! ## What the path operations leave alone; copying and the unit context -/

section FrameTheorems

variable {α : Type}

theorem MoveTo_scopes [Add α] [Mul α] (Fixed : Vec2D α → Point26_6) (pc : Paint α)
    (rs : RenderState α) (x y : α) : (pc.MoveTo Fixed rs x y).scopes = rs.scopes := by
  cases h : rs.HasCurrent <;> simp [Paint.MoveTo, RenderState.scopes, h]

theorem LineTo_scopes [Add α] [Mul α] (Fixed : Vec2D α → Point26_6) (pc : Paint α)
    (rs : RenderState α) (x y : α) : (pc.LineTo Fixed rs x y).scopes = rs.scopes := by
  cases h : rs.HasCurrent
  · simp only [Paint.LineTo, h, Bool.not_false, if_true]
    exact MoveTo_scopes Fixed pc rs x y
  · simp [Paint.LineTo, RenderState.scopes, h]

theorem QuadraticTo_scopes [Add α] [Mul α] (Fixed : Vec2D α → Point26_6) (pc : Paint α)
    (rs : RenderState α) (x1 y1 x2 y2 : α) :
    (pc.QuadraticTo Fixed rs x1 y1 x2 y2).scopes = rs.scopes := by
  cases h : rs.HasCurrent <;>
    simp [Paint.QuadraticTo, Paint.MoveTo, RenderState.scopes, h]

theorem CubicTo_scopes [Add α] [Mul α] (Fixed : Vec2D α → Point26_6) (pc : Paint α)
    (rs : RenderState α) (x1 y1 x2 y2 x3 y3 : α) :
    (pc.CubicTo Fixed rs x1 y1 x2 y2 x3 y3).scopes = rs.scopes := by
  cases h : rs.HasCurrent <;>
    simp [Paint.CubicTo, Paint.MoveTo, RenderState.scopes, h]

theorem ClosePath_scopes (pc : Paint α) (rs : RenderState α) :
    (pc.ClosePath rs).scopes = rs.scopes := by
  cases h : rs.HasCurrent <;> simp [Paint.ClosePath, RenderState.scopes, h]

/-- A run of steps each of which keeps the scopes keeps the scopes. -/
theorem foldl_scopes {β : Type} (f : RenderState α → β → RenderState α)
    (hf : ∀ r b, (f r b).scopes = r.scopes) (l : List β) :
    ∀ rs : RenderState α, (l.foldl f rs).scopes = rs.scopes := by
  induction l with
  | nil => intro rs; rfl
  | cons p ps ih =>
    intro rs
    rw [List.foldl_cons, ih, hf]

theorem DrawPolyline_scopes [Add α] [Mul α] (Fixed : Vec2D α → Point26_6) (pc : Paint α)
    (rs : RenderState α) (points : List (Vec2D α)) :
    (pc.DrawPolyline Fixed rs points).scopes = rs.scopes := by
  unfold Paint.DrawPolyline
  by_cases h : points.length < 2
  · simp [h]
  · cases points with
    | nil => simp
    | cons p0 rest =>
      simp only [h, if_false]
      exact (foldl_scopes _ (fun r p => LineTo_scopes Fixed pc r p.X p.Y) rest _).trans
        (MoveTo_scopes Fixed pc rs p0.X p0.Y)

/-- C21: every path-construction operation (MoveTo, LineTo, QuadraticTo,
CubicTo, ClosePath, ClearPath, NewSubPath) and every shape helper built from
them (DrawLine, DrawPolyline, DrawPolygon, DrawRectangle, DrawRegularPolygon)
leaves XForm, XFormStack, Bounds, ObjBounds, BoundsStack, Mask and ClipStack
unchanged. -/
theorem path_operations_keep_scopes [Add α] [Mul α] (Fixed : Vec2D α → Point26_6)
    (pc : Paint α) (rs : RenderState α) (x1 y1 x2 y2 x3 y3 : α) (points : List (Vec2D α))
    (FixedR : Vec2D ℝ → Point26_6) (pcR : Paint ℝ) (rsR : RenderState ℝ) (n : Int)
    (x y r rotation : ℝ) :
    (pc.MoveTo Fixed rs x1 y1).scopes = rs.scopes ∧
    (pc.LineTo Fixed rs x1 y1).scopes = rs.scopes ∧
    (pc.QuadraticTo Fixed rs x1 y1 x2 y2).scopes = rs.scopes ∧
    (pc.CubicTo Fixed rs x1 y1 x2 y2 x3 y3).scopes = rs.scopes ∧
    (pc.ClosePath rs).scopes = rs.scopes ∧
    (pc.ClearPath rs).scopes = rs.scopes ∧
    (pc.NewSubPath rs).scopes = rs.scopes ∧
    (pc.DrawLine Fixed rs x1 y1 x2 y2).scopes = rs.scopes ∧
    (pc.DrawPolyline Fixed rs points).scopes = rs.scopes ∧
    (pc.DrawPolygon Fixed rs points).scopes = rs.scopes ∧
    (pc.DrawRectangle Fixed rs x1 y1 x2 y2).scopes = rs.scopes ∧
    (pcR.DrawRegularPolygon FixedR rsR n x y r rotation).scopes = rsR.scopes := by
  refine ⟨MoveTo_scopes _ _ _ _ _, LineTo_scopes _ _ _ _ _, QuadraticTo_scopes _ _ _ _ _ _ _,
    CubicTo_scopes _ _ _ _ _ _ _ _ _, ClosePath_scopes _ _, rfl, rfl, ?_,
    DrawPolyline_scopes _ _ _ _, ?_, ?_, ?_⟩
  · rw [Paint.DrawLine, LineTo_scopes, MoveTo_scopes]
  · rw [Paint.DrawPolygon, ClosePath_scopes, DrawPolyline_scopes]
  · simp only [Paint.DrawRectangle]
    rw [ClosePath_scopes, LineTo_scopes, LineTo_scopes, LineTo_scopes, MoveTo_scopes]
    rfl
  · simp only [Paint.DrawRegularPolygon]
    rw [ClosePath_scopes]
    exact (foldl_scopes _ (fun r0 i => LineTo_scopes FixedR pcR r0 _ _) _ _).trans rfl

/-- C23: after pc.CopyFrom(cp) the fields StyleSet, PropsNil, dotsSet and
lastUnCtxt of pc are the ones pc had before, and every other field is the one
of cp. -/
theorem CopyFrom_fields (pc cp : Paint α) :
    (pc.CopyFrom cp).StyleSet = pc.StyleSet ∧
    (pc.CopyFrom cp).PropsNil = pc.PropsNil ∧
    (pc.CopyFrom cp).dotsSet = pc.dotsSet ∧
    (pc.CopyFrom cp).lastUnCtxt = pc.lastUnCtxt ∧
    (pc.CopyFrom cp).Off = cp.Off ∧
    (pc.CopyFrom cp).UnContext = cp.UnContext ∧
    (pc.CopyFrom cp).StrokeStyle = cp.StrokeStyle ∧
    (pc.CopyFrom cp).FillStyle = cp.FillStyle ∧
    (pc.CopyFrom cp).FontStyle = cp.FontStyle ∧
    (pc.CopyFrom cp).Opacity = cp.Opacity ∧
    (pc.CopyFrom cp).VecEff = cp.VecEff ∧
    (pc.CopyFrom cp).XForm = cp.XForm ∧
    pc.CopyFrom cp = { cp with
      StyleSet := pc.StyleSet, PropsNil := pc.PropsNil, dotsSet := pc.dotsSet,
      lastUnCtxt := pc.lastUnCtxt } :=
  ⟨rfl, rfl, rfl, rfl, rfl, rfl, rfl, rfl, rfl, rfl, rfl, rfl, rfl⟩

/-- C22: in SetUnitContext, when dots were never computed or the unit context
computed afresh differs from the stored one, the paint returned is the result
of ToDots on the paint with the fresh unit context, with dotsSet and lastUnCtxt
assigned after it; in every case dotsSet is true afterwards and lastUnCtxt is
the current unit context. -/
theorem SetUnitContext_memo [Zero α] [IntCast α] [DecidableEq α] (E : UnitsEnv α)
    (pc : Paint α) (vp : Option (Viewport2D α)) (el : Vec2D α) :
    (pc.freshUnitContext E vp el).dotsSet = pc.dotsSet ∧
    (pc.freshUnitContext E vp el).lastUnCtxt = pc.lastUnCtxt ∧
    (pc.dotsSet = false ∨ (pc.freshUnitContext E vp el).UnContext ≠ pc.lastUnCtxt →
      pc.SetUnitContext E vp el =
        { E.ToDots (pc.freshUnitContext E vp el) with
          dotsSet := true
          lastUnCtxt := (E.ToDots (pc.freshUnitContext E vp el)).UnContext }) ∧
    (pc.SetUnitContext E vp el).dotsSet = true ∧
    (pc.SetUnitContext E vp el).lastUnCtxt = (pc.SetUnitContext E vp el).UnContext := by
  have hd : (pc.freshUnitContext E vp el).dotsSet = pc.dotsSet := rfl
  have hl : (pc.freshUnitContext E vp el).lastUnCtxt = pc.lastUnCtxt := rfl
  refine ⟨hd, hl, ?_, ?_, ?_⟩
  · intro h
    have hc : (!((pc.freshUnitContext E vp el).dotsSet &&
        decide ((pc.freshUnitContext E vp el).UnContext =
          (pc.freshUnitContext E vp el).lastUnCtxt) &&
        (pc.freshUnitContext E vp el).PropsNil)) = true := by
      rw [hd, hl]
      rcases h with h | h
      · simp [h]
      · simp [h]
    simp only [Paint.SetUnitContext, hc, if_true]
  · by_cases hc : (!((pc.freshUnitContext E vp el).dotsSet &&
        decide ((pc.freshUnitContext E vp el).UnContext =
          (pc.freshUnitContext E vp el).lastUnCtxt) &&
        (pc.freshUnitContext E vp el).PropsNil)) = true
    · simp only [Paint.SetUnitContext, hc, if_true]
    · simp only [Paint.SetUnitContext, hc, if_false]
      simp at hc
      exact hc.1.1
  · by_cases hc : (!((pc.freshUnitContext E vp el).dotsSet &&
        decide ((pc.freshUnitContext E vp el).UnContext =
          (pc.freshUnitContext E vp el).lastUnCtxt) &&
        (pc.freshUnitContext E vp el).PropsNil)) = true
    · simp only [Paint.SetUnitContext, hc, if_true]
    · simp only [Paint.SetUnitContext, hc, if_false]
      simp at hc
      exact hc.1.2.symm

/-- A witness for C22: a paint whose dots were never computed. -/
theorem SetUnitContext_memo_witness :
    (default : Paint ℚ).dotsSet = false ∧
    (default : Paint ℚ).SetUnitContext sampleUnits none { X := 0, Y := 0 } =
      { sampleUnits.ToDots ((default : Paint ℚ).freshUnitContext sampleUnits none
          { X := 0, Y := 0 }) with
        dotsSet := true
        lastUnCtxt := (sampleUnits.ToDots ((default : Paint ℚ).freshUnitContext sampleUnits
          none { X := 0, Y := 0 })).UnContext } :=
  ⟨rfl, (SetUnitContext_memo sampleUnits default none { X := 0, Y := 0 }).2.2.1 (Or.inl rfl)⟩

end FrameTheorems

/-! ## Regular polygons -/

section ShapeTheorems

/-- A run of LineTo calls on a state with a current point appends one line per
call and keeps the transform and the start of the subpath. -/
theorem foldl_LineTo_path {β : Type} (Fixed : Vec2D ℝ → Point26_6) (pc : Paint ℝ)
    (fx fy : β → ℝ) (l : List β) :
    ∀ rs : RenderState ℝ, rs.HasCurrent = true →
      (l.foldl (fun r p => pc.LineTo Fixed r (fx p) (fy p)) rs).Path =
        rs.Path ++ l.map (fun p => PathCmd.Line (Fixed (pc.TransformPoint rs (fx p) (fy p)))) ∧
      (l.foldl (fun r p => pc.LineTo Fixed r (fx p) (fy p)) rs).HasCurrent = true ∧
      (l.foldl (fun r p => pc.LineTo Fixed r (fx p) (fy p)) rs).XForm = rs.XForm ∧
      (l.foldl (fun r p => pc.LineTo Fixed r (fx p) (fy p)) rs).Start = rs.Start := by
  induction l with
  | nil => intro rs h; simp [h]
  | cons p ps ih =>
    intro rs h
    have h1 : pc.LineTo Fixed rs (fx p) (fy p) =
        { rs with
          Path := rs.Path ++ [PathCmd.Line (Fixed (pc.TransformPoint rs (fx p) (fy p)))]
          Current := pc.TransformPoint rs (fx p) (fy p) } := by
      simp [Paint.LineTo, h]
    obtain ⟨i1, i2, i3, i4⟩ := ih (pc.LineTo Fixed rs (fx p) (fy p)) (by rw [h1]; exact h)
    rw [List.foldl_cons]
    refine ⟨?_, i2, ?_, ?_⟩
    · rw [i1, h1]
      simp [Paint.TransformPoint]
    · rw [i3, h1]
    · rw [i4, h1]

/-- C24: for n at least 1 and the identity transform, DrawRegularPolygon appends
exactly one subpath: a start at vertex 0, a line to each of the vertices 1 to
n - 1 and a closing stop, where vertex i is x + r·cos a, y + r·sin a at the
angle a = rotation - π/2 + i·(2π/n), plus π/n when n is even; every vertex lies
at distance |r| from (x, y) and consecutive vertices are 2π/n apart in angle. -/
theorem DrawRegularPolygon_path (Fixed : Vec2D ℝ → Point26_6) (pc : Paint ℝ)
    (rs : RenderState ℝ) (n : Nat) (x y r rotation : ℝ)
    (hn : 1 ≤ n) (hI : rs.XForm = Identity2D) :
    (pc.DrawRegularPolygon Fixed rs (n : Int) x y r rotation).Path =
      rs.Path ++ (List.range n).map (fun i =>
        if i = 0 then PathCmd.Start (Fixed (regularPolygonVertex n x y r rotation i))
        else PathCmd.Line (Fixed (regularPolygonVertex n x y r rotation i))) ++
        [PathCmd.Stop true] ∧
    (∀ i : Nat, ((regularPolygonVertex n x y r rotation i).X - x) ^ 2 +
      ((regularPolygonVertex n x y r rotation i).Y - y) ^ 2 = |r| ^ 2) ∧
    (∀ i : Nat, regularPolygonVertex n x y r rotation i =
      { X := x + r * Real.cos (rotation - Real.pi / 2 + (i : ℝ) * (2 * Real.pi / (n : ℝ)) +
          (if n % 2 = 0 then Real.pi / (n : ℝ) else 0))
        Y := y + r * Real.sin (rotation - Real.pi / 2 + (i : ℝ) * (2 * Real.pi / (n : ℝ)) +
          (if n % 2 = 0 then Real.pi / (n : ℝ) else 0)) }) := by
  refine ⟨?_, ?_, fun i => rfl⟩
  · obtain ⟨k, rfl⟩ : ∃ k, n = k + 1 := ⟨n - 1, by omega⟩
    -- the angle of the code is the angle of the specification
    have hang : ∀ i : Nat,
        (if ((k + 1 : Nat) : Int) % 2 = 0 then
            rotation - Real.pi / 2 + 2 * Real.pi / (((k + 1 : Nat) : Int) : ℝ) / 2
          else rotation - Real.pi / 2) + 2 * Real.pi / (((k + 1 : Nat) : Int) : ℝ) * (i : ℝ) =
        rotation - Real.pi / 2 + (i : ℝ) * (2 * Real.pi / ((k + 1 : Nat) : ℝ)) +
          (if (k + 1) % 2 = 0 then Real.pi / ((k + 1 : Nat) : ℝ) else 0) := by
      intro i
      have hmod : (((k + 1 : Nat) : Int) % 2 = 0) ↔ ((k + 1) % 2 = 0) := by omega
      by_cases h2 : (k + 1) % 2 = 0
      · rw [if_pos (hmod.mpr h2), if_pos h2]
        push_cast
        ring
      · rw [if_neg (fun h => h2 (hmod.mp h)), if_neg h2]
        push_cast
        ring
    obtain ⟨fx, hfx⟩ : ∃ fx : Nat → ℝ, fx = fun i =>
        (regularPolygonVertex (k + 1) x y r rotation i).X := ⟨_, rfl⟩
    obtain ⟨fy, hfy⟩ : ∃ fy : Nat → ℝ, fy = fun i =>
        (regularPolygonVertex (k + 1) x y r rotation i).Y := ⟨_, rfl⟩
    have hv : ∀ i, regularPolygonVertex (k + 1) x y r rotation i = { X := fx i, Y := fy i } := by
      intro i; rw [hfx, hfy]
    have hcode : pc.DrawRegularPolygon Fixed rs ((k + 1 : Nat) : Int) x y r rotation =
        pc.ClosePath ((List.range (k + 1)).foldl
          (fun r0 i => pc.LineTo Fixed r0 (fx i) (fy i)) (pc.NewSubPath rs)) := by
      simp only [Paint.DrawRegularPolygon, Int.toNat_ofNat, hang, hfx, hfy,
        regularPolygonVertex]
    rw [hcode, List.range_succ_eq_map, List.foldl_cons, List.foldl_map]
    have h0 : pc.LineTo Fixed (pc.NewSubPath rs) (fx 0) (fy 0) =
        { rs with
          Path := rs.Path ++ [PathCmd.Start (Fixed { X := fx 0, Y := fy 0 })]
          Start := { X := fx 0, Y := fy 0 }
          Current := { X := fx 0, Y := fy 0 }
          HasCurrent := true } := by
      have hT := Identity2D_TransformPoint pc (pc.NewSubPath rs) hI (fx 0) (fy 0)
      simp only [Paint.LineTo, Paint.NewSubPath, Paint.MoveTo, Bool.not_false, if_true,
        Bool.false_eq_true, if_false]
      simp only [Paint.NewSubPath] at hT
      rw [hT]
    obtain ⟨p1, p2, p3, _⟩ := foldl_LineTo_path Fixed pc (fun i => fx (i + 1))
      (fun i => fy (i + 1)) (List.range k) (pc.LineTo Fixed (pc.NewSubPath rs) (fx 0) (fy 0))
      (by rw [h0])
    have hfold : (List.range k).foldl (fun r0 i => pc.LineTo Fixed r0 (fx (Nat.succ i))
        (fy (Nat.succ i))) (pc.LineTo Fixed (pc.NewSubPath rs) (fx 0) (fy 0)) =
        (List.range k).foldl (fun r0 i => pc.LineTo Fixed r0 (fx (i + 1)) (fy (i + 1)))
          (pc.LineTo Fixed (pc.NewSubPath rs) (fx 0) (fy 0)) := rfl
    rw [hfold]
    have hclose : ∀ r0 : RenderState ℝ, r0.HasCurrent = true →
        (pc.ClosePath r0).Path = r0.Path ++ [PathCmd.Stop true] := by
      intro r0 h
      simp [Paint.ClosePath, h]
    rw [hclose _ p2, p1, h0]
    have hT : ∀ a b : ℝ, pc.TransformPoint
        ({ rs with
          Path := rs.Path ++ [PathCmd.Start (Fixed { X := fx 0, Y := fy 0 })]
          Start := { X := fx 0, Y := fy 0 }
          Current := { X := fx 0, Y := fy 0 }
          HasCurrent := true } : RenderState ℝ) a b = { X := a, Y := b } :=
      fun a b => Identity2D_TransformPoint pc _ hI a b
    simp only [hT, hv, List.map_cons, List.map_map, if_true, List.append_assoc,
      List.cons_append, List.nil_append, List.singleton_append]
    congr 2
  · intro i
    simp only [regularPolygonVertex, sq_abs]
    have := Real.cos_sq_add_sin_sq (rotation - Real.pi / 2 + (i : ℝ) * (2 * Real.pi / (n : ℝ)) +
      (if n % 2 = 0 then Real.pi / (n : ℝ) else 0))
    linear_combination r ^ 2 * this

/-- A witness for C24: the triangle of radius 2 around (1, 1). -/
theorem DrawRegularPolygon_path_witness :
    1 ≤ 3 ∧ freshStateR.XForm = Identity2D ∧
    ((default : Paint ℝ).DrawRegularPolygon blankFixed freshStateR ((3 : Nat) : Int)
        1 1 2 0).Path =
      freshStateR.Path ++ (List.range 3).map (fun i =>
        if i = 0 then PathCmd.Start (blankFixed (regularPolygonVertex 3 1 1 2 0 i))
        else PathCmd.Line (blankFixed (regularPolygonVertex 3 1 1 2 0 i))) ++
        [PathCmd.Stop true] :=
  ⟨by decide, rfl,
    (DrawRegularPolygon_path blankFixed default freshStateR 3 1 1 2 0 (by decide)
      rfl).1⟩

end ShapeTheorems

/-! ## Arcs between two angles -/

section ArcQuadTheorems

/-- A run of rounds of the loop of DrawEllipticalArc on a state with a current
point and the identity transform appends one quadratic segment per round. -/
theorem foldl_ellipticalArcStep (Fixed : Vec2D ℝ → Point26_6) (pc : Paint ℝ)
    (cx cy rx ry angle1 angle2 : ℝ) (l : List Nat) :
    ∀ rs : RenderState ℝ, rs.HasCurrent = true → rs.XForm = Identity2D →
      (l.foldl (ellipticalArcStep Fixed pc cx cy rx ry angle1 angle2) rs).Path =
        rs.Path ++ l.map (arcQuadCmd Fixed cx cy rx ry angle1 angle2) := by
  induction l with
  | nil => intro rs _ _; simp
  | cons i is ih =>
    intro rs h hI
    have h1 : ellipticalArcStep Fixed pc cx cy rx ry angle1 angle2 rs i =
        { rs with
          Path := rs.Path ++ [arcQuadCmd Fixed cx cy rx ry angle1 angle2 i]
          Current := { X := (ellipticalArcSegment cx cy rx ry angle1 angle2 i).2.2.1
                       Y := (ellipticalArcSegment cx cy rx ry angle1 angle2 i).2.2.2 } } := by
      simp [ellipticalArcStep, Paint.QuadraticTo, h, arcQuadCmd,
        Identity2D_TransformPoint pc rs hI]
    rw [List.foldl_cons, ih _ (by rw [h1]; exact h) (by rw [h1]; exact hI), h1]
    simp

/-- C29: with the identity transform and no current point, DrawEllipticalArc
appends a start at the ellipse point of parameter angle1 followed by exactly 16
quadratic segments; segment i runs from the ellipse point at
angle1 + (angle2 - angle1)·i/16 to the one at angle1 + (angle2 - angle1)·(i+1)/16,
where segment i + 1 starts, and its control point makes the quadratic Bezier
curve pass, at t = 1/2, through the ellipse point at the middle parameter. -/
theorem DrawEllipticalArc_path (Fixed : Vec2D ℝ → Point26_6) (pc : Paint ℝ)
    (rs : RenderState ℝ) (cx cy rx ry angle1 angle2 : ℝ)
    (hI : rs.XForm = Identity2D) (hc : rs.HasCurrent = false) :
    (pc.DrawEllipticalArc Fixed rs cx cy rx ry angle1 angle2).Path =
      rs.Path ++ PathCmd.Start (Fixed { X := (ellipseAt cx cy rx ry angle1).1
                                        Y := (ellipseAt cx cy rx ry angle1).2 }) ::
        (List.range 16).map (arcQuadCmd Fixed cx cy rx ry angle1 angle2) ∧
    ((List.range 16).map (arcQuadCmd Fixed cx cy rx ry angle1 angle2)).length = 16 ∧
    (∀ i : Nat,
      (ellipticalArcSegment cx cy rx ry angle1 angle2 i).1 =
        ellipseAt cx cy rx ry (angle1 + (angle2 - angle1) * ((i : ℝ) / 16)) ∧
      (ellipticalArcSegment cx cy rx ry angle1 angle2 i).2.2 =
        ellipseAt cx cy rx ry (angle1 + (angle2 - angle1) * (((i : ℝ) + 1) / 16)) ∧
      (ellipticalArcSegment cx cy rx ry angle1 angle2 (i + 1)).1 =
        (ellipticalArcSegment cx cy rx ry angle1 angle2 i).2.2 ∧
      ((1 / 4) * (ellipticalArcSegment cx cy rx ry angle1 angle2 i).1.1 +
          (1 / 2) * (ellipticalArcSegment cx cy rx ry angle1 angle2 i).2.1.1 +
          (1 / 4) * (ellipticalArcSegment cx cy rx ry angle1 angle2 i).2.2.1,
        (1 / 4) * (ellipticalArcSegment cx cy rx ry angle1 angle2 i).1.2 +
          (1 / 2) * (ellipticalArcSegment cx cy rx ry angle1 angle2 i).2.1.2 +
          (1 / 4) * (ellipticalArcSegment cx cy rx ry angle1 angle2 i).2.2.2) =
        ellipseAt cx cy rx ry
          ((angle1 + (angle2 - angle1) * ((i : ℝ) / 16) +
            (angle1 + (angle2 - angle1) * (((i : ℝ) + 1) / 16))) / 2)) := by
  refine ⟨?_, by simp, ?_⟩
  · have hstep0 : ellipticalArcStep Fixed pc cx cy rx ry angle1 angle2 rs 0 =
        { rs with
          Path := rs.Path ++ [PathCmd.Start (Fixed { X := (ellipseAt cx cy rx ry angle1).1
                                                     Y := (ellipseAt cx cy rx ry angle1).2 }),
            arcQuadCmd Fixed cx cy rx ry angle1 angle2 0]
          Start := { X := (ellipseAt cx cy rx ry angle1).1
                     Y := (ellipseAt cx cy rx ry angle1).2 }
          Current := { X := (ellipticalArcSegment cx cy rx ry angle1 angle2 0).2.2.1
                       Y := (ellipticalArcSegment cx cy rx ry angle1 angle2 0).2.2.2 }
          HasCurrent := true } := by
      have hT : ∀ a b : ℝ, pc.TransformPoint rs a b = { X := a, Y := b } :=
        Identity2D_TransformPoint pc rs hI
      have hs0 : (ellipticalArcSegment cx cy rx ry angle1 angle2 0).1 =
          ellipseAt cx cy rx ry angle1 := by
        simp [ellipticalArcSegment, ellipseAt]
      simp [ellipticalArcStep, Paint.QuadraticTo, Paint.MoveTo, hc, arcQuadCmd, hs0,
        Paint.TransformPoint, XFormMatrix2D.TransformPoint, hI, Identity2D]
    have h16 : List.range 16 = 0 :: (List.range 15).map Nat.succ := List.range_succ_eq_map 15
    have hfold := foldl_ellipticalArcStep Fixed pc cx cy rx ry angle1 angle2
      ((List.range 15).map Nat.succ)
      (ellipticalArcStep Fixed pc cx cy rx ry angle1 angle2 rs 0)
      (by rw [hstep0]) (by rw [hstep0]; exact hI)
    rw [Paint.DrawEllipticalArc, h16, List.foldl_cons, hfold, hstep0]
    simp
  · intro i
    refine ⟨?_, ?_, ?_, ?_⟩
    · simp [ellipticalArcSegment, ellipseAt]
    · simp [ellipticalArcSegment, ellipseAt]
    · simp only [ellipticalArcSegment]
      push_cast
      simp
    · simp only [ellipticalArcSegment, ellipseAt, Prod.mk.injEq]
      have ha : angle1 + (angle2 - angle1) * (((i : ℝ) + 0) / 16) +
          (angle1 + (angle2 - angle1) * (((i : ℝ) + 1) / 16) -
            (angle1 + (angle2 - angle1) * (((i : ℝ) + 0) / 16))) / 2 =
          (angle1 + (angle2 - angle1) * ((i : ℝ) / 16) +
            (angle1 + (angle2 - angle1) * (((i : ℝ) + 1) / 16))) / 2 := by ring
      rw [ha]
      constructor <;> ring

/-- A witness for C29: the upper half of the unit circle. -/
theorem DrawEllipticalArc_path_witness :
    freshStateR.XForm = Identity2D ∧ freshStateR.HasCurrent = false ∧
    ((default : Paint ℝ).DrawEllipticalArc blankFixed freshStateR 0 0 1 1 0
        Real.pi).Path =
      freshStateR.Path ++ PathCmd.Start (blankFixed
          { X := (ellipseAt 0 0 1 1 0).1, Y := (ellipseAt 0 0 1 1 0).2 }) ::
        (List.range 16).map (arcQuadCmd blankFixed 0 0 1 1 0 Real.pi) :=
  ⟨rfl, rfl,
    (DrawEllipticalArc_path blankFixed default freshStateR 0 0 1 1 0 Real.pi rfl
      rfl).1⟩

end ArcQuadTheorems

/-! ## The sweep of an elliptical arc -/

section SweepTheorems

/-- The corrected sweep does not depend on the large-arc flag: it is the
difference etaEnd - etaStart brought into [0, 2π) when sweep is set and into
[-2π, 0) when it is not. -/
theorem arcDeltaEta_eq (cx cy ocx ocy pcx pcy rx ry angle : ℝ) (largeArc sweep : Bool) :
    arcDeltaEta cx cy ocx ocy pcx pcy rx ry angle largeArc sweep =
      if sweep = true then
        (if arcEtaEnd cx cy ocx ocy rx ry angle - arcEtaStart cx cy pcx pcy rx ry angle < 0 then
          arcEtaEnd cx cy ocx ocy rx ry angle - arcEtaStart cx cy pcx pcy rx ry angle +
            2 * Real.pi
        else arcEtaEnd cx cy ocx ocy rx ry angle - arcEtaStart cx cy pcx pcy rx ry angle)
      else
        (if 0 ≤ arcEtaEnd cx cy ocx ocy rx ry angle - arcEtaStart cx cy pcx pcy rx ry angle then
          arcEtaEnd cx cy ocx ocy rx ry angle - arcEtaStart cx cy pcx pcy rx ry angle -
            2 * Real.pi
        else arcEtaEnd cx cy ocx ocy rx ry angle - arcEtaStart cx cy pcx pcy rx ry angle) := by
  have hpi := Real.pi_pos
  obtain ⟨h1, h2⟩ := Atan2_range
    (Real.sin (Atan2 (pcy - cy) (pcx - cx) - angle * Real.pi / 180) / ry)
    (Real.cos (Atan2 (pcy - cy) (pcx - cx) - angle * Real.pi / 180) / rx)
  obtain ⟨h3, h4⟩ := Atan2_range
    (Real.sin (Atan2 (ocy - cy) (ocx - cx) - angle * Real.pi / 180) / ry)
    (Real.cos (Atan2 (ocy - cy) (ocx - cx) - angle * Real.pi / 180) / rx)
  simp only [arcDeltaEta, arcEtaEnd, arcEtaStart]
  obtain ⟨es, hes⟩ : ∃ t, t = Atan2
    (Real.sin (Atan2 (pcy - cy) (pcx - cx) - angle * Real.pi / 180) / ry)
    (Real.cos (Atan2 (pcy - cy) (pcx - cx) - angle * Real.pi / 180) / rx) := ⟨_, rfl⟩
  obtain ⟨ee, hee⟩ : ∃ t, t = Atan2
    (Real.sin (Atan2 (ocy - cy) (ocx - cx) - angle * Real.pi / 180) / ry)
    (Real.cos (Atan2 (ocy - cy) (ocx - cx) - angle * Real.pi / 180) / rx) := ⟨_, rfl⟩
  rw [← hes] at h1 h2 ⊢
  rw [← hee] at h3 h4 ⊢
  cases sweep <;> cases largeArc <;>
    simp only [and_true, and_false, or_false, false_or, or_true, true_and, false_and,
      Bool.true_eq_false, Bool.false_eq_true, if_true, if_false, ge_iff_le, gt_iff_lt,
      not_false_eq_true, not_true_eq_false] <;>
    split_ifs <;> linarith

/-- C28: for positive radii, the corrected sweep deltaEta differs from
etaEnd - etaStart by a multiple of 2π and lies in [0, 2π) when sweep is set and
in [-2π, 0) when it is not, and it is the only such value; so deltaEta, and with
it everything DrawEllipticalArcPath does, is the same for largeArc true and
largeArc false. -/
theorem arcDeltaEta_normal (Fixed : Vec2D ℝ → Point26_6) (pc : Paint ℝ)
    (rs : RenderState ℝ) (cx cy ocx ocy pcx pcy rx ry angle : ℝ) (largeArc sweep : Bool)
    (hrx : 0 < rx) (hry : 0 < ry) :
    (∃ k : Int, arcDeltaEta cx cy ocx ocy pcx pcy rx ry angle largeArc sweep =
      arcEtaEnd cx cy ocx ocy rx ry angle - arcEtaStart cx cy pcx pcy rx ry angle +
        (k : ℝ) * (2 * Real.pi)) ∧
    (sweep = true →
      0 ≤ arcDeltaEta cx cy ocx ocy pcx pcy rx ry angle largeArc sweep ∧
      arcDeltaEta cx cy ocx ocy pcx pcy rx ry angle largeArc sweep < 2 * Real.pi) ∧
    (sweep = false →
      -(2 * Real.pi) ≤ arcDeltaEta cx cy ocx ocy pcx pcy rx ry angle largeArc sweep ∧
      arcDeltaEta cx cy ocx ocy pcx pcy rx ry angle largeArc sweep < 0) ∧
    (∀ (d : ℝ) (k : Int),
      d = arcEtaEnd cx cy ocx ocy rx ry angle - arcEtaStart cx cy pcx pcy rx ry angle +
        (k : ℝ) * (2 * Real.pi) →
      ((sweep = true ∧ 0 ≤ d ∧ d < 2 * Real.pi) ∨
        (sweep = false ∧ -(2 * Real.pi) ≤ d ∧ d < 0)) →
      d = arcDeltaEta cx cy ocx ocy pcx pcy rx ry angle largeArc sweep) ∧
    arcDeltaEta cx cy ocx ocy pcx pcy rx ry angle true sweep =
      arcDeltaEta cx cy ocx ocy pcx pcy rx ry angle false sweep ∧
    pc.DrawEllipticalArcPath Fixed rs cx cy ocx ocy pcx pcy rx ry angle true sweep =
      pc.DrawEllipticalArcPath Fixed rs cx cy ocx ocy pcx pcy rx ry angle false sweep := by
  have hpi := Real.pi_pos
  have heq := arcDeltaEta_eq cx cy ocx ocy pcx pcy rx ry angle
  have hindep : arcDeltaEta cx cy ocx ocy pcx pcy rx ry angle true sweep =
      arcDeltaEta cx cy ocx ocy pcx pcy rx ry angle false sweep := by
    rw [heq true sweep, heq false sweep]
  obtain ⟨hlo, hhi⟩ := arcDeltaEta_range cx cy ocx ocy pcx pcy rx ry angle largeArc sweep
  have hk : ∃ k : Int, arcDeltaEta cx cy ocx ocy pcx pcy rx ry angle largeArc sweep =
      arcEtaEnd cx cy ocx ocy rx ry angle - arcEtaStart cx cy pcx pcy rx ry angle +
        (k : ℝ) * (2 * Real.pi) := by
    rw [heq largeArc sweep]
    split_ifs
    · exact ⟨1, by push_cast; ring⟩
    · exact ⟨0, by push_cast; ring⟩
    · exact ⟨-1, by push_cast; ring⟩
    · exact ⟨0, by push_cast; ring⟩
  have hs1 : sweep = true →
      0 ≤ arcDeltaEta cx cy ocx ocy pcx pcy rx ry angle largeArc sweep := by
    intro hs
    rw [heq largeArc sweep, if_pos hs]
    obtain ⟨h1, h2⟩ := Atan2_range
      (Real.sin (Atan2 (pcy - cy) (pcx - cx) - angle * Real.pi / 180) / ry)
      (Real.cos (Atan2 (pcy - cy) (pcx - cx) - angle * Real.pi / 180) / rx)
    obtain ⟨h3, h4⟩ := Atan2_range
      (Real.sin (Atan2 (ocy - cy) (ocx - cx) - angle * Real.pi / 180) / ry)
      (Real.cos (Atan2 (ocy - cy) (ocx - cx) - angle * Real.pi / 180) / rx)
    simp only [arcEtaEnd, arcEtaStart]
    split_ifs <;> linarith
  have hs0 : sweep = false →
      arcDeltaEta cx cy ocx ocy pcx pcy rx ry angle largeArc sweep < 0 := by
    intro hs
    rw [heq largeArc sweep, if_neg (by simp [hs])]
    obtain ⟨h1, h2⟩ := Atan2_range
      (Real.sin (Atan2 (pcy - cy) (pcx - cx) - angle * Real.pi / 180) / ry)
      (Real.cos (Atan2 (pcy - cy) (pcx - cx) - angle * Real.pi / 180) / rx)
    obtain ⟨h3, h4⟩ := Atan2_range
      (Real.sin (Atan2 (ocy - cy) (ocx - cx) - angle * Real.pi / 180) / ry)
      (Real.cos (Atan2 (ocy - cy) (ocx - cx) - angle * Real.pi / 180) / rx)
    simp only [arcEtaEnd, arcEtaStart]
    split_ifs <;> linarith
  refine ⟨hk, fun hs => ⟨hs1 hs, hhi⟩, fun hs => ⟨hlo, hs0 hs⟩, ?_, hindep, ?_⟩
  · intro d k hd hrange
    obtain ⟨k0, hk0⟩ := hk
    -- two values in the same half-open interval of length 2π that differ by a
    -- multiple of 2π are equal
    have hdiff : d - arcDeltaEta cx cy ocx ocy pcx pcy rx ry angle largeArc sweep =
        ((k - k0 : Int) : ℝ) * (2 * Real.pi) := by
      rw [hd, hk0]
      push_cast
      ring
    have hlt : |d - arcDeltaEta cx cy ocx ocy pcx pcy rx ry angle largeArc sweep| <
        2 * Real.pi := by
      rw [abs_lt]
      rcases hrange with ⟨hs, h0, h1⟩ | ⟨hs, h0, h1⟩
      · have := hs1 hs
        constructor <;> linarith
      · have := hs0 hs
        constructor <;> linarith
    have hz : (k - k0 : Int) = 0 := by
      by_contra hne
      have h1 : (1 : ℝ) ≤ |((k - k0 : Int) : ℝ)| := by
        have : (1 : Int) ≤ |k - k0| := Int.one_le_abs hne
        exact_mod_cast this
      rw [hdiff, abs_mul, abs_of_pos (by positivity : (0 : ℝ) < 2 * Real.pi)] at hlt
      nlinarith
    rw [hz] at hdiff
    simp at hdiff
    linarith
  · rw [DrawEllipticalArcPath_of_radii Fixed pc rs cx cy ocx ocy pcx pcy rx ry angle true sweep
      hrx.ne.symm hry.ne.symm,
      DrawEllipticalArcPath_of_radii Fixed pc rs cx cy ocx ocy pcx pcy rx ry angle false sweep
      hrx.ne.symm hry.ne.symm, hindep]

/-- A witness for C28: the quarter of the unit circle from (1, 0) to (0, 1). -/
theorem arcDeltaEta_normal_witness :
    (0 : ℝ) < 1 ∧
    arcDeltaEta 0 0 0 1 1 0 1 1 0 true true = arcDeltaEta 0 0 0 1 1 0 1 1 0 false true :=
  ⟨by norm_num,
    (arcDeltaEta_normal (fun _ => default) default default 0 0 0 1 1 0 1 1 0 false true
      (by norm_num) (by norm_num)).2.2.2.2.1⟩

end SweepTheorems

/-! ## Anchored images and text -/

section ImageTextTheorems

variable {α : Type}

/-- C25, the code at the failing input: drawing a 10 by 10 image anchored at its
centre (ax = ay = 1/2) on the point (50, 50) of a 100 by 100 destination, the
code takes the size of the destination, not of the image drawn, and moves the
origin of the image to (0, 0); with the size of the image drawn the anchor
would be (45, 45). -/
theorem DrawImageAnchored_uses_destination_size
    (Transform : RGBA → XFormMatrix2D ℚ → RGBA → Option Alpha → RGBA) (pc : Paint ℚ) :
    pc.imageAnchor freshState 50 50 (1 / 2) (1 / 2) = some (0, 0) ∧
    ((50 : Int) - truncInt ((1 / 2 : ℚ) *
        (((image10.Bounds.Max.X - image10.Bounds.Min.X : Int)) : ℚ)),
      (50 : Int) - truncInt ((1 / 2 : ℚ) *
        (((image10.Bounds.Max.Y - image10.Bounds.Min.Y : Int)) : ℚ))) = (45, 45) ∧
    pc.DrawImageAnchored Transform freshState image10 50 50 (1 / 2) (1 / 2) =
      some { freshState with
        Image := some (Transform image100 (freshState.XForm.Translate 0 0) image10 none) } := by
  have hb : freshState.ImageBounds = some ⟨⟨0, 0⟩, ⟨100, 100⟩⟩ := rfl
  have h50 : truncInt ((1 / 2 : ℚ) * (((100 - 0 : Int)) : ℚ)) = 50 := by
    norm_num [truncInt]
  have h5 : truncInt ((1 / 2 : ℚ) * (((10 - 0 : Int)) : ℚ)) = 5 := by
    norm_num [truncInt]
  have ha : pc.imageAnchor freshState 50 50 (1 / 2) (1 / 2) = some (0, 0) := by
    simp only [Paint.imageAnchor, hb, Option.bind_eq_bind, Option.some_bind, h50]
    rfl
  refine ⟨ha, ?_, ?_⟩
  · show ((50 : Int) - truncInt ((1 / 2 : ℚ) * (((10 - 0 : Int)) : ℚ)),
      (50 : Int) - truncInt ((1 / 2 : ℚ) * (((10 - 0 : Int)) : ℚ))) = (45, 45)
    rw [h5]
    rfl
  · simp only [Paint.DrawImageAnchored, ha, Option.bind_eq_bind, Option.some_bind]
    rfl

/-- C26, the code at the failing input: a string that measures 10 by 4 is
anchored with ax = ay = 1/2 on the point (50, 50) under the identity transform.
The code computes ty + ay·h and hands drawString the position (45, 52), both
when there is no mask (it draws on the image) and when there is one (it draws
on a new image that is then laid over the image through the mask); the anchor
point (tx - ax·w, ty - ay·h) is (45, 48). -/
theorem DrawStringAnchored_adds_height
    (draw : Paint ℚ → RenderState ℚ → RGBA → Rectangle → String → ℚ → ℚ → RGBA)
    (over : RGBA → Rectangle → RGBA → Point → Alpha → Point → RGBA) :
    (fontPaint.MeasureString (tenWideText draw over) "ab").2 = (10, 4) ∧
    freshState.XForm.TransformPoint (50 : ℚ) 50 = (50, 50) ∧
    fontPaint.stringAnchor (tenWideText draw over) freshState "ab" 50 50 (1 / 2) (1 / 2) =
      (45, 52) ∧
    fontPaint.DrawStringAnchored (tenWideText draw over) freshState "ab" 50 50 (1 / 2) (1 / 2) 0 =
      some (fontPaint, { freshState with
        Image := some (draw fontPaint freshState image100 freshState.Bounds "ab" 45 52) }) ∧
    fontPaint.DrawStringAnchored (tenWideText draw over) maskedState "ab" 50 50 (1 / 2) (1 / 2) 0 =
      some (fontPaint, { maskedState with
        Image := some (over image100 image100.Bounds
          (draw fontPaint maskedState (NewRGBA image100.Bounds) maskedState.Bounds "ab" 45 52)
          ⟨0, 0⟩ mask100 ⟨0, 0⟩) }) ∧
    (((50 : ℚ) - (1 / 2) * 10, (50 : ℚ) - (1 / 2) * 4) : ℚ × ℚ) = (45, 48) ∧
    ((45 : ℚ), (52 : ℚ)) ≠ (45, 48) := by
  have hm : (fontPaint.MeasureString (tenWideText draw over) "ab") = (fontPaint, 10, 4) := rfl
  have ht : freshState.XForm.TransformPoint (50 : ℚ) 50 = (50, 50) := by
    simp [freshState, XFormMatrix2D.TransformPoint, Identity2D]
  have ht1 : maskedState.XForm.TransformPoint (50 : ℚ) 50 = (50, 50) := ht
  have hs : fontPaint.stringAnchor (tenWideText draw over) freshState "ab" 50 50 (1 / 2)
      (1 / 2) = (45, 52) := by
    simp only [Paint.stringAnchor, hm, ht]
    norm_num
  have hs1 : fontPaint.stringAnchor (tenWideText draw over) maskedState "ab" 50 50 (1 / 2)
      (1 / 2) = (45, 52) := hs
  have hi : freshState.Image = some image100 := rfl
  have hk : freshState.Mask = none := rfl
  have hi1 : maskedState.Image = some image100 := rfl
  have hk1 : maskedState.Mask = some mask100 := rfl
  refine ⟨by rw [hm], ht, hs, ?_, ?_, by norm_num, ?_⟩
  · simp only [Paint.DrawStringAnchored, hs, hm, hi, hk, Option.bind_eq_bind, Option.some_bind]
    rfl
  · simp only [Paint.DrawStringAnchored, hs1, hm, hi1, hk1, Option.bind_eq_bind,
      Option.some_bind]
    rfl
  · intro h
    have h2 := congrArg Prod.snd h
    norm_num at h2

end ImageTextTheorems

/-! ## ComboBox and NodeSignals -/

section ComboTheorems

variable {B V : Type}

/-- FindItem on a list that does not hold the item gives -1. -/
theorem findItemFrom_not_mem [DecidableEq V] (it : V) (l : List V) :
    ∀ i : Int, it ∉ l → findItemFrom it i l = -1 := by
  induction l with
  | nil => intro i _; rfl
  | cons v vs ih =>
    intro i h
    have hv : v ≠ it := fun e => h (by simp [e])
    have hvs : it ∉ vs := fun e => h (by simp [e])
    simp only [findItemFrom, if_neg hv]
    exact ih (i + 1) hvs

/-- FindItem on a list that holds the item gives the index of its first
occurrence, counted from the index of the head. -/
theorem findItemFrom_mem [DecidableEq V] (it : V) (l : List V) :
    ∀ i : Int, it ∈ l →
      ∃ k : Nat, findItemFrom it i l = i + k ∧ l[k]? = some it ∧
        ∀ j : Nat, j < k → l[j]? ≠ some it := by
  induction l with
  | nil => intro i h; simp at h
  | cons v vs ih =>
    intro i h
    by_cases hv : v = it
    · refine ⟨0, ?_, ?_, ?_⟩
      · simp [findItemFrom, hv]
      · simp [hv]
      · intro j hj; omega
    · have hvs : it ∈ vs := by
        rcases List.mem_cons.mp h with e | e
        · exact absurd e.symm hv
        · exact e
      obtain ⟨k, h1, h2, h3⟩ := ih (i + 1) hvs
      refine ⟨k + 1, ?_, ?_, ?_⟩
      · simp only [findItemFrom, if_neg hv, h1]
        push_cast
        ring
      · simpa using h2
      · intro j hj
        cases j with
        | zero =>
          simp only [List.getElem?_cons_zero, ne_eq, Option.some.injEq]
          exact hv
        | succ j =>
          simp only [List.getElem?_cons_succ]
          exact h3 j (by omega)

/-- C27: SetCurVal(it) returns an index i such that afterwards CurIndex = i,
CurVal = it and Items[i] = it; when it already occurs in Items the list is
unchanged and i is the index of its first occurrence, the result of FindItem;
otherwise Items is the old list with it appended and i is the old length. -/
theorem SetCurVal_result [DecidableEq V] (SetText : B → String → B) (ToLabel : V → String)
    (cb : ComboBox B V) (it : V) :
    (cb.SetCurVal SetText ToLabel it).1.CurIndex = (cb.SetCurVal SetText ToLabel it).2 ∧
    (cb.SetCurVal SetText ToLabel it).1.CurVal = it ∧
    0 ≤ (cb.SetCurVal SetText ToLabel it).2 ∧
    (cb.SetCurVal SetText ToLabel it).1.Items[(cb.SetCurVal SetText ToLabel it).2.toNat]? =
      some it ∧
    (it ∈ cb.Items →
      (cb.SetCurVal SetText ToLabel it).1.Items = cb.Items ∧
      (cb.SetCurVal SetText ToLabel it).2 = cb.FindItem it ∧
      ∀ j : Nat, (j : Int) < (cb.SetCurVal SetText ToLabel it).2 → cb.Items[j]? ≠ some it) ∧
    (it ∉ cb.Items →
      (cb.SetCurVal SetText ToLabel it).1.Items = cb.Items ++ [it] ∧
      (cb.SetCurVal SetText ToLabel it).2 = (cb.Items.length : Int)) := by
  by_cases hmem : it ∈ cb.Items
  · obtain ⟨k, h1, h2, h3⟩ := findItemFrom_mem it cb.Items 0 hmem
    have hf : cb.FindItem it = (k : Int) := by
      rw [ComboBox.FindItem, h1]; simp
    have hnn : ¬ ((k : Int) < 0) := by omega
    have hres : cb.SetCurVal SetText ToLabel it =
        ({ cb with
          CurVal := it, CurIndex := (k : Int)
          ButtonBase := SetText cb.ButtonBase (ToLabel it) }, (k : Int)) := by
      simp only [ComboBox.SetCurVal, ComboBox.FindItem] at hf ⊢
      simp only [hf, hnn, if_false]
    rw [hres]
    refine ⟨rfl, rfl, by simp, by simpa using h2, fun _ => ⟨rfl, hf.symm, ?_⟩,
      fun h => absurd hmem h⟩
    intro j hj
    exact h3 j (by simpa using hj)
  · have hf : cb.FindItem it = -1 := findItemFrom_not_mem it cb.Items 0 hmem
    have hres : cb.SetCurVal SetText ToLabel it =
        ({ cb with
          CurVal := it, CurIndex := (cb.Items.length : Int), Items := cb.Items ++ [it]
          ButtonBase := SetText cb.ButtonBase (ToLabel it) }, (cb.Items.length : Int)) := by
      simp only [ComboBox.SetCurVal, ComboBox.FindItem] at hf ⊢
      simp [hf]
    rw [hres]
    refine ⟨rfl, rfl, by simp, by simp, fun h => absurd h hmem, fun _ => ⟨rfl, rfl⟩⟩

/-- A witness for C27: on the items 7, 8, 7 the value 7 is found at index 0 and
the value 9 is appended at index 3. -/
theorem SetCurVal_result_witness :
    (7 : Nat) ∈ sampleCombo.Items ∧
    (sampleCombo.SetCurVal (fun _ t => t) toString 7).1.Items = sampleCombo.Items ∧
    (sampleCombo.SetCurVal (fun _ t => t) toString 7).2 = sampleCombo.FindItem 7 ∧
    (9 : Nat) ∉ sampleCombo.Items ∧
    (sampleCombo.SetCurVal (fun _ t => t) toString 9).1.Items = sampleCombo.Items ++ [9] ∧
    (sampleCombo.SetCurVal (fun _ t => t) toString 9).2 = (sampleCombo.Items.length : Int) :=
  ⟨by decide,
    ((SetCurVal_result (fun _ t => t) toString sampleCombo 7).2.2.2.2.1 (by decide)).1,
    ((SetCurVal_result (fun _ t => t) toString sampleCombo 7).2.2.2.2.1 (by decide)).2.1,
    by decide,
    ((SetCurVal_result (fun _ t => t) toString sampleCombo 9).2.2.2.2.2 (by decide)).1,
    ((SetCurVal_result (fun _ t => t) toString sampleCombo 9).2.2.2.2.2 (by decide)).2⟩

end ComboTheorems

section NodeSignalsTheorems

/-- The five names of the table. -/
theorem NodeSignals_names :
    NodeSignals_slice 0 = "NodeSignalNil" ∧ NodeSignals_slice 1 = "NodeSignalUpdated" ∧
    NodeSignals_slice 2 = "NodeSignalDeleting" ∧
    NodeSignals_slice 3 = "NodeSignalDestroying" ∧ NodeSignals_slice 4 = "NodeSignalsN" := by
  refine ⟨?_, ?_, ?_, ?_, ?_⟩ <;> decide

/-- C30: for every value i from 0 to 4, FromString applied to i.String()
returns no error and sets the receiver to i, whatever the receiver held; the
five names are pairwise distinct. -/
theorem NodeSignals_roundtrip (i recv : Int) (h0 : 0 ≤ i) (h4 : i ≤ 4) :
    NodeSignals_FromString recv (NodeSignals_String i) = (i, none) ∧
    [NodeSignals_slice 0, NodeSignals_slice 1, NodeSignals_slice 2, NodeSignals_slice 3,
      NodeSignals_slice 4].Nodup := by
  obtain ⟨n0, n1, n2, n3, n4⟩ := NodeSignals_names
  constructor
  · interval_cases i
    all_goals simp [NodeSignals_FromString, NodeSignals_String, NodeSignals_index,
      NodeSignals_find, n0, n1, n2, n3, n4]
  · rw [n0, n1, n2, n3, n4]
    decide

/-- A witness for C30: the value 3, NodeSignalDestroying, read back into a
receiver that held 0. -/
theorem NodeSignals_roundtrip_witness :
    (0 : Int) ≤ 3 ∧ (3 : Int) ≤ 4 ∧
    NodeSignals_FromString 0 (NodeSignals_String 3) = (3, none) :=
  ⟨by decide, by decide, (NodeSignals_roundtrip 3 0 (by decide) (by decide)).1⟩

end NodeSignalsTheorems

end Gi
